import Mathlib

/-!
# Feishu client: credential cache, request pipeline and webhook

A shallow embedding of the Go package `feishu` (files `fstoken.go`, `api.go`,
`app.go`, `api_access_token.go`, `x_request.go`, `api_messenger_events.go`,
`api_messenger_group.go`, `api_messenger_msg_builder.go`) together with the
properties of its credential cache, of its request pipeline, of its webhook
and of its message builders.

Conventions of the embedding

* `time.Time` is an `Int`, a number of nanoseconds on one time line, and
  `time.Duration` is an `Int`, a number of nanoseconds in the `int64` range.
  Every call of `time.Now()` in the source becomes an explicit argument.
* Pointer receivers become explicit state passing: a method that mutates its
  receiver returns the new value of the receiver.
* Mutexes are not modelled: every function is a sequential run of its body.
* What a function does to the outside world (lines sent to the logger, files
  opened and closed, the timeout written to the HTTP client, requests sent) is
  returned as a list of effects next to its results.
* The standard library (`encoding/json`, `net/url`, `net/http`, `os`) and the
  remote service are parameters, gathered in `Env`.
* For the webhook, base64, SHA-256, AES-CBC and the JSON decoders of its
  structs are parameters, gathered in `EventEnv`; a `go` statement that
  starts a handler is an effect, and so are `WriteHeader` and `Write` on the
  response. `ListenEventCallback` is cut at its `switch` statement into
  `decodeEvent` and `dispatchEvent`.
* A run-time panic is a result of its own, next to values and errors.
* A map that a caller hands to the package is a reference to a map object
  (`MapRef`): `withDoQuery` can make it the query itself, and writes made to
  the query afterwards are writes to that object.
* The builders of `api_messenger_msg_builder.go` return closures; a closure
  is the value it returns when called, and a nil closure is `none`. Strings
  are sequences of characters, that is well-formed UTF-8.
-/

namespace Feishu

/-! ## Time (package `time` of the standard library) -/

/-- The smallest `time.Duration`. -/
def minDuration : Int := -9223372036854775808

/-- The largest `time.Duration`. -/
def maxDuration : Int := 9223372036854775807

/-- A value is representable as an `int64`. -/
def isInt64 (x : Int) : Prop := minDuration ≤ x ∧ x ≤ maxDuration

instance (x : Int) : Decidable (isInt64 x) := by
  unfold isInt64; exact inferInstance

/-- Two's complement wrap-around of an integer to `int64`. -/
def wrapInt64 (x : Int) : Int := (x + 9223372036854775808) % 18446744073709551616 - 9223372036854775808

/-- The constant `time.Second`. -/
def Second : Int := 1000000000

/-- The constant `time.Minute`. -/
def Minute : Int := 60 * Second

/-- The method `Time.Add`: the instant `d` after `t` (exact: instants range
much further than durations). -/
def timeAdd (t : Int) (d : Int) : Int := t + d

/-- The method `Time.Sub`: the duration `t - u`, saturated to the range of
`time.Duration` as the standard library documents. -/
def timeSub (t u : Int) : Int := max minDuration (min maxDuration (t - u))

/-- The zero `time.Time`. -/
def zeroTime : Int := 0

/-! ## `fstoken.go` -/

/-- The struct `fsToken` (its embedded mutex is not modelled). -/
structure fsToken where
  val : String
  expiration : Int
  min : Int
deriving DecidableEq, Repr

/-- The zero value of `fsToken`, as held by a freshly built `app`. -/
def fsToken.zero : fsToken := { val := "", expiration := zeroTime, min := 0 }

/-- The method `fsToken.get`. -/
def fsToken.get (t : fsToken) : String := t.val

/-- The method `fsToken.set`; `now` is the reading of `time.Now()`. -/
def fsToken.set (t : fsToken) (now : Int) (val : String) (lifetime : Int) (min : Int) : fsToken :=
  { t with val := val, expiration := timeAdd now lifetime, min := min }

/-- The method `fsToken.isEmpty`. -/
def fsToken.isEmpty (t : fsToken) : Bool := t.val == ""

/-- The method `fsToken.notExpired`; `now` is the reading of `time.Now()`. -/
def fsToken.notExpired (t : fsToken) (now : Int) : Bool :=
  decide (timeSub t.expiration now > t.min)

/-! ## Errors (the `error` interface, `fmt.Errorf`) -/

/-- A non-nil Go `error` value: either an error without a wrapped cause, or
the result of `fmt.Errorf` with a `%w` verb, which keeps its operand. A nil
`error` is `none` of `Option GoError`. -/
inductive GoError where
  | errorString (msg : String)
  | wrapError (msg : String) (err : GoError)
deriving DecidableEq, Repr

/-- The method `Error()` of an error value. -/
def GoError.Error : GoError → String
  | .errorString msg => msg
  | .wrapError msg _ => msg

/-- The method `Unwrap()` as seen by `errors.Unwrap`. -/
def GoError.Unwrap : GoError → Option GoError
  | .errorString _ => none
  | .wrapError _ err => some err

/-- The verb `%d` applied to a Go `int`. -/
def fmtInt (n : Int) : String := toString n

/-! ## `api.go` -/

/-- The constant `_openBaseURL`. -/
def _openBaseURL : String := "https://open.feishu.cn"

/-- The call `fmt.Errorf(_fmtErrNotSupported, domain, apiName)`,
format `[%s] %s: not supported`. -/
def _fmtErrNotSupported (domain apiName : String) : GoError :=
  .errorString ("[" ++ domain ++ "] " ++ apiName ++ ": not supported")

/-- The call `fmt.Errorf(_fmtErrNoReqID, domain, apiName, err)`,
format `[%s] %s: %w`. -/
def _fmtErrNoReqID (domain apiName : String) (err : GoError) : GoError :=
  .wrapError ("[" ++ domain ++ "] " ++ apiName ++ ": " ++ err.Error) err

/-- The call `fmt.Errorf(_fmtErrReq, domain, apiName, reqID, err)`,
format `[%s] %s (X-Request-ID: %s): %w`. -/
def _fmtErrReq (domain apiName reqID : String) (err : GoError) : GoError :=
  .wrapError ("[" ++ domain ++ "] " ++ apiName ++ " (X-Request-ID: " ++ reqID ++ "): " ++ err.Error) err

/-- The call `fmt.Errorf(_fmtErrResp, domain, apiName, reqID, code, msg)`,
format `[%s] %s (X-Request-ID: %s): %d: %s`. -/
def _fmtErrResp (domain apiName reqID : String) (code : Int) (msg : String) : GoError :=
  .errorString ("[" ++ domain ++ "] " ++ apiName ++ " (X-Request-ID: " ++ reqID ++ "): "
    ++ fmtInt code ++ ": " ++ msg)

/-- The call `fmt.Errorf(_fmtErrRespNoID, domain, apiName, code, msg)`,
format `[%s] %s: %d: %s`. -/
def _fmtErrRespNoID (domain apiName : String) (code : Int) (msg : String) : GoError :=
  .errorString ("[" ++ domain ++ "] " ++ apiName ++ ": " ++ fmtInt code ++ ": " ++ msg)

/-- The struct `fsResponse`. -/
structure fsResponse where
  Code : Int
  Msg : String
deriving DecidableEq, Repr

/-- The method `fsResponse.check`; the result `none` is a nil error. -/
def fsResponse.check (resp : fsResponse) (reqID domain apiName : String) : Option GoError :=
  if resp.Code == 0 then
    none
  else if reqID != "" then
    some (_fmtErrResp domain apiName reqID resp.Code resp.Msg)
  else
    some (_fmtErrRespNoID domain apiName resp.Code resp.Msg)

/-! ## Values of the standard library used by `x_request.go` -/

/-- The content of a Go `map[string]string`: finitely many entries with
distinct keys. A nil map is the empty content (the source never writes to a
map of length zero). -/
abbrev GoMap := AList (fun _ : String => String)

/-- The length `len(m)` of a map. -/
def GoMap.len (m : GoMap) : Nat := m.entries.length

/-- The statement `m[k] = v`. -/
def GoMap.store (m : GoMap) (k v : String) : GoMap := m.insert k v

/-- The loop `for k, v := range src (dst[k] = v)`, run over the entries of
`src` in their stored order. -/
def GoMap.storeAll (dst src : GoMap) : GoMap :=
  src.entries.foldl (fun m e => GoMap.store m e.1 e.2) dst

/-- A map literal with one entry. -/
def GoMap.single (k v : String) : GoMap := AList.singleton k v

/-- A Go map value as a caller hands it to the package: a reference to a map
object. Two references with the same `id` are the same object, so that a
write through one is seen through the other; `content` is what the object
holds when `_newDoOpt` starts. -/
structure MapRef where
  id : Nat
  content : GoMap
deriving DecidableEq

/-- An `io.Reader` that is not nil, reduced to what `io.Copy` gets out of it:
all its bytes, or an error. -/
abbrev Reader := Except GoError String

/-- A file as `os.Open` returns it: what reading it to the end yields, and the
error of its `Close`, if any. -/
structure File where
  content : Except GoError String
  closeErr : Option GoError

/-- A value of the interface `Logger`, identified by a name. -/
structure Logger where
  name : String
deriving DecidableEq, Repr

/-- A pointer to an `http.Client`, identified by a name. -/
structure HTTPClient where
  name : String
deriving DecidableEq, Repr

/-- The package variable `DefaultHTTPClient`. -/
def DefaultHTTPClient : HTTPClient := { name := "DefaultHTTPClient" }

/-- One part written through `multipart.Writer.CreatePart`: the value of its
`Content-Disposition` header and the bytes copied into it. -/
structure MIMEPart where
  contentDisposition : String
  content : String
deriving DecidableEq, Repr

/-- The body handed to `http.NewRequestWithContext`: the buffer filled by the
JSON encoder, or the buffer filled by a `multipart.Writer` with the given
boundary, kept as the sequence of its parts. -/
inductive Body where
  | buffer (bytes : String)
  | multipart (boundary : String) (parts : List MIMEPart)
deriving DecidableEq, Repr

/-- An `http.Request`. -/
structure Request where
  method : String
  url : String
  header : GoMap
  body : Body

/-- An `http.Response` as `_doWithContext` reads it: the header
`X-Request-Id`, the status code, the bytes `io.Copy` got from the body, and
the error of that copy, if any. -/
structure Response where
  requestID : String
  StatusCode : Int
  body : String
  bodyErr : Option GoError

/-- A Go `[]byte`. -/
abbrev Bytes := List UInt8

/-- The struct `EventHeaderV2` (the type `EventType` is a string). -/
structure EventHeaderV2 where
  EventID : String
  EventType : String
  CreateTime : String
  Token : String
  AppID : String
  TenantKey : String
deriving DecidableEq, Repr

/-- The struct `EventHeaderV1`; its field `Type` is `Type_` here. -/
structure EventHeaderV1 where
  Timestamp : String
  UUID : String
  Token : String
  Type_ : String
deriving DecidableEq, Repr

/-- A value of the function type `EventHandler` that is not nil, identified
by a name. -/
structure EventHandler where
  name : String
deriving DecidableEq, Repr

/-- A value of the function type `EventHandlerV1` that is not nil, identified
by a name. -/
structure EventHandlerV1 where
  name : String
deriving DecidableEq, Repr

/-- What the code does to the outside world, in order. The last five are
those of the webhook: a `go` statement that starts a handler with its two
arguments, `WriteHeader` and `Write` on the `http.ResponseWriter`, and
`Close` on the body of the request. -/
inductive Effect where
  | debug (logger : Logger) (line : String)
  | fileOpen (name : String)
  | fileClose (name : String)
  | setTimeout (cli : HTTPClient) (d : Int)
  | clientDo (cli : HTTPClient) (req : Request)
  | goHandler (handler : EventHandler) (header : EventHeaderV2) (event : Bytes)
  | goHandlerV1 (handler : EventHandlerV1) (header : EventHeaderV1) (event : Bytes)
  | writeHeader (statusCode : Int)
  | write (bs : Bytes)
  | bodyClose

/-- The standard library and the outside world, as far as the request
pipeline depends on them. `Data` is the type of the values passed as the
`interface` argument `data`. -/
structure Env (Data : Type) where
  /-- `json.Marshal` of a non-nil value. -/
  marshal : Data → Except GoError String
  /-- The steps `url.Parse`, `Query`, `Set` for every entry, `Encode`,
  `String`: the URL with the query entries set, or the parse error. -/
  addQuery : String → GoMap → Except GoError String
  /-- The error of `http.NewRequestWithContext` for a method and a URL. -/
  newRequestErr : String → String → Option GoError
  /-- `textproto.CanonicalMIMEHeaderKey`, applied by `Header.Set`. -/
  canonicalKey : String → String
  /-- The boundary chosen by `multipart.NewWriter`. -/
  boundary : String
  /-- `os.Open`. -/
  openFile : String → Except GoError File
  /-- `http.Client.Do`. -/
  clientDo : HTTPClient → Request → Except GoError Response
  /-- The text of `time.Since(start)` under the verb `%s`. -/
  elapsed : String

/-- A run of a function: the effects it had, in order, and what it produced. -/
structure Run (α : Type) where
  effects : List Effect
  out : α

/-- The end of a function returning `(value, error)`: a value with a nil
error, an error, or a run-time panic. -/
inductive Outcome (α : Type) where
  | ok (val : α)
  | error (err : GoError)
  | panic (v : String)

/-- The end of a function with other results: it returned, or it panicked. -/
inductive Ret (α : Type) where
  | returned (val : α)
  | panicked (v : String)

/-- The panic value of a method call on a nil interface. -/
def nilDereference : String := "runtime error: invalid memory address or nil pointer dereference"

/-! ## `x_request.go` -/

/-- The struct `_doFormData`; a nil `data` is `none`. -/
structure _doFormData where
  headerValue : String
  data : Option Reader
  needToReadFile : Bool
  filename : String

/-- The struct `_doOpt`; nil pointers and interfaces are `none`. The field
`query` of the source is a reference to a map object: `query` is the content
of that object now, and `queryRef` is the identity of the object when it is a
map of the caller (`none` for a nil map and for a map made by
`withDoQueryKV`, which no caller holds). -/
structure _doOpt where
  apiDomain : String
  apiName : String
  header : GoMap
  query : GoMap
  queryRef : Option Nat
  uploadFormData : List _doFormData
  httpCli : Option HTTPClient
  debug : Bool
  logger : Option Logger

/-- The value `new(_doOpt)`. -/
def _doOpt.zero : _doOpt :=
  { apiDomain := "", apiName := "", header := ∅, query := ∅, queryRef := none,
    uploadFormData := [], httpCli := none, debug := false, logger := none }

/-- The function type `doOption`; a nil function is `none`. -/
abbrev doOption := Option (_doOpt → _doOpt)

/-- The function `_newDoOpt`: the options applied in order to a zero
`_doOpt`, nil options skipped. -/
def _newDoOpt (opts : List doOption) : _doOpt :=
  opts.foldl (fun opt fn => match fn with
    | none => opt
    | some f => f opt) _doOpt.zero

/-- The function `strings.TrimRight(s, "/")`. -/
def trimRightSlash (s : String) : String :=
  String.mk (s.data.reverse.dropWhile (fun c => c == '/')).reverse

/-- The function `path.Base` of the standard library. -/
def pathBase (path : String) : String :=
  if path == "" then "."
  else
    let stripped := (path.data.reverse.dropWhile (fun c => c == '/')).reverse
    let last := (stripped.reverse.takeWhile (fun c => c != '/')).reverse
    if last.isEmpty then "/" else String.mk last

/-- The replacement `quoteEscaper` makes of one character. -/
def quoteEscaper (c : Char) : List Char :=
  if c == '\\' then ['\\', '\\']
  else if c == '"' then ['\\', '"']
  else [c]

/-- The function `escapeQuotes`. -/
def escapeQuotes (s : String) : String := String.mk (s.data.flatMap quoteEscaper)

/-- The function `newDoFormData`. -/
def newDoFormData (name : String) (data : Option Reader) : _doFormData :=
  { headerValue := "form-data; name=\"" ++ name ++ "\"",
    data := data,
    needToReadFile := false,
    filename := "" }

/-- The function `newDoFormDataWithFile`. -/
def newDoFormDataWithFile (name filename : String) (needToReadFile : Bool)
    (data : Option Reader) : _doFormData :=
  { headerValue := "form-data; name=\"" ++ name ++ "\"; filename=\""
      ++ escapeQuotes (pathBase filename) ++ "\"",
    data := data,
    needToReadFile := needToReadFile,
    filename := filename }

/-- The option `withDoAPIDomain`. -/
def withDoAPIDomain (domain : String) : doOption :=
  some fun opt => { opt with apiDomain := domain }

/-- The option `withDoAPIName`. -/
def withDoAPIName (name : String) : doOption :=
  some fun opt => { opt with apiName := name }

/-- The option `withDoHeader`. -/
def withDoHeader (header : GoMap) : doOption :=
  some fun opt => { opt with header := header }

/-- What a map object of the caller holds at the moment an option is applied
to `opt`. The only writes to a map of the caller are those made through
`opt.query` while it refers to that map, so the object that `opt.query` refers
to holds the content of `opt.query`, and every other object holds what it held
at the start. -/
def _doOpt.mapNow (opt : _doOpt) (m : MapRef) : GoMap :=
  if opt.queryRef = some m.id then opt.query else m.content

/-- The option `withDoQuery`. With an empty `opt.query` the map of the caller
itself becomes `opt.query` (no copy is made); otherwise its entries, as they
are now, are stored into the object `opt.query` refers to. -/
def withDoQuery (query : MapRef) : doOption :=
  some fun opt =>
    if opt.query.len == 0 then
      { opt with query := opt.mapNow query, queryRef := some query.id }
    else { opt with query := opt.query.storeAll (opt.mapNow query) }

/-- The option `withDoQueryKV`. With an empty `opt.query` a new map with the
one entry is made; otherwise the entry is stored into the object `opt.query`
refers to, which may be a map of the caller. -/
def withDoQueryKV (k v : String) : doOption :=
  some fun opt =>
    if opt.query.len == 0 then { opt with query := GoMap.single k v, queryRef := none }
    else { opt with query := opt.query.store k v }

/-- The option `withDoUploadFormData`. -/
def withDoUploadFormData (name : String) (value : Option Reader) : doOption :=
  some fun opt =>
    { opt with uploadFormData := opt.uploadFormData ++ [newDoFormData name value] }

/-- The option `withDoUploadFormFile`. -/
def withDoUploadFormFile (name filename : String) (needToReadFile : Bool)
    (data : Option Reader) : doOption :=
  some fun opt =>
    { opt with uploadFormData :=
        opt.uploadFormData ++ [newDoFormDataWithFile name filename needToReadFile data] }

/-- The option `withDoHTTPCli`; a nil client is `none`. -/
def withDoHTTPCli (cli : Option HTTPClient) : doOption :=
  some fun opt => { opt with httpCli := cli }

/-- The option `withDoDebug`. -/
def withDoDebug (b : Bool) : doOption :=
  some fun opt => { opt with debug := b }

/-- The option `withDoLogger`; a nil logger is `none`. -/
def withDoLogger (logger : Option Logger) : doOption :=
  some fun opt => { opt with logger := logger }

/-- The method `_doOpt.debugLog`: the calls of `Logger.Debug` it makes. -/
def _doOpt.debugLog (opt : _doOpt) (msg : String) : List Effect :=
  match opt.logger with
  | none => []
  | some l => if !opt.debug then [] else [Effect.debug l ("[FEISHU-DEBUG] " ++ msg)]

/-- The call `json.NewEncoder(buf).Encode(data)`: the encoding of the value
followed by a newline; a nil `data` encodes to `null`. -/
def encodeJSON {Data : Type} (env : Env Data) (data : Option Data) : Except GoError String :=
  match data with
  | none => .ok "null\n"
  | some d =>
    match env.marshal d with
    | .error e => .error e
    | .ok bytes => .ok (bytes ++ "\n")

/-- The loop `for k, v := range header (req.Header.Set(k, v))`. -/
def setHeaders {Data : Type} (env : Env Data) (header : GoMap) (req : Request) : Request :=
  { req with header :=
      header.entries.foldl (fun h e => GoMap.store h (env.canonicalKey e.1) e.2) req.header }

/-- One pass of the loop of `newUploadReq` over a form part: the part written,
with the files opened and closed on the way. -/
def uploadPart {Data : Type} (env : Env Data) (opt : _doOpt) (method rawURL : String)
    (fd : _doFormData) : Run (Outcome MIMEPart) :=
  if fd.needToReadFile then
    match env.openFile fd.filename with
    | .error e => { effects := [], out := .error e }
    | .ok imgFile =>
      match imgFile.content with
      | .error e => { effects := [.fileOpen fd.filename], out := .error e }
      | .ok bytes =>
        { effects := [.fileOpen fd.filename, .fileClose fd.filename] ++
            (match imgFile.closeErr with
             | none => []
             | some err => opt.debugLog ("--> [" ++ opt.apiDomain ++ " - " ++ opt.apiName ++ "] "
                 ++ method ++ " " ++ rawURL ++ "\nfilename: " ++ fd.filename
                 ++ ": unexpected close: " ++ err.Error)),
          out := .ok { contentDisposition := fd.headerValue, content := bytes } }
  else
    match fd.data with
    | none => { effects := [], out := .panic nilDereference }
    | some (.error e) => { effects := [], out := .error e }
    | some (.ok bytes) =>
      { effects := [], out := .ok { contentDisposition := fd.headerValue, content := bytes } }

/-- The loop of `newUploadReq`: the parts written in order and the last
non-empty filename seen (`uploadedName`). -/
def uploadLoop {Data : Type} (env : Env Data) (opt : _doOpt) (method rawURL : String) :
    List _doFormData → String → Run (Outcome (List MIMEPart × String))
  | [], uploadedName => { effects := [], out := .ok ([], uploadedName) }
  | fd :: rest, uploadedName =>
    let r := uploadPart env opt method rawURL fd
    match r.out with
    | .error e => { effects := r.effects, out := .error e }
    | .panic v => { effects := r.effects, out := .panic v }
    | .ok part =>
      let r2 := uploadLoop env opt method rawURL rest
        (if fd.filename != "" then fd.filename else uploadedName)
      { effects := r.effects ++ r2.effects,
        out := match r2.out with
          | .ok (parts, name) => .ok (part :: parts, name)
          | .error e => .error e
          | .panic v => .panic v }

/-- The method `_doOpt.newUploadReq`. -/
def _doOpt.newUploadReq {Data : Type} (env : Env Data) (opt : _doOpt)
    (method rawURL : String) : Run (Outcome Request) :=
  let r := uploadLoop env opt method rawURL opt.uploadFormData ""
  match r.out with
  | .error e => { effects := r.effects, out := .error e }
  | .panic v => { effects := r.effects, out := .panic v }
  | .ok (parts, uploadedName) =>
    let log := opt.debugLog ("--> [" ++ opt.apiDomain ++ " - " ++ opt.apiName ++ "] "
      ++ method ++ " " ++ rawURL ++ "\nfilename: " ++ uploadedName)
    match env.newRequestErr method rawURL with
    | some e => { effects := r.effects ++ log, out := .error e }
    | none =>
      { effects := r.effects ++ log,
        out := .ok
          { method := method,
            url := rawURL,
            header := GoMap.store ∅ (env.canonicalKey "Content-Type")
              ("multipart/form-data; boundary=" ++ env.boundary),
            body := .multipart env.boundary parts } }

/-- The method `_doOpt.NewRequest`. -/
def _doOpt.NewRequest {Data : Type} (env : Env Data) (opt : _doOpt)
    (method rawURL : String) (data : Option Data) : Run (Outcome Request) :=
  match (if opt.query.len != 0 then env.addQuery rawURL opt.query else .ok rawURL) with
  | .error e => { effects := [], out := .error e }
  | .ok rawURL =>
    let r : Run (Outcome Request) :=
      if opt.uploadFormData.length == 0 then
        match encodeJSON env data with
        | .error e => { effects := [], out := .error e }
        | .ok buf =>
          let log := match data with
            | none => opt.debugLog ("--> [" ++ opt.apiDomain ++ " - " ++ opt.apiName ++ "] "
                ++ method ++ " " ++ rawURL ++ "\n")
            | some _ => opt.debugLog ("--> [" ++ opt.apiDomain ++ " - " ++ opt.apiName ++ "] "
                ++ method ++ " " ++ rawURL ++ "\n" ++ buf)
          match env.newRequestErr method rawURL with
          | some e => { effects := log, out := .error e }
          | none =>
            { effects := log,
              out := .ok { method := method, url := rawURL, header := ∅, body := .buffer buf } }
      else
        opt.newUploadReq env method rawURL
    match r.out with
    | .ok req => { effects := r.effects, out := .ok (setHeaders env opt.header req) }
    | .error e => { effects := r.effects, out := .error e }
    | .panic v => { effects := r.effects, out := .panic v }

/-- The three results `(reqID, respReader, err)` of `_doWithContext` and of
`app._do`; a nil reader or error is `none`. -/
structure DoResult where
  reqID : String
  resp : Option String
  err : Option GoError
deriving DecidableEq, Repr

/-- The function `_doWithContext`. -/
def _doWithContext {Data : Type} (env : Env Data) (method rawURL : String)
    (data : Option Data) (opts : List doOption) : Run (Ret DoResult) :=
  let doOpt := _newDoOpt opts
  let r := doOpt.NewRequest env method rawURL data
  match r.out with
  | .error e => { effects := r.effects, out := .returned { reqID := "", resp := none, err := some e } }
  | .panic v => { effects := r.effects, out := .panicked v }
  | .ok req =>
    let tmpCli := match doOpt.httpCli with
      | some cli => cli
      | none => DefaultHTTPClient
    let sent := r.effects ++ [.setTimeout tmpCli 0, .clientDo tmpCli req]
    match env.clientDo tmpCli req with
    | .error e => { effects := sent, out := .returned { reqID := "", resp := none, err := some e } }
    | .ok resp =>
      let log := doOpt.debugLog ("<-- [" ++ doOpt.apiDomain ++ " - " ++ doOpt.apiName ++ "] "
        ++ method ++ " " ++ rawURL ++ " " ++ fmtInt resp.StatusCode ++ " " ++ env.elapsed
        ++ "\n" ++ resp.body ++ "\n")
      match resp.bodyErr with
      | some e =>
        { effects := sent ++ log,
          out := .returned { reqID := resp.requestID, resp := none, err := some e } }
      | none =>
        { effects := sent ++ log,
          out := .returned { reqID := resp.requestID, resp := some resp.body, err := none } }

/-! ## `app.go` -/

/-- The anonymous struct of the field `opt` of `app`. -/
structure appOpt where
  logger : Option Logger
  debug : Bool
  cli : Option HTTPClient

/-- The struct `app`, without its mutex. The two registries are maps from an
event type to a handler. -/
structure app where
  isCustomApp : Bool
  isStoreApp : Bool
  id : String
  secret : String
  encryptKey : String
  verificationToken : String
  openBaseURL : String
  opt : appOpt
  appAccess : fsToken
  tenantAccess : fsToken
  eventHandler : AList (fun _ : String => EventHandler)
  eventHandlerV1 : AList (fun _ : String => EventHandlerV1)

/-- The function type `AppOption`; a nil function is `none`. -/
abbrev AppOption := Option (app → app)

/-- The option `WithAppEventEncryptKey`. -/
def WithAppEventEncryptKey (encryptKey : String) : AppOption :=
  some fun a => { a with encryptKey := encryptKey }

/-- The option `WithAppEventVerificationToken`. -/
def WithAppEventVerificationToken (verificationToken : String) : AppOption :=
  some fun a => { a with verificationToken := verificationToken }

/-- The option `WithAppOpenBaseURL`. -/
def WithAppOpenBaseURL (urlPrefix : String) : AppOption :=
  some fun a => { a with openBaseURL := trimRightSlash urlPrefix }

/-- The option `WithAppDebug`. -/
def WithAppDebug (b : Bool) : AppOption :=
  some fun a => { a with opt := { a.opt with debug := b } }

/-- The option `WithAppDebugLogger`. -/
def WithAppDebugLogger (logger : Option Logger) : AppOption :=
  some fun a => { a with opt := { a.opt with logger := logger } }

/-- The function `newApp`. -/
def newApp (appID appSecret : String) (opts : List AppOption) : app :=
  (WithAppOpenBaseURL _openBaseURL :: opts).foldl (fun a fn => match fn with
    | none => a
    | some f => f a)
    { isCustomApp := false, isStoreApp := false, id := appID, secret := appSecret,
      encryptKey := "", verificationToken := "", openBaseURL := "",
      opt := { logger := none, debug := false, cli := none },
      appAccess := fsToken.zero, tenantAccess := fsToken.zero,
      eventHandler := ∅, eventHandlerV1 := ∅ }

/-- The function `NewCustomApp`. -/
def NewCustomApp (id secret : String) (opts : List AppOption) : app :=
  { (newApp id secret opts) with isCustomApp := true, isStoreApp := false }

/-- The method `app.isSupported`. -/
def app.isSupported (a : app) (custom store : Bool) : Bool :=
  (a.isCustomApp == custom && a.isCustomApp) || (a.isStoreApp == store && a.isStoreApp)

/-- The method `app._do`. -/
def app._do {Data : Type} (env : Env Data) (_a : app) (method rawURL : String)
    (data : Option Data) (opts : List doOption) : Run (Ret DoResult) :=
  let r := _doWithContext env method rawURL data opts
  match r.out with
  | .panicked v => { effects := r.effects, out := .panicked v }
  | .returned res =>
    match res.err with
    | none => { effects := r.effects, out := .returned res }
    | some err =>
      let doOpt := _newDoOpt opts
      if res.reqID != "" then
        { effects := r.effects,
          out := .returned
            { reqID := res.reqID,
              resp := res.resp,
              err := some (_fmtErrReq doOpt.apiDomain doOpt.apiName res.reqID err) } }
      else
        { effects := r.effects,
          out := .returned
            { reqID := res.reqID,
              resp := res.resp,
              err := some (_fmtErrNoReqID doOpt.apiDomain doOpt.apiName err) } }

/-- The method `app._getWithContext`. -/
def app._getWithContext {Data : Type} (env : Env Data) (a : app) (urlSuffix : String)
    (opts : List doOption) : Run (Ret DoResult) :=
  a._do env "GET" (a.openBaseURL ++ urlSuffix) none opts

/-- The method `app._postWithContext`. -/
def app._postWithContext {Data : Type} (env : Env Data) (a : app) (urlSuffix : String)
    (data : Option Data) (opts : List doOption) : Run (Ret DoResult) :=
  a._do env "POST" (a.openBaseURL ++ urlSuffix) data opts

/-- The method `app._doUploadWithContext`. -/
def app._doUploadWithContext {Data : Type} (env : Env Data) (a : app) (urlSuffix : String)
    (opts : List doOption) : Run (Ret DoResult) :=
  a._do env "POST" (a.openBaseURL ++ urlSuffix) none opts

/-- The method `app._decodeResp`; `unmarshal` is what the JSON decoder makes
of the bytes for the type of `resp`, and decoding from a nil reader panics. -/
def app._decodeResp {R : Type} (_a : app) (unmarshal : String → Except GoError R)
    (domain apiName : String) (reader : Option String) : Outcome R :=
  match reader with
  | none => .panic nilDereference
  | some bytes =>
    match unmarshal bytes with
    | .error err => .error (_fmtErrNoReqID domain apiName err)
    | .ok resp => .ok resp

/-- The method `app.buildOpts`. -/
def app.buildOpts (a : app) (apiDomain apiName : String) (header : GoMap)
    (opts : List doOption) : List doOption :=
  [withDoAPIDomain apiDomain, withDoAPIName apiName, withDoHeader header]
    ++ (if a.opt.logger.isSome then [withDoLogger a.opt.logger] else [])
    ++ (if a.opt.debug then [withDoDebug a.opt.debug] else [])
    ++ (if a.opt.cli.isSome then [withDoHTTPCli a.opt.cli] else [])
    ++ opts

/-! ## `api_access_token.go` -/

/-- The struct `appAccessTokenInternalRequest`. -/
structure appAccessTokenInternalRequest where
  AppID : String
  AppSecret : String
deriving DecidableEq, Repr

/-- The struct `AppAccessTokenInternal`. -/
structure AppAccessTokenInternal where
  AppAccessToken : String
  Expire : Int
deriving DecidableEq, Repr

/-- The struct `appAccessTokenInternalResponse`, with its two embedded
structs as fields. -/
structure appAccessTokenInternalResponse where
  fsResponse : fsResponse
  AppAccessTokenInternal : AppAccessTokenInternal
deriving DecidableEq, Repr

/-- The zero value `AppAccessTokenInternal{}`. -/
def AppAccessTokenInternal.zero : AppAccessTokenInternal := { AppAccessToken := "", Expire := 0 }

/-- The conversion `time.Duration(expire) * time.Second`, an `int64` product. -/
def expireDuration (expire : Int) : Int := wrapInt64 (expire * Second)

/-- The method `app.GetAppAccessTokenInternalWithContext`; `now` is the
reading of `time.Now()` inside `set`. It returns the new state of the app with
the two results. -/
def app.GetAppAccessTokenInternalWithContext (env : Env appAccessTokenInternalRequest)
    (unmarshal : String → Except GoError appAccessTokenInternalResponse) (now : Int) (a : app) :
    Run (app × Ret (AppAccessTokenInternal × Option GoError)) :=
  let apiDomain := "访问凭证"
  let apiName := "获取 app_access_token（企业自建应用）"
  let urlSuffix := "/open-apis/auth/v3/app_access_token/internal"
  if !a.isSupported true false then
    { effects := [],
      out := (a, .returned (AppAccessTokenInternal.zero, some (_fmtErrNotSupported apiDomain apiName))) }
  else
    let data : appAccessTokenInternalRequest := { AppID := a.id, AppSecret := a.secret }
    let header := GoMap.single "Content-Type" "application/json; charset=utf-8"
    let r := a._postWithContext env urlSuffix (some data) (a.buildOpts apiDomain apiName header [])
    match r.out with
    | .panicked v => { effects := r.effects, out := (a, .panicked v) }
    | .returned res =>
      match res.err with
      | some err => { effects := r.effects, out := (a, .returned (AppAccessTokenInternal.zero, some err)) }
      | none =>
        match a._decodeResp unmarshal apiDomain apiName res.resp with
        | .panic v => { effects := r.effects, out := (a, .panicked v) }
        | .error err =>
          { effects := r.effects, out := (a, .returned (AppAccessTokenInternal.zero, some err)) }
        | .ok resp =>
          match resp.fsResponse.check res.reqID apiDomain apiName with
          | some err =>
            { effects := r.effects, out := (a, .returned (AppAccessTokenInternal.zero, some err)) }
          | none =>
            { effects := r.effects,
              out := ({ a with appAccess := (a.appAccess.set now
                          resp.AppAccessTokenInternal.AppAccessToken
                          (expireDuration resp.AppAccessTokenInternal.Expire) (30 * Minute)) },
                      .returned (resp.AppAccessTokenInternal, none)) }

/-- The struct `tenantAccessTokenInternalRequest`. -/
structure tenantAccessTokenInternalRequest where
  AppID : String
  AppSecret : String
deriving DecidableEq, Repr

/-- The struct `TenantAccessTokenInternal`. -/
structure TenantAccessTokenInternal where
  TenantAccessToken : String
  Expire : Int
deriving DecidableEq, Repr

/-- The struct `tenantAccessTokenInternalResponse`, with its two embedded
structs as fields. -/
structure tenantAccessTokenInternalResponse where
  fsResponse : fsResponse
  TenantAccessTokenInternal : TenantAccessTokenInternal
deriving DecidableEq, Repr

/-- The zero value `TenantAccessTokenInternal{}`. -/
def TenantAccessTokenInternal.zero : TenantAccessTokenInternal :=
  { TenantAccessToken := "", Expire := 0 }

/-- The method `app.GetTenantAccessTokenInternalWithContext`; `now` is the
reading of `time.Now()` inside `set`. It returns the new state of the app with
the two results. -/
def app.GetTenantAccessTokenInternalWithContext (env : Env tenantAccessTokenInternalRequest)
    (unmarshal : String → Except GoError tenantAccessTokenInternalResponse) (now : Int) (a : app) :
    Run (app × Ret (TenantAccessTokenInternal × Option GoError)) :=
  let apiDomain := "访问凭证"
  let apiName := "获取 tenant_access_token（企业自建应用）"
  let urlSuffix := "/open-apis/auth/v3/tenant_access_token/internal"
  if !a.isSupported true false then
    { effects := [],
      out := (a, .returned (TenantAccessTokenInternal.zero, some (_fmtErrNotSupported apiDomain apiName))) }
  else
    let data : tenantAccessTokenInternalRequest := { AppID := a.id, AppSecret := a.secret }
    let header := GoMap.single "Content-Type" "application/json; charset=utf-8"
    let r := a._postWithContext env urlSuffix (some data) (a.buildOpts apiDomain apiName header [])
    match r.out with
    | .panicked v => { effects := r.effects, out := (a, .panicked v) }
    | .returned res =>
      match res.err with
      | some err =>
        { effects := r.effects, out := (a, .returned (TenantAccessTokenInternal.zero, some err)) }
      | none =>
        match a._decodeResp unmarshal apiDomain apiName res.resp with
        | .panic v => { effects := r.effects, out := (a, .panicked v) }
        | .error err =>
          { effects := r.effects, out := (a, .returned (TenantAccessTokenInternal.zero, some err)) }
        | .ok resp =>
          match resp.fsResponse.check res.reqID apiDomain apiName with
          | some err =>
            { effects := r.effects, out := (a, .returned (TenantAccessTokenInternal.zero, some err)) }
          | none =>
            { effects := r.effects,
              out := ({ a with tenantAccess := (a.tenantAccess.set now
                          resp.TenantAccessTokenInternal.TenantAccessToken
                          (expireDuration resp.TenantAccessTokenInternal.Expire) (30 * Minute)) },
                      .returned (resp.TenantAccessTokenInternal, none)) }

/-- The method `app.getAppAccessTokenWithContext`; `tCheck` is the reading of
`time.Now()` inside `notExpired` and `tSet` the one inside `set`. It returns
the new state of the app with the two results `(accessToken, err)`. -/
def app.getAppAccessTokenWithContext (env : Env appAccessTokenInternalRequest)
    (unmarshal : String → Except GoError appAccessTokenInternalResponse) (tCheck tSet : Int)
    (a : app) : Run (app × Ret (String × Option GoError)) :=
  if !a.appAccess.isEmpty && a.appAccess.notExpired tCheck then
    { effects := [], out := (a, .returned (a.appAccess.get, none)) }
  else if a.isCustomApp then
    let r := a.GetAppAccessTokenInternalWithContext env unmarshal tSet
    match r.out with
    | (a1, .panicked v) => { effects := r.effects, out := (a1, .panicked v) }
    | (a1, .returned (_, some err)) => { effects := r.effects, out := (a1, .returned ("", some err)) }
    | (a1, .returned (_, none)) => { effects := r.effects, out := (a1, .returned (a1.appAccess.get, none)) }
  else
    { effects := [], out := (a, .returned (a.appAccess.get, none)) }

/-! ## `api_messenger_events.go` -/

/-- The constant `EventTypeURLVerification`. -/
def EventTypeURLVerification : String := "url_verification"

/-- The constant `EventTypeMessageReceived`. -/
def EventTypeMessageReceived : String := "im.message.receive_v1"

/-- The struct `eventRequest`, with its embedded `EventHeaderV1` as a field;
a nil `Header` is `none`, and `Event` holds the bytes of a
`json.RawMessage`. -/
structure eventRequest where
  Encrypt : String
  Schema : String
  Header : Option EventHeaderV2
  EventHeaderV1 : EventHeaderV1
  Event : Bytes
deriving DecidableEq, Repr

/-- The value `new(eventRequest)`. -/
def eventRequest.zero : eventRequest :=
  { Encrypt := "", Schema := "", Header := none,
    EventHeaderV1 := { Timestamp := "", UUID := "", Token := "", Type_ := "" },
    Event := [] }

/-- The struct `eventURLVerificationRequest`; its field `Type` is `Type_`
here. -/
structure eventURLVerificationRequest where
  Challenge : String
  Token : String
  Type_ : String
deriving DecidableEq, Repr

/-- The struct `eventURLVerificationResponse`. -/
structure eventURLVerificationResponse where
  Challenge : String
deriving DecidableEq, Repr

/-- The standard library and the outside world, as far as the webhook depends
on them. -/
structure EventEnv where
  /-- `base64.StdEncoding.DecodeString`. -/
  base64Decode : String → Except GoError Bytes
  /-- The SHA-256 digest of `sha256.New`, `Write`, `Sum(nil)`. -/
  sha256 : Bytes → Bytes
  /-- `cipher.NewCBCDecrypter(block, iv).CryptBlocks` for the AES block of a
  key, on a source that is not empty: key, initialization vector, source. -/
  cbcDecrypt : Bytes → Bytes → Bytes → Bytes
  /-- `json.Unmarshal` of bytes that are not empty into an `eventRequest`
  holding the given value: the value afterwards, and the error, if any. -/
  unmarshalEvent : Bytes → eventRequest → eventRequest × Option GoError
  /-- `json.Unmarshal` of bytes that are not empty into a new
  `eventURLVerificationRequest`. -/
  unmarshalVerification : Bytes → Except GoError eventURLVerificationRequest
  /-- `json.Marshal` of a string value: the JSON string with its quotes, what
  the encoder writes for a field of type `string`. -/
  marshalString : String → Except GoError Bytes
  /-- The error of `Write` on the `http.ResponseWriter`, if any. -/
  writeErr : Bytes → Option GoError

/-- The conversion `[]byte(s)` of a string. -/
def stringBytes (s : String) : Bytes := s.toUTF8.data.toList

/-- The error of `json.Unmarshal` on empty input. -/
def jsonUnexpectedEnd : GoError := .errorString "unexpected end of JSON input"

/-- The call `json.Unmarshal(data, eq)` for an `eventRequest`: empty input is
a syntax error that leaves `eq` as it is. -/
def jsonUnmarshalEvent (env : EventEnv) (data : Bytes) (eq : eventRequest) :
    eventRequest × Option GoError :=
  if data.isEmpty then (eq, some jsonUnexpectedEnd) else env.unmarshalEvent data eq

/-- The call `json.Unmarshal(data, v)` for a new
`eventURLVerificationRequest`: empty input is a syntax error. -/
def jsonUnmarshalVerification (env : EventEnv) (data : Bytes) :
    Except GoError eventURLVerificationRequest :=
  if data.isEmpty then .error jsonUnexpectedEnd else env.unmarshalVerification data

/-- The call `json.Marshal(resp)` for an `eventURLVerificationResponse`: a
JSON object with the one key `challenge`, the tag of the field `Challenge`,
and the JSON string of the field as its value. -/
def jsonMarshalVerification (env : EventEnv) (resp : eventURLVerificationResponse) :
    Except GoError Bytes :=
  match env.marshalString resp.Challenge with
  | .error err => .error err
  | .ok value => .ok (stringBytes "\x7b\"challenge\":" ++ value ++ stringBytes "\x7d")

/-- The error of `aes.NewCipher` for a key: only keys of 16, 24 or 32 bytes
are accepted. -/
def aesNewCipherErr (key : Bytes) : Option GoError :=
  if key.length == 16 || key.length == 24 || key.length == 32 then none
  else some (.errorString ("crypto/aes: invalid key size " ++ toString key.length))

/-- The method `CryptBlocks` of the CBC decrypter: nothing is done to an empty
source. -/
def CryptBlocks (env : EventEnv) (key iv src : Bytes) : Bytes :=
  if src.isEmpty then src else env.cbcDecrypt key iv src

/-- The function `bytes.IndexByte`: the index of the first `c`, or `-1`. -/
def IndexByte (b : Bytes) (c : UInt8) : Int :=
  if c ∈ b then (b.indexOf c : Int) else -1

/-- The function `bytes.LastIndexByte`: the index of the last `c`, or `-1`. -/
def LastIndexByte (b : Bytes) (c : UInt8) : Int :=
  if c ∈ b then (b.length : Int) - 1 - (b.reverse.indexOf c : Int) else -1

/-- The slice expression `s[lo:hi]` of a slice whose capacity is its length:
`none` is the run-time panic for bounds out of range. -/
def sliceBytes (s : Bytes) (lo hi : Int) : Option Bytes :=
  if 0 ≤ lo ∧ lo ≤ hi ∧ hi ≤ (s.length : Int) then some ((s.take hi.toNat).drop lo.toNat)
  else none

/-- The byte `'{'`. -/
def braceOpen : UInt8 := 123

/-- The byte `'}'`. -/
def braceClose : UInt8 := 125

/-- The panic value of a slice expression with bounds out of range. -/
def sliceOutOfRange : String := "runtime error: slice bounds out of range"

/-- The method `eventRequest.decrypt`: the receiver afterwards with the two
results `(raw, err)`, or a panic. -/
def eventRequest.decrypt (env : EventEnv) (eq : eventRequest) (encryptKey : String) :
    Ret (eventRequest × Bytes × Option GoError) :=
  match env.base64Decode eq.Encrypt with
  | .error err => .returned (eq, [], some err)
  | .ok decoded =>
    if decoded.length < 16 then
      .returned (eq, [], some (.errorString "ciphertext too short"))
    else
      let key := env.sha256 (stringBytes encryptKey)
      match aesNewCipherErr key with
      | some err => .returned (eq, [], some err)
      | none =>
        let iv := decoded.take 16
        let ciphertext := decoded.drop 16
        if ciphertext.length % 16 != 0 then
          .returned (eq, [], some (.errorString "ciphertext is not a multiple of the block size"))
        else
          let plain := CryptBlocks env key iv ciphertext
          let left := if IndexByte plain braceOpen == -1 then 0 else IndexByte plain braceOpen
          let right :=
            if LastIndexByte plain braceClose == -1 then (plain.length : Int) - 1
            else LastIndexByte plain braceClose
          match sliceBytes plain left (right + 1) with
          | none => .panicked sliceOutOfRange
          | some raw =>
            match jsonUnmarshalEvent env raw eq with
            | (eq1, some err) => .returned (eq1, raw, some err)
            | (eq1, none) => .returned (eq1, raw, none)

/-- The head `[domain - name] ` of every line the webhook logs. -/
def eventLogHead (opt : _doOpt) : String :=
  "[" ++ opt.apiDomain ++ " - " ++ opt.apiName ++ "] "

/-- Lines 40 to 51 of `ListenEventCallback`: the body is decoded into a new
`eventRequest` and decrypted when its field `Encrypt` is not empty. The
result is the envelope to classify with the bytes of the variable `body`, or
the value of the variable `err`, or a panic. -/
def app.decodeEvent (a : app) (env : EventEnv) (opt : _doOpt) (body : Bytes) :
    Run (Outcome (eventRequest × Bytes)) :=
  match jsonUnmarshalEvent env body eventRequest.zero with
  | (_, some err) =>
    { effects := opt.debugLog (eventLogHead opt ++ "unmarshal event: " ++ err.Error ++ "\n"),
      out := .error err }
  | (eReq, none) =>
    if eReq.Encrypt != "" then
      match eReq.decrypt env a.encryptKey with
      | .panicked v => { effects := [], out := .panic v }
      | .returned (_, _, some err) =>
        { effects := opt.debugLog (eventLogHead opt ++ "decrypt event: " ++ err.Error ++ "\n"),
          out := .error err }
      | .returned (eReq1, raw, none) => { effects := [], out := .ok (eReq1, raw) }
    else
      { effects := [], out := .ok (eReq, body) }

/-- The `switch` statement of `ListenEventCallback` (lines 53 to 107) on the
envelope `eReq` and the bytes of the variable `body`: the value of the
variable `err` at its end, or a panic. -/
def app.dispatchEvent (a : app) (env : EventEnv) (opt : _doOpt) (eReq : eventRequest)
    (body : Bytes) : Run (Ret (Option GoError)) :=
  if eReq.EventHeaderV1.Type_ == EventTypeURLVerification then
    match jsonUnmarshalVerification env body with
    | .error err =>
      { effects := opt.debugLog (eventLogHead opt ++ "unmarshal event("
          ++ EventTypeURLVerification ++ "): " ++ err.Error ++ "\n"),
        out := .returned (some err) }
    | .ok v =>
      if v.Token != a.verificationToken then
        { effects := opt.debugLog (eventLogHead opt ++ "unexpected event callback token (app: "
            ++ a.verificationToken ++ "): " ++ v.Token ++ "\n"),
          out := .returned none }
      else
        match jsonMarshalVerification env { Challenge := v.Challenge } with
        | .error err =>
          { effects := opt.debugLog (eventLogHead opt ++ "marshal response event("
              ++ EventTypeURLVerification ++ "): " ++ err.Error ++ "\n"),
            out := .returned (some err) }
        | .ok bs =>
          match env.writeErr bs with
          | some err =>
            { effects := [.write bs] ++ opt.debugLog (eventLogHead opt
                ++ "write response event(" ++ EventTypeURLVerification ++ "): "
                ++ err.Error ++ "\n"),
              out := .returned (some err) }
          | none =>
            { effects := [.write bs] ++ opt.debugLog (eventLogHead opt
                ++ EventTypeURLVerification ++ " successful\n"),
              out := .returned none }
  else if eReq.Schema == "2.0" then
    match eReq.Header with
    | none =>
      { effects := opt.debugLog (eventLogHead opt ++ "get event(2.0), but header is nil\n"),
        out := .returned none }
    | some header =>
      if header.Token != a.verificationToken then
        { effects := opt.debugLog (eventLogHead opt ++ "unexpected event callback token (app: "
            ++ a.verificationToken ++ "): " ++ header.Token ++ "\n"),
          out := .returned none }
      else
        match a.eventHandler.lookup header.EventType with
        | some handler =>
          { effects := [.goHandler handler header eReq.Event, .writeHeader 200],
            out := .returned none }
        | none =>
          { effects := opt.debugLog (eventLogHead opt ++ "unregistered event: "
              ++ header.EventType ++ "\n") ++ [.writeHeader 200],
            out := .returned none }
  else if eReq.EventHeaderV1.UUID != "" then
    if eReq.EventHeaderV1.Token != a.verificationToken then
      { effects := opt.debugLog (eventLogHead opt ++ "unexpected event callback token (app: "
          ++ a.verificationToken ++ "): " ++ eReq.EventHeaderV1.Token ++ "\n"),
        out := .returned none }
    else
      match a.eventHandlerV1.lookup eReq.EventHeaderV1.Type_ with
      | some handler =>
        { effects := [.goHandlerV1 handler eReq.EventHeaderV1 eReq.Event, .writeHeader 200],
          out := .returned none }
      | none =>
        match eReq.Header with
        | none => { effects := [], out := .panicked nilDereference }
        | some header =>
          { effects := opt.debugLog (eventLogHead opt ++ "unregistered event(v1.0): "
              ++ header.EventType ++ "\n") ++ [.writeHeader 200],
            out := .returned none }
  else
    { effects := [], out := .returned none }

/-- The variable `opt` of `ListenEventCallback`. -/
def app.eventOpt (a : app) : _doOpt :=
  _newDoOpt (a.buildOpts "事件订阅" "收到一个新事件" ∅ [])

/-- The method `app.ListenEventCallback`; `body` is what `io.Copy` gets from
the body of the request. The two deferred functions run at the end, also at
a panic: the body is closed once it was read, and status 500 is written when
the variable `err` is not nil. -/
def app.ListenEventCallback (a : app) (env : EventEnv) (body : Except GoError Bytes) :
    Run (Ret Unit) :=
  let opt := a.eventOpt
  match body with
  | .error err =>
    { effects := opt.debugLog (eventLogHead opt ++ err.Error ++ "\n") ++ [.writeHeader 500],
      out := .returned () }
  | .ok bytes =>
    let r := a.decodeEvent env opt bytes
    match r.out with
    | .panic v => { effects := r.effects ++ [.bodyClose], out := .panicked v }
    | .error _ =>
      { effects := r.effects ++ [.bodyClose, .writeHeader 500], out := .returned () }
    | .ok (eReq, buf) =>
      let d := a.dispatchEvent env opt eReq buf
      match d.out with
      | .panicked v => { effects := r.effects ++ d.effects ++ [.bodyClose], out := .panicked v }
      | .returned none =>
        { effects := r.effects ++ d.effects ++ [.bodyClose], out := .returned () }
      | .returned (some _) =>
        { effects := r.effects ++ d.effects ++ [.bodyClose, .writeHeader 500],
          out := .returned () }

/-- The method `app.RegisterEventCallback`. -/
def app.RegisterEventCallback (a : app) (eventType : String) (handler : EventHandler) : app :=
  { a with eventHandler := a.eventHandler.insert eventType handler }

/-- The method `app.RegisterEventCallbackV1`. -/
def app.RegisterEventCallbackV1 (a : app) (eventType : String) (handler : EventHandlerV1) :
    app :=
  { a with eventHandlerV1 := a.eventHandlerV1.insert eventType handler }

/-! ## What a client of the webhook observes -/

/-- An effect is a `go` statement that starts a handler. -/
def Effect.isHandlerCall : Effect → Bool
  | .goHandler _ _ _ => true
  | .goHandlerV1 _ _ _ => true
  | _ => false

/-- The handlers started, in order. -/
def handlerCalls (effects : List Effect) : List Effect :=
  effects.filter Effect.isHandlerCall

/-- The bytes written to the response body, in order. -/
def responseBody : List Effect → Bytes
  | [] => []
  | .write bs :: rest => bs ++ responseBody rest
  | _ :: rest => responseBody rest

/-- The status codes passed to `WriteHeader`, in order. -/
def statusWritten : List Effect → List Int
  | [] => []
  | .writeHeader statusCode :: rest => statusCode :: statusWritten rest
  | _ :: rest => statusWritten rest

/-- The status of the response that `net/http` sends for a handler that
returns: the code of the first `WriteHeader`, or 200 when a `Write` comes
first or nothing is written. -/
def responseStatus : List Effect → Int
  | [] => 200
  | .writeHeader statusCode :: _ => statusCode
  | .write _ :: _ => 200
  | _ :: rest => responseStatus rest

/-! ## What a caller of the request pipeline observes -/

/-- The field `Timeout` of the client `cli` after a run with the given
effects, when it was `d` before: the last value written to it, if any. -/
def clientTimeout (cli : HTTPClient) (d : Int) : List Effect → Int
  | [] => d
  | .setTimeout c t :: rest => clientTimeout cli (if c = cli then t else d) rest
  | _ :: rest => clientTimeout cli d rest

/-- An effect is a write to the field `Timeout` of a client. -/
def Effect.isSetTimeout : Effect → Bool
  | .setTimeout _ _ => true
  | _ => false

/-- The names of the file handles that are open after a run with the given
effects, when the handles `before` were open before it, oldest first:
`os.Open` adds a handle, `Close` removes the newest handle of that name. -/
def openFiles (before : List String) : List Effect → List String
  | [] => before
  | .fileOpen name :: rest => openFiles (before ++ [name]) rest
  | .fileClose name :: rest => openFiles (before.reverse.erase name).reverse rest
  | _ :: rest => openFiles before rest

/-! ## `api_messenger_group.go` -/

/-- The struct `GroupChat`. -/
structure GroupChat where
  ChatID : String
  Avatar : String
  Name : String
  Description : String
  OwnerID : String
  OwnerIDType : String
  External : Bool
  TenantKey : String
deriving DecidableEq, Repr

/-- The struct `GroupChatsResponse`. -/
structure GroupChatsResponse where
  Items : List GroupChat
  PageToken : String
  HasMore : Bool
deriving DecidableEq, Repr

/-- The option `WithGetAllGroupChatsOwnerIDType` (the type `IDType` is a
string). -/
def WithGetAllGroupChatsOwnerIDType (idType : String) : doOption :=
  withDoQueryKV "user_id_type" idType

/-- The option `WithGetAllGroupChatsPageSize`. -/
def WithGetAllGroupChatsPageSize (pageSize : Int) : doOption :=
  withDoQueryKV "page_size" (fmtInt pageSize)

/-- The option `WithGetAllGroupChatsPageToken`. -/
def WithGetAllGroupChatsPageToken (pageToken : String) : doOption :=
  withDoQueryKV "page_token" pageToken

/-- The map `m` that `WithGetAllGroupChatsNextPage` builds when the last page
says there is more. -/
def nextPageQuery (lastResp : GroupChatsResponse) : GoMap :=
  let m := GoMap.single "page_token" lastResp.PageToken
  match lastResp.Items with
  | first :: _ =>
    if first.OwnerIDType != "" then m.store "user_id_type" first.OwnerIDType else m
  | [] => m

/-- The option `WithGetAllGroupChatsNextPage`: nil when the last page says
there is no more. The call makes a new map `m` and the option it returns holds
that map; `id` is the identity of this map object, different for every call,
and the same whenever the one option value is applied again. -/
def WithGetAllGroupChatsNextPage (lastResp : GroupChatsResponse) (id : Nat) : doOption :=
  if !lastResp.HasMore then none
  else withDoQuery { id := id, content := nextPageQuery lastResp }

/-! ## `api_messenger_msg_builder.go` -/

/-- A value of type `interface` as the message builders make it: a string, an
`int`, a `bool`, or a map whose values are strings. -/
inductive GoValue where
  | str (s : String)
  | int (n : Int)
  | bool (b : Bool)
  | object (m : GoMap)
deriving DecidableEq

/-- A Go `map[string]interface` as the message builders make it. -/
abbrev GoObject := AList (fun _ : String => GoValue)

/-- The struct `postElement`; every builder of the source puts a map into
`elem`. -/
structure postElement where
  elem : GoObject
  isImage : Bool
deriving DecidableEq

/-- The function type `PostElement`: the value the function returns when it is
called, or `none` for a nil function. -/
abbrev PostElement := Option postElement

/-- The struct `i18nPost`: `elements` holds the paragraphs, each a sequence of
elements. -/
structure i18nPost where
  lang : String
  title : String
  elements : List (List GoObject)
deriving DecidableEq

/-- The builder `WithPostElementText`; `isUnescape` is its variadic
argument. -/
def WithPostElementText (text : String) (isUnescape : List Bool) : PostElement :=
  let elem : GoObject := ((∅ : GoObject).insert "tag" (.str "text")).insert "text" (.str text)
  some
    { elem := (match isUnescape with
        | b :: _ => if b then elem.insert "un_escape" (.bool b) else elem
        | [] => elem),
      isImage := false }

/-- The builder `WithPostElementLink`. -/
def WithPostElementLink (text href : String) : PostElement :=
  some
    { elem := (((∅ : GoObject).insert "tag" (.str "a")).insert "text" (.str text)).insert
        "href" (.str href),
      isImage := false }

/-- The builder `WithPostElementImage`. -/
def WithPostElementImage (imgKey : String) : PostElement :=
  some
    { elem := ((∅ : GoObject).insert "tag" (.str "img")).insert "image_key" (.str imgKey),
      isImage := true }

/-- The builder `WithPostElementMentionAll`. -/
def WithPostElementMentionAll : PostElement :=
  some
    { elem := ((∅ : GoObject).insert "tag" (.str "at")).insert "user_id" (.str "all"),
      isImage := false }

/-- The builder `WithPostElementMentionByOpenID`; `name` is its variadic
argument. -/
def WithPostElementMentionByOpenID (id : String) (name : List String) : PostElement :=
  let elem : GoObject := ((∅ : GoObject).insert "tag" (.str "at")).insert "user_id" (.str id)
  some
    { elem := (match name with
        | n :: _ => elem.insert "user_name" (.str n)
        | [] => elem),
      isImage := false }

/-- The loop of `WithPost` over the elements still to come, with the
paragraphs finished so far (`es`) and the paragraph being filled (`p`); after
the loop the paragraph being filled is appended. Calling a nil element
panics. -/
def postLoop : List PostElement → List (List GoObject) → List GoObject →
    Ret (List (List GoObject))
  | [], es, p => .returned (es ++ [p])
  | none :: _, _, _ => .panicked nilDereference
  | some elem :: rest, es, p =>
    if elem.isImage then postLoop rest (es ++ [p, [elem.elem]]) []
    else postLoop rest es (p ++ [elem.elem])

/-- The function `WithPost`, as the result of calling the `Post` it returns
(the type `Language` is a string). -/
def WithPost (lang title : String) (elements : List PostElement) : Ret i18nPost :=
  match postLoop elements [] [] with
  | .panicked v => .panicked v
  | .returned es => .returned { lang := lang, title := title, elements := es }

/-- The function type `CardElemImageOption`, as the pair `(key, v)` the
function returns when it is called. -/
abbrev CardElemImageOption := String × GoValue

/-- The constant `utf8.RuneSelf`: bytes below it are characters of their
own. -/
def RuneSelf : Nat := 128

/-- The table `asciiSpace`, read at a byte. -/
def asciiSpace (c : Nat) : Nat :=
  if c = 9 ∨ c = 10 ∨ c = 11 ∨ c = 12 ∨ c = 13 ∨ c = 32 then 1 else 0

/-- The function `unicode.IsSpace` of the standard library. -/
def unicodeIsSpace (r : Char) : Bool :=
  if r.toNat ≤ 255 then
    r.toNat == 9 || r.toNat == 10 || r.toNat == 11 || r.toNat == 12 || r.toNat == 13
      || r.toNat == 32 || r.toNat == 133 || r.toNat == 160
  else
    r.toNat == 5760 || (8192 ≤ r.toNat && r.toNat ≤ 8202) || r.toNat == 8232
      || r.toNat == 8233 || r.toNat == 8239 || r.toNat == 8287 || r.toNat == 12288

/-- The function `strings.TrimFunc` of the standard library, on the
characters of a string: the characters satisfying `f` are cut at both
ends. -/
def stringsTrimFunc (s : List Char) (f : Char → Bool) : List Char :=
  ((s.dropWhile f).reverse.dropWhile f).reverse

/-- The loop of `trimPrefixSpace` from the position `start` on, on the
characters from that position. A string is taken to be well-formed UTF-8, so
that the byte at `start` is below `utf8.RuneSelf` exactly when the character
there is. -/
def trimPrefixSpaceFrom : List Char → List Char
  | [] => []
  | c :: rest =>
    if c.toNat ≥ RuneSelf then stringsTrimFunc (c :: rest) unicodeIsSpace
    else if asciiSpace c.toNat == 0 then c :: rest
    else trimPrefixSpaceFrom rest

/-- The function `trimPrefixSpace`. -/
def trimPrefixSpace (s : String) : String := String.mk (trimPrefixSpaceFrom s.data)

/-- The option `WithCardElementImageHover`. -/
def WithCardElementImageHover (text : String) : CardElemImageOption :=
  ("alt", .object (((∅ : GoMap).insert "tag" "plain_text").insert "content" text))

/-- The option `WithCardElementImageTitle`; `md` is its variadic argument. -/
def WithCardElementImageTitle (text : String) (md : List Bool) : CardElemImageOption :=
  let isMD := match md with
    | b :: _ => b
    | [] => false
  let tag := if isMD then "lark_md" else "plain_text"
  let text := if isMD then trimPrefixSpace text else text
  ("title", .object (((∅ : GoMap).insert "tag" tag).insert "content" text))

/-- The option `WithCardElementImageMode` (the type `ImageMode` is a
string). -/
def WithCardElementImageMode (mode : String) : CardElemImageOption :=
  ("mode", .str mode)

/-- The option `WithCardElementImageCustomWidth`. -/
def WithCardElementImageCustomWidth (w : Int) : CardElemImageOption :=
  let min : Int := 278
  let max : Int := 580
  let w := if w < min then min else w
  let w := if w > max then max else w
  ("custom_width", .int w)

/-- The option `WithCardElementImageCompactWidth`. -/
def WithCardElementImageCompactWidth (b : Bool) : CardElemImageOption :=
  ("compact_width", .bool b)

/-- The option `WithCardElementImagePreview`. -/
def WithCardElementImagePreview (b : Bool) : CardElemImageOption :=
  ("preview", .bool b)

/-! ## Descriptions of option lists

The options of the source are closures. To speak about "the options applied
in order" the closures are named by the call that builds them. -/

/-- A registration of a multipart part: a call of `withDoUploadFormData` or of
`withDoUploadFormFile` with its arguments. -/
inductive PartSpec where
  | formData (name : String) (value : Option Reader)
  | formFile (name filename : String) (needToReadFile : Bool) (data : Option Reader)

/-- The option a registration stands for. -/
def PartSpec.option : PartSpec → doOption
  | .formData name value => withDoUploadFormData name value
  | .formFile name filename needToReadFile data =>
    withDoUploadFormFile name filename needToReadFile data

/-- The `Content-Disposition` expected for a registration: the field name,
and for a file the base name of its filename with backslash and double quote
escaped. -/
def PartSpec.disposition : PartSpec → String
  | .formData name _ => "form-data; name=\"" ++ name ++ "\""
  | .formFile name filename _ _ =>
    "form-data; name=\"" ++ name ++ "\"; filename=\"" ++ escapeQuotes (pathBase filename) ++ "\""

/-- A call that builds a `doOption`, or the nil option. -/
inductive OptionSpec where
  | nil
  | apiDomain (domain : String)
  | apiName (name : String)
  | header (header : GoMap)
  | query (query : MapRef)
  | queryKV (k v : String)
  | part (p : PartSpec)
  | httpCli (cli : Option HTTPClient)
  | debug (b : Bool)
  | logger (logger : Option Logger)

/-- The option a call builds. -/
def OptionSpec.option : OptionSpec → doOption
  | .nil => none
  | .apiDomain d => withDoAPIDomain d
  | .apiName n => withDoAPIName n
  | .header h => withDoHeader h
  | .query q => withDoQuery q
  | .queryKV k v => withDoQueryKV k v
  | .part p => p.option
  | .httpCli c => withDoHTTPCli c
  | .debug b => withDoDebug b
  | .logger l => withDoLogger l

/-- The query entries a call gives: the content of the map of `withDoQuery`
as the caller built it, the single entry of `withDoQueryKV`, nothing for every
other call. -/
def OptionSpec.queryGiven : OptionSpec → GoMap
  | .query q => q.content
  | .queryKV k v => GoMap.single k v
  | _ => ∅

/-- The query entries a call gives at the moment it is applied to `opt`: for
`withDoQuery` the content its map has now, else as `queryGiven`. -/
def OptionSpec.givenNow (s : OptionSpec) (opt : _doOpt) : GoMap :=
  match s with
  | .query q => opt.mapNow q
  | _ => s.queryGiven

/-- The map object a call hands over: that of `withDoQuery`, none for every
other call. -/
def OptionSpec.mapID : OptionSpec → Option Nat
  | .query q => some q.id
  | _ => none

/-! ## Concrete values used to run the definitions -/

/-- An environment for examples: requests are always well formed, no file
exists, and the remote service gives the same reply to every request. -/
def exampleEnv {Data : Type} (marshal : Data → Except GoError String)
    (reply : Except GoError Response) : Env Data :=
  { marshal := marshal,
    addQuery := fun rawURL _ => .ok (rawURL ++ "?q"),
    newRequestErr := fun _ _ => none,
    canonicalKey := fun k => k,
    boundary := "b0",
    openFile := fun name => .error (.errorString ("open " ++ name ++ ": no such file or directory")),
    clientDo := fun _ _ => reply,
    elapsed := "1ms" }

/-- An encoder for examples. -/
def exampleMarshal (d : appAccessTokenInternalRequest) : Except GoError String :=
  .ok ("[\"" ++ d.AppID ++ "\",\"" ++ d.AppSecret ++ "\"]")

/-- An encoder for examples: the JSON text `json.Marshal` gives for an
`appAccessTokenInternalRequest` whose two strings hold no character to escape,
with the keys `app_id` and `app_secret` of its field tags. -/
def exampleMarshalObject (d : appAccessTokenInternalRequest) : Except GoError String :=
  .ok ("\x7b\"app_id\":\"" ++ d.AppID ++ "\",\"app_secret\":\"" ++ d.AppSecret ++ "\"\x7d")

/-- A decoder for examples: every non-empty body decodes to `resp`. -/
def exampleUnmarshal {R : Type} (resp : R) (bytes : String) : Except GoError R :=
  if bytes == "" then .error (.errorString "EOF") else .ok resp

/-- A reply with status 200, correlation id `req-1` and a body. -/
def exampleReply (body : String) : Except GoError Response :=
  .ok { requestID := "req-1", StatusCode := 200, body := body, bodyErr := none }

/-- A reply whose correlation id is `req-1` and whose body cannot be read to
its end. -/
def exampleBrokenReply : Except GoError Response :=
  .ok { requestID := "req-1", StatusCode := 502, body := "",
        bodyErr := some (.errorString "unexpected EOF") }

/-- A token response with code 0. -/
def exampleTokenResponse (token : String) (expire : Int) : appAccessTokenInternalResponse :=
  { fsResponse := { Code := 0, Msg := "ok" },
    AppAccessTokenInternal := { AppAccessToken := token, Expire := expire } }

/-- The two parts of an image upload: the field `image_type` and a file part
read from a stream, with a quote and a backslash in its filename. -/
def exampleParts : List PartSpec :=
  [.formData "image_type" (some (.ok "message")),
   .formFile "image" "/tmp/dir/a\"b\\c.png" false (some (.ok "PNG"))]

/-- An environment of the webhook for examples: a string is decoded character
by character, the digest is the input cut or filled to 32 bytes, the cipher
reverses the bytes, the JSON decoders are given, a string is encoded as its
bytes between double quotes (the JSON string of a text without a character to
escape), and every `Write` succeeds. -/
def exampleEventEnv (events : Bytes → eventRequest → eventRequest × Option GoError)
    (verification : Bytes → Except GoError eventURLVerificationRequest) : EventEnv :=
  { base64Decode := fun s => .ok (s.data.map (fun c => c.toNat.toUInt8)),
    sha256 := fun b => (b ++ List.replicate 32 0).take 32,
    cbcDecrypt := fun _ _ src => src.reverse,
    unmarshalEvent := events,
    unmarshalVerification := verification,
    marshalString := fun s => .ok ([34] ++ stringBytes s ++ [34]),
    writeErr := fun _ => none }

/-- A decoder for examples: every body decodes to the envelope `e`. -/
def exampleEvents (e : eventRequest) (_data : Bytes) (_eq : eventRequest) :
    eventRequest × Option GoError :=
  (e, none)

/-- A decoder for examples: no body is a verification request. -/
def exampleNoVerification (_data : Bytes) : Except GoError eventURLVerificationRequest :=
  .error (.errorString "json: cannot unmarshal")

/-- A v1 envelope: a uuid, the token `tok-1`, the type `message`, no header
block and schema `schema`. -/
def exampleEnvelopeV1 (schema : String) : eventRequest :=
  { Encrypt := "", Schema := schema, Header := none,
    EventHeaderV1 := { Timestamp := "1", UUID := "u-1", Token := "tok-1", Type_ := "message" },
    Event := [braceOpen, braceClose] }

/-- A header of a v2 envelope with the token `tok-1`. -/
def exampleHeaderV2 : EventHeaderV2 :=
  { EventID := "e-1", EventType := EventTypeMessageReceived, CreateTime := "1",
    Token := "tok-1", AppID := "cli_a1", TenantKey := "t-1" }

/-- A v2 envelope with `exampleHeaderV2` and the type field `ty`. -/
def exampleEnvelopeV2 (ty : String) : eventRequest :=
  { Encrypt := "", Schema := "2.0", Header := some exampleHeaderV2,
    EventHeaderV1 := { Timestamp := "", UUID := "u-1", Token := "", Type_ := ty },
    Event := [braceOpen, braceClose] }

/-- An envelope of type `url_verification` with the token `tok-1`. -/
def examplePing : eventRequest :=
  { Encrypt := "", Schema := "", Header := none,
    EventHeaderV1 := { Timestamp := "", UUID := "", Token := "tok-1",
                       Type_ := EventTypeURLVerification },
    Event := [] }

/-- A decoder for examples: every body is the verification request with
challenge `c` and token `T`. -/
def exampleVerification (c T : String) (_data : Bytes) :
    Except GoError eventURLVerificationRequest :=
  .ok { Challenge := c, Token := T, Type_ := EventTypeURLVerification }

/-- An encoder for examples, undone by the decoder of `exampleEventEnv`: a
byte becomes the character of its value. -/
def exampleEnc64 (b : Bytes) : String :=
  String.mk (b.map (fun x => Char.ofNat x.toNat))

/-- A cipher for examples, undone by the one of `exampleEventEnv`: the bytes
are reversed. -/
def exampleCbcEncrypt (_key _iv src : Bytes) : Bytes := src.reverse

/-- An envelope for examples with the given `encrypt` field. -/
def exampleEncrypted (encrypt : String) : eventRequest :=
  { eventRequest.zero with Encrypt := encrypt }

/-- A custom app whose verification token is `tok-1`, without handlers. -/
def exampleEventApp : app :=
  NewCustomApp "cli_a1" "s3cret" [WithAppEventVerificationToken "tok-1",
    WithAppEventEncryptKey "key-1"]

/-- A decoder for examples that sets fields as `json.Unmarshal` does, for two
texts: the bytes `outer` set what `setOuter` sets, the bytes `plain` set what
`setPlain` sets, fields that are not set keep the value they have, and all
other bytes are a syntax error. -/
def exampleMerge (outer plain : Bytes) (setOuter setPlain : eventRequest → eventRequest)
    (data : Bytes) (eq : eventRequest) : eventRequest × Option GoError :=
  if data = outer then (setOuter eq, none)
  else if data = plain then (setPlain eq, none)
  else (eq, some (.errorString "invalid character"))

/-- A decoder for examples: every body is a JSON object that holds no field of
a verification request. -/
def exampleNoFields (_data : Bytes) : Except GoError eventURLVerificationRequest :=
  .ok { Challenge := "", Token := "", Type_ := "" }

/-- The bytes that stand for the JSON text of an outer envelope. -/
def exampleOuterText : Bytes := braceOpen :: (stringBytes "outer" ++ [braceClose])

/-- The bytes that stand for the JSON text of a v2 event with the fields
`schema`, `header` and `event`. -/
def examplePlainText : Bytes := braceOpen :: (stringBytes "v2" ++ [braceClose])

/-- What decoding `examplePlainText` sets: schema 2.0, the header
`exampleHeaderV2` and an event. -/
def exampleSetPlain (eq : eventRequest) : eventRequest :=
  { eq with Schema := "2.0", Header := some exampleHeaderV2, Event := [braceOpen, braceClose] }

/-- An `encrypt` field for `exampleEventEnv`: the vector `0123456789abcdef`
followed by the encryption of `examplePlainText` filled to one block. -/
def exampleCipherText : String :=
  exampleEnc64 (stringBytes "0123456789abcdef"
    ++ exampleCbcEncrypt [] [] (examplePlainText ++ stringBytes "abcdefghijkl"))

/-- What decoding an outer envelope with the fields `encrypt` and `type` sets,
the type being `url_verification`. -/
def exampleSetOuterPing (eq : eventRequest) : eventRequest :=
  { eq with Encrypt := exampleCipherText,
            EventHeaderV1 := { eq.EventHeaderV1 with Type_ := EventTypeURLVerification } }

/-- What decoding an outer envelope with the field `encrypt` alone sets. -/
def exampleSetOuterPlain (eq : eventRequest) : eventRequest :=
  { eq with Encrypt := exampleCipherText }

/-- A client with a name of its own. -/
def exampleClient : HTTPClient := { name := "client-1" }

/-- An environment for examples in which the file `a.png` can be opened but
not read to its end. -/
def exampleBrokenFileEnv : Env appAccessTokenInternalRequest :=
  { (exampleEnv exampleMarshal (exampleReply "ok")) with
    openFile := fun name =>
      if name = "a.png" then
        .ok { content := .error (.errorString "read a.png: input/output error"),
              closeErr := none }
      else .error (.errorString ("open " ++ name ++ ": no such file or directory")) }

/-- A custom app with an empty credential cache. -/
def exampleApp : app := NewCustomApp "cli_a1" "s3cret" []

/-! ## Theorems -/

/-- The saturating subtraction compares with an `int64` margin exactly as the
exact difference does, as long as the difference does not exceed the largest
duration. -/
theorem timeSub_gt_iff (t u m : Int) (hm : minDuration ≤ m)
    (hd : t - u ≤ maxDuration) : timeSub t u > m ↔ t - u > m := by
  unfold timeSub
  rw [min_eq_right hd]
  unfold minDuration maxDuration at *
  constructor
  · intro h
    rcases le_total (-9223372036854775808 : Int) (t - u) with h1 | h1
    · rwa [max_eq_right h1] at h
    · rw [max_eq_left h1] at h
      omega
  · intro h
    exact lt_of_lt_of_le h (le_max_right _ _)

/-- After a `set` at `t0`, `notExpired` at any later instant is the exact
comparison of the remaining lifetime with the margin. -/
theorem fsToken.notExpired_set (tok : fsToken) (v : String) (L m t0 s : Int)
    (hL : L ≤ maxDuration) (hm : minDuration ≤ m) (hs : t0 ≤ s) :
    (tok.set t0 v L m).notExpired s = true ↔ s < t0 + L - m := by
  simp only [fsToken.notExpired, fsToken.set, timeAdd, decide_eq_true_eq]
  have hd : t0 + L - s ≤ maxDuration := by
    unfold maxDuration at *
    omega
  have h := timeSub_gt_iff (t0 + L) s m hm hd
  constructor
  · intro h1
    have := h.1 h1
    omega
  · intro h1
    exact h.2 (by omega)

/-- C1: after `set(v, L, m)` at time `t0`, `notExpired` at a later time `t` is
true iff `t < t0 + L - m`; immediately after the set it is true iff `L > m`;
and it is false for every `t ≥ t0 + L - m`. Durations range over `int64`. -/
theorem fsToken_set_notExpired_iff (tok : fsToken) (v : String) (L m t0 t : Int)
    (hL : isInt64 L) (hm : isInt64 m) (ht : t0 ≤ t) :
    ((tok.set t0 v L m).notExpired t = true ↔ t < t0 + L - m) ∧
    ((tok.set t0 v L m).notExpired t0 = true ↔ L > m) ∧
    (t ≥ t0 + L - m → (tok.set t0 v L m).notExpired t = false) := by
  have key := fsToken.notExpired_set tok v L m t0 t hL.2 hm.1 ht
  have key0 := fsToken.notExpired_set tok v L m t0 t0 hL.2 hm.1 le_rfl
  refine ⟨key, ?_, ?_⟩
  · rw [key0]
    constructor <;> intro h <;> omega
  · intro h
    cases hb : (tok.set t0 v L m).notExpired t with
    | false => rfl
    | true =>
      have := key.1 hb
      omega

/-- C1 at a concrete token: a two-hour lifetime with a thirty-minute margin,
read one second after the set. -/
theorem fsToken_set_notExpired_iff_witness :
    ((fsToken.zero.set 1000 "t-abc" (7200 * Second) (30 * Minute)).notExpired (1000 + Second) = true
        ↔ 1000 + Second < 1000 + 7200 * Second - 30 * Minute) ∧
    ((fsToken.zero.set 1000 "t-abc" (7200 * Second) (30 * Minute)).notExpired 1000 = true
        ↔ 7200 * Second > 30 * Minute) ∧
    (1000 + Second ≥ 1000 + 7200 * Second - 30 * Minute →
      (fsToken.zero.set 1000 "t-abc" (7200 * Second) (30 * Minute)).notExpired (1000 + Second) = false) :=
  fsToken_set_notExpired_iff fsToken.zero "t-abc" (7200 * Second) (30 * Minute) 1000 (1000 + Second)
    (by decide) (by decide) (by decide)

/-! ### The token coordinator -/

/-- An empty token is stale whatever its expiry. -/
theorem fsToken.stale_of_empty (tok : fsToken) (t : Int) (h : tok.val = "") :
    (tok.isEmpty || !tok.notExpired t) = true := by
  simp [fsToken.isEmpty, h]

/-- Boolean form of the test of `getAppAccessTokenWithContext`. -/
theorem stale_eq_false (x y : Bool) : (x || !y) = false ↔ x = false ∧ y = true := by
  cases x <;> cases y <;> simp

/-- Boolean form of the test of `getAppAccessTokenWithContext`, negated. -/
theorem fresh_eq_not_stale (x y : Bool) : (!x && y) = !(x || !y) := by
  cases x <;> cases y <;> simp

/-- With a stale cache, a custom app runs the refresh: effects and state are
those of the refresh, and the result is made from its result. -/
theorem getAppAccessToken_stale (env : Env appAccessTokenInternalRequest)
    (unmarshal : String → Except GoError appAccessTokenInternalResponse) (tCheck tSet : Int)
    (a : app) (hc : a.isCustomApp = true)
    (hs : (a.appAccess.isEmpty || !a.appAccess.notExpired tCheck) = true) :
    (a.getAppAccessTokenWithContext env unmarshal tCheck tSet).effects
        = (a.GetAppAccessTokenInternalWithContext env unmarshal tSet).effects ∧
    (a.getAppAccessTokenWithContext env unmarshal tCheck tSet).out.1
        = (a.GetAppAccessTokenInternalWithContext env unmarshal tSet).out.1 ∧
    (a.getAppAccessTokenWithContext env unmarshal tCheck tSet).out.2
        = (match (a.GetAppAccessTokenInternalWithContext env unmarshal tSet).out.2 with
           | .panicked v => .panicked v
           | .returned (_, some err) => .returned ("", some err)
           | .returned (_, none) => .returned
               ((a.GetAppAccessTokenInternalWithContext env unmarshal tSet).out.1.appAccess.val,
                none)) := by
  unfold app.getAppAccessTokenWithContext
  rw [fresh_eq_not_stale, hs]
  simp only [Bool.not_true, Bool.false_eq_true, if_false, hc, if_true]
  generalize a.GetAppAccessTokenInternalWithContext env unmarshal tSet = g
  rcases g with ⟨eff, a1, ⟨x, _ | err⟩ | v⟩ <;> simp [fsToken.get]

/-- With a cache that is not stale, nothing happens: no effect, the same app,
and the cached value with a nil error. -/
theorem getAppAccessToken_valid (env : Env appAccessTokenInternalRequest)
    (unmarshal : String → Except GoError appAccessTokenInternalResponse) (tCheck tSet : Int)
    (a : app) (hs : (a.appAccess.isEmpty || !a.appAccess.notExpired tCheck) = false) :
    (a.getAppAccessTokenWithContext env unmarshal tCheck tSet).effects = [] ∧
    (a.getAppAccessTokenWithContext env unmarshal tCheck tSet).out
        = (a, .returned (a.appAccess.val, none)) := by
  unfold app.getAppAccessTokenWithContext
  rw [fresh_eq_not_stale, hs]
  simp [fsToken.get]

/-- C2: for a custom app, `getAppAccessTokenWithContext` runs the refresh
`GetAppAccessTokenInternalWithContext` exactly when the cached token is empty
or not valid: in that case its effects and the new state are those of the
refresh and its result is made from the result of the refresh; otherwise it
has no effect at all (no outbound call), leaves the app unchanged and returns
the cached value with a nil error. An empty value is stale at every time. -/
theorem getAppAccessToken_refresh_iff_stale (env : Env appAccessTokenInternalRequest)
    (unmarshal : String → Except GoError appAccessTokenInternalResponse) (tCheck tSet : Int)
    (a : app) (hc : a.isCustomApp = true) :
    ((a.appAccess.isEmpty || !a.appAccess.notExpired tCheck) = true →
      (a.getAppAccessTokenWithContext env unmarshal tCheck tSet).effects
          = (a.GetAppAccessTokenInternalWithContext env unmarshal tSet).effects ∧
      (a.getAppAccessTokenWithContext env unmarshal tCheck tSet).out.1
          = (a.GetAppAccessTokenInternalWithContext env unmarshal tSet).out.1 ∧
      (a.getAppAccessTokenWithContext env unmarshal tCheck tSet).out.2
          = (match (a.GetAppAccessTokenInternalWithContext env unmarshal tSet).out.2 with
             | .panicked v => .panicked v
             | .returned (_, some err) => .returned ("", some err)
             | .returned (_, none) => .returned
                 ((a.GetAppAccessTokenInternalWithContext env unmarshal tSet).out.1.appAccess.val,
                  none))) ∧
    ((a.appAccess.isEmpty || !a.appAccess.notExpired tCheck) = false →
      (a.getAppAccessTokenWithContext env unmarshal tCheck tSet).effects = [] ∧
      (a.getAppAccessTokenWithContext env unmarshal tCheck tSet).out
          = (a, .returned (a.appAccess.val, none))) ∧
    (a.appAccess.val = "" → (a.appAccess.isEmpty || !a.appAccess.notExpired tCheck) = true) := by
  exact ⟨getAppAccessToken_stale env unmarshal tCheck tSet a hc,
    getAppAccessToken_valid env unmarshal tCheck tSet a, fsToken.stale_of_empty _ _⟩

/-- The refresh of the app token either leaves the app as it was and does not
succeed, or succeeds with a token struct `x` and stores it in the app slot. -/
theorem GetAppAccessTokenInternal_out (env : Env appAccessTokenInternalRequest)
    (unmarshal : String → Except GoError appAccessTokenInternalResponse) (now : Int) (a : app) :
    ((a.GetAppAccessTokenInternalWithContext env unmarshal now).out.1 = a ∧
      ∀ x, (a.GetAppAccessTokenInternalWithContext env unmarshal now).out.2 ≠ .returned (x, none)) ∨
    (∃ x, (a.GetAppAccessTokenInternalWithContext env unmarshal now).out.2 = .returned (x, none) ∧
      (a.GetAppAccessTokenInternalWithContext env unmarshal now).out.1
        = { a with appAccess := (a.appAccess.set now x.AppAccessToken
              (expireDuration x.Expire) (30 * Minute)) }) := by
  unfold app.GetAppAccessTokenInternalWithContext
  dsimp only
  split
  · left; simp
  · split
    · left; simp
    · split
      · left; simp
      · split
        · left; simp
        · left; simp
        · split
          · left; simp
          · right; exact ⟨_, rfl, rfl⟩

/-- The refresh of the tenant token either leaves the app as it was and does not
succeed, or succeeds with a token struct `x` and stores it in the tenant slot. -/
theorem GetTenantAccessTokenInternal_out (env : Env tenantAccessTokenInternalRequest)
    (unmarshal : String → Except GoError tenantAccessTokenInternalResponse) (now : Int) (a : app) :
    ((a.GetTenantAccessTokenInternalWithContext env unmarshal now).out.1 = a ∧
      ∀ x, (a.GetTenantAccessTokenInternalWithContext env unmarshal now).out.2 ≠ .returned (x, none)) ∨
    (∃ x, (a.GetTenantAccessTokenInternalWithContext env unmarshal now).out.2 = .returned (x, none) ∧
      (a.GetTenantAccessTokenInternalWithContext env unmarshal now).out.1
        = { a with tenantAccess := (a.tenantAccess.set now x.TenantAccessToken
              (expireDuration x.Expire) (30 * Minute)) }) := by
  unfold app.GetTenantAccessTokenInternalWithContext
  dsimp only
  split
  · left; simp
  · split
    · left; simp
    · split
      · left; simp
      · split
        · left; simp
        · left; simp
        · split
          · left; simp
          · right; exact ⟨_, rfl, rfl⟩

/-- C3: when the cached token is stale, the app is a custom app and the
refresh fails with an error `err` (whatever its cause), then
`getAppAccessTokenWithContext` returns the empty token with that error and
the app, in particular its cached app token, is what it was before. -/
theorem getAppAccessToken_refresh_failure (env : Env appAccessTokenInternalRequest)
    (unmarshal : String → Except GoError appAccessTokenInternalResponse) (tCheck tSet : Int)
    (a : app) (x : AppAccessTokenInternal) (err : GoError)
    (hs : (a.appAccess.isEmpty || !a.appAccess.notExpired tCheck) = true)
    (hc : a.isCustomApp = true)
    (hf : (a.GetAppAccessTokenInternalWithContext env unmarshal tSet).out.2
            = .returned (x, some err)) :
    (a.getAppAccessTokenWithContext env unmarshal tCheck tSet).out = (a, .returned ("", some err)) ∧
    (a.getAppAccessTokenWithContext env unmarshal tCheck tSet).out.1.appAccess = a.appAccess := by
  have hn : (!a.appAccess.isEmpty && a.appAccess.notExpired tCheck) = false := by
    cases h1 : a.appAccess.isEmpty <;> cases h2 : a.appAccess.notExpired tCheck <;> simp_all
  have hstate : (a.GetAppAccessTokenInternalWithContext env unmarshal tSet).out.1 = a := by
    rcases GetAppAccessTokenInternal_out env unmarshal tSet a with h | ⟨y, hy, _⟩
    · exact h.1
    · rw [hf] at hy
      simp at hy
  unfold app.getAppAccessTokenWithContext
  rw [hn]
  simp only [Bool.false_eq_true, if_false, hc, if_true]
  revert hf hstate
  generalize a.GetAppAccessTokenInternalWithContext env unmarshal tSet = g
  rcases g with ⟨eff, a1, ⟨y, _ | e⟩ | v⟩ <;> simp
  intro _ he ha
  subst he ha
  exact ⟨⟨rfl, rfl⟩, rfl⟩

/-- C3 at a concrete run: the transport fails for a custom app with an empty
cache. -/
theorem getAppAccessToken_refresh_failure_witness :
    (exampleApp.getAppAccessTokenWithContext
        (exampleEnv exampleMarshal (.error (.errorString "dial tcp: i/o timeout")))
        (exampleUnmarshal (exampleTokenResponse "t-1" 7200)) 5 6).out
      = (exampleApp, .returned ("", some (_fmtErrNoReqID "访问凭证"
          "获取 app_access_token（企业自建应用）" (.errorString "dial tcp: i/o timeout")))) ∧
    (exampleApp.getAppAccessTokenWithContext
        (exampleEnv exampleMarshal (.error (.errorString "dial tcp: i/o timeout")))
        (exampleUnmarshal (exampleTokenResponse "t-1" 7200)) 5 6).out.1.appAccess
      = exampleApp.appAccess :=
  getAppAccessToken_refresh_failure
    (exampleEnv exampleMarshal (.error (.errorString "dial tcp: i/o timeout")))
    (exampleUnmarshal (exampleTokenResponse "t-1" 7200)) 5 6 exampleApp
    AppAccessTokenInternal.zero
    (_fmtErrNoReqID "访问凭证" "获取 app_access_token（企业自建应用）"
      (.errorString "dial tcp: i/o timeout"))
    (by decide) (by decide) (by rfl)

/-- C2 at a concrete run: a custom app with an empty cache runs the refresh. -/
theorem getAppAccessToken_refresh_iff_stale_witness :
    exampleApp.isCustomApp = true ∧
    (exampleApp.getAppAccessTokenWithContext (exampleEnv exampleMarshal (exampleReply "ok"))
        (exampleUnmarshal (exampleTokenResponse "t-1" 7200)) 5 6).effects
      = (exampleApp.GetAppAccessTokenInternalWithContext
          (exampleEnv exampleMarshal (exampleReply "ok"))
          (exampleUnmarshal (exampleTokenResponse "t-1" 7200)) 6).effects :=
  ⟨by decide,
   ((getAppAccessToken_refresh_iff_stale (exampleEnv exampleMarshal (exampleReply "ok"))
      (exampleUnmarshal (exampleTokenResponse "t-1" 7200)) 5 6 exampleApp (by decide)).1
      (by decide)).1⟩

/-- The three causes of a failed refresh: for a custom app, an error of the
request pipeline, a body that does not decode, and a response with a nonzero
code each make `GetAppAccessTokenInternalWithContext` return an error. -/
theorem GetAppAccessTokenInternal_failure_causes (env : Env appAccessTokenInternalRequest)
    (unmarshal : String → Except GoError appAccessTokenInternalResponse) (now : Int) (a : app)
    (hc : a.isCustomApp = true) (res : DoResult)
    (hp : (a._postWithContext env "/open-apis/auth/v3/app_access_token/internal"
            (some { AppID := a.id, AppSecret := a.secret })
            (a.buildOpts "访问凭证" "获取 app_access_token（企业自建应用）"
              (GoMap.single "Content-Type" "application/json; charset=utf-8") [])).out
          = .returned res) :
    (∀ e, res.err = some e →
      (a.GetAppAccessTokenInternalWithContext env unmarshal now).out.2
        = .returned (AppAccessTokenInternal.zero, some e)) ∧
    (∀ bytes e, res.err = none → res.resp = some bytes → unmarshal bytes = .error e →
      (a.GetAppAccessTokenInternalWithContext env unmarshal now).out.2
        = .returned (AppAccessTokenInternal.zero,
            some (_fmtErrNoReqID "访问凭证" "获取 app_access_token（企业自建应用）" e))) ∧
    (∀ bytes resp, res.err = none → res.resp = some bytes → unmarshal bytes = .ok resp →
      resp.fsResponse.Code ≠ 0 →
      ∃ err, resp.fsResponse.check res.reqID "访问凭证" "获取 app_access_token（企业自建应用）"
          = some err ∧
        (a.GetAppAccessTokenInternalWithContext env unmarshal now).out.2
          = .returned (AppAccessTokenInternal.zero, some err)) := by
  have hsup : a.isSupported true false = true := by simp [app.isSupported, hc]
  refine ⟨?_, ?_, ?_⟩
  · intro e he
    unfold app.GetAppAccessTokenInternalWithContext
    simp only [hsup, hp, he]
    simp
  · intro bytes e he hb hu
    unfold app.GetAppAccessTokenInternalWithContext
    simp only [hsup, hp, he, hb, app._decodeResp, hu]
    simp
  · intro bytes resp he hb hu hcode
    cases hchk : resp.fsResponse.check res.reqID "访问凭证" "获取 app_access_token（企业自建应用）" with
    | none =>
      exfalso
      unfold fsResponse.check at hchk
      split at hchk
      · rename_i h0
        exact hcode (by simpa using h0)
      · split at hchk <;> simp at hchk
    | some err =>
      refine ⟨err, rfl, ?_⟩
      unfold app.GetAppAccessTokenInternalWithContext
      simp only [hsup, hp, he, hb, app._decodeResp, hu, hchk]
      simp

/-- C4, as amended: for a custom app, a token returned with a nil error is
either the cached token, which was non-empty and valid on entry (and the app
is unchanged), or the token that a successful refresh run during the call
stored in the app slot, which is the token the response carried. -/
theorem getAppAccessToken_success_custom (env : Env appAccessTokenInternalRequest)
    (unmarshal : String → Except GoError appAccessTokenInternalResponse) (tCheck tSet : Int)
    (a : app) (tok : String) (hc : a.isCustomApp = true)
    (hok : (a.getAppAccessTokenWithContext env unmarshal tCheck tSet).out.2
            = .returned (tok, none)) :
    (a.appAccess.isEmpty = false ∧ a.appAccess.notExpired tCheck = true ∧
      tok = a.appAccess.val ∧
      (a.getAppAccessTokenWithContext env unmarshal tCheck tSet).out.1 = a) ∨
    ((a.appAccess.isEmpty || !a.appAccess.notExpired tCheck) = true ∧
      ∃ x, (a.GetAppAccessTokenInternalWithContext env unmarshal tSet).out.2
            = .returned (x, none) ∧
        tok = x.AppAccessToken ∧
        (a.getAppAccessTokenWithContext env unmarshal tCheck tSet).out.1.appAccess
          = a.appAccess.set tSet x.AppAccessToken (expireDuration x.Expire) (30 * Minute)) := by
  cases hs : (a.appAccess.isEmpty || !a.appAccess.notExpired tCheck) with
  | false =>
    left
    obtain ⟨_, ho⟩ := getAppAccessToken_valid env unmarshal tCheck tSet a hs
    rw [ho] at hok
    simp only [Ret.returned.injEq, Prod.mk.injEq, and_true] at hok
    obtain ⟨he, hv⟩ := (stale_eq_false _ _).1 hs
    refine ⟨he, hv, hok.symm, ?_⟩
    rw [ho]
  | true =>
    right
    refine ⟨rfl, ?_⟩
    obtain ⟨_, h1, h3⟩ := getAppAccessToken_stale env unmarshal tCheck tSet a hc hs
    rw [h3] at hok
    rcases GetAppAccessTokenInternal_out env unmarshal tSet a with ⟨_, hne⟩ | ⟨x, hx, hst⟩
    · exfalso
      revert hok hne
      generalize (a.GetAppAccessTokenInternalWithContext env unmarshal tSet).out = g
      rcases g with ⟨a1, ⟨y, _ | e⟩ | v⟩ <;> simp
    · refine ⟨x, hx, ?_, ?_⟩
      · rw [hx] at hok
        simp only [Ret.returned.injEq, Prod.mk.injEq, and_true] at hok
        rw [← hok, hst]
        rfl
      · rw [h1, hst]

/-- C4, as amended, at a concrete run: a custom app with an empty cache whose
refresh succeeds. -/
theorem getAppAccessToken_success_custom_witness :
    (exampleApp.appAccess.isEmpty = false ∧ exampleApp.appAccess.notExpired 5 = true ∧
      "t-1" = exampleApp.appAccess.val ∧
      (exampleApp.getAppAccessTokenWithContext (exampleEnv exampleMarshal (exampleReply "ok"))
        (exampleUnmarshal (exampleTokenResponse "t-1" 7200)) 5 6).out.1 = exampleApp) ∨
    ((exampleApp.appAccess.isEmpty || !exampleApp.appAccess.notExpired 5) = true ∧
      ∃ x, (exampleApp.GetAppAccessTokenInternalWithContext
              (exampleEnv exampleMarshal (exampleReply "ok"))
              (exampleUnmarshal (exampleTokenResponse "t-1" 7200)) 6).out.2
            = .returned (x, none) ∧
        "t-1" = x.AppAccessToken ∧
        (exampleApp.getAppAccessTokenWithContext (exampleEnv exampleMarshal (exampleReply "ok"))
          (exampleUnmarshal (exampleTokenResponse "t-1" 7200)) 5 6).out.1.appAccess
          = exampleApp.appAccess.set 6 x.AppAccessToken (expireDuration x.Expire) (30 * Minute)) :=
  getAppAccessToken_success_custom (exampleEnv exampleMarshal (exampleReply "ok"))
    (exampleUnmarshal (exampleTokenResponse "t-1" 7200)) 5 6 exampleApp "t-1" (by decide) (by rfl)

/-- The token a successful refresh stores is the one the response carries,
whatever it is: a response with code 0 and an empty token makes a custom app
return the empty token with a nil error. -/
theorem getAppAccessToken_empty_refresh_example :
    (exampleApp.getAppAccessTokenWithContext (exampleEnv exampleMarshal (exampleReply "ok"))
        (exampleUnmarshal (exampleTokenResponse "" 7200)) 5 6).out.2
      = .returned ("", none) := by
  rfl

/-- C4 as stated fails for an app that is not a custom app: with an empty
cache, `getAppAccessTokenWithContext` returns the empty token with a nil
error, although the cached token was empty on entry and no refresh succeeds
(none is run: there is no effect and the app is unchanged). -/
theorem getAppAccessToken_success_counterexample :
    ((newApp "cli_a1" "s3cret" []).getAppAccessTokenWithContext
        (exampleEnv exampleMarshal (exampleReply "ok"))
        (exampleUnmarshal (exampleTokenResponse "t-1" 7200)) 5 6).out
      = (newApp "cli_a1" "s3cret" [], .returned ("", none)) ∧
    ((newApp "cli_a1" "s3cret" []).getAppAccessTokenWithContext
        (exampleEnv exampleMarshal (exampleReply "ok"))
        (exampleUnmarshal (exampleTokenResponse "t-1" 7200)) 5 6).effects = [] ∧
    ¬ (((newApp "cli_a1" "s3cret" []).appAccess.isEmpty = false ∧
        (newApp "cli_a1" "s3cret" []).appAccess.notExpired 5 = true) ∨
       (∃ x, ((newApp "cli_a1" "s3cret" []).GetAppAccessTokenInternalWithContext
                (exampleEnv exampleMarshal (exampleReply "ok"))
                (exampleUnmarshal (exampleTokenResponse "t-1" 7200)) 6).out.2
              = .returned (x, none))) := by
  refine ⟨rfl, rfl, ?_⟩
  rintro (⟨h, _⟩ | ⟨x, hx⟩)
  · exact absurd h (by decide)
  · have hg : ((newApp "cli_a1" "s3cret" []).GetAppAccessTokenInternalWithContext
        (exampleEnv exampleMarshal (exampleReply "ok"))
        (exampleUnmarshal (exampleTokenResponse "t-1" 7200)) 6).out.2
        = .returned (AppAccessTokenInternal.zero, some (_fmtErrNotSupported "访问凭证"
            "获取 app_access_token（企业自建应用）")) := rfl
    rw [hg] at hx
    simp at hx

/-! ### The lifetime stored by a refresh -/

/-- For an expire value whose number of nanoseconds fits an `int64`, the
product `time.Duration(expire) * time.Second` is exact. -/
theorem expireDuration_eq (E : Int) (h1 : -9223372036 ≤ E) (h2 : E ≤ 9223372036) :
    expireDuration E = E * Second := by
  unfold expireDuration wrapInt64 Second
  omega

/-- A token set at `now` with lifetime `E` seconds and a margin of thirty
minutes is valid at `now` iff `E > 1800`, for `E` in the exact range. -/
theorem notExpired_set_expire (tok : fsToken) (v : String) (E now : Int)
    (h1 : -9223372036 ≤ E) (h2 : E ≤ 9223372036) :
    (tok.set now v (expireDuration E) (30 * Minute)).notExpired now = true ↔ E > 1800 := by
  rw [expireDuration_eq E h1 h2]
  have hL : E * Second ≤ maxDuration := by
    unfold Second maxDuration
    omega
  have hm : minDuration ≤ 30 * Minute := by decide
  rw [fsToken.notExpired_set tok v (E * Second) (30 * Minute) now now hL hm le_rfl]
  unfold Minute Second
  omega

/-- C5, as amended: after a successful refresh of the app token (of the tenant
token) whose response carries token `T` and `expire = E` with
`-9223372036 ≤ E ≤ 9223372036`, the app slot (the tenant slot) holds value
`T`, expiration `now + E` seconds and margin thirty minutes, it is valid at
`now` iff `E > 1800`, and the other slot is unchanged. -/
theorem token_refresh_stores_with_margin
    (envA : Env appAccessTokenInternalRequest)
    (unmA : String → Except GoError appAccessTokenInternalResponse)
    (envT : Env tenantAccessTokenInternalRequest)
    (unmT : String → Except GoError tenantAccessTokenInternalResponse)
    (now : Int) (a : app) :
    (∀ x, (a.GetAppAccessTokenInternalWithContext envA unmA now).out.2 = .returned (x, none) →
      -9223372036 ≤ x.Expire → x.Expire ≤ 9223372036 →
      (a.GetAppAccessTokenInternalWithContext envA unmA now).out.1.appAccess
        = { val := x.AppAccessToken, expiration := now + x.Expire * Second, min := 30 * Minute } ∧
      ((a.GetAppAccessTokenInternalWithContext envA unmA now).out.1.appAccess.notExpired now = true
        ↔ x.Expire > 1800) ∧
      (a.GetAppAccessTokenInternalWithContext envA unmA now).out.1.tenantAccess = a.tenantAccess) ∧
    (∀ y, (a.GetTenantAccessTokenInternalWithContext envT unmT now).out.2 = .returned (y, none) →
      -9223372036 ≤ y.Expire → y.Expire ≤ 9223372036 →
      (a.GetTenantAccessTokenInternalWithContext envT unmT now).out.1.tenantAccess
        = { val := y.TenantAccessToken, expiration := now + y.Expire * Second, min := 30 * Minute } ∧
      ((a.GetTenantAccessTokenInternalWithContext envT unmT now).out.1.tenantAccess.notExpired now
        = true ↔ y.Expire > 1800) ∧
      (a.GetTenantAccessTokenInternalWithContext envT unmT now).out.1.appAccess = a.appAccess) := by
  constructor
  · intro x hx h1 h2
    rcases GetAppAccessTokenInternal_out envA unmA now a with ⟨_, hne⟩ | ⟨x1, hx1, hst⟩
    · exact absurd hx (hne x)
    · rw [hx] at hx1
      simp only [Ret.returned.injEq, Prod.mk.injEq, and_true] at hx1
      subst hx1
      rw [hst]
      refine ⟨?_, ?_, rfl⟩
      · simp only [fsToken.set, timeAdd, expireDuration_eq x.Expire h1 h2]
      · exact notExpired_set_expire a.appAccess x.AppAccessToken x.Expire now h1 h2
  · intro y hy h1 h2
    rcases GetTenantAccessTokenInternal_out envT unmT now a with ⟨_, hne⟩ | ⟨y1, hy1, hst⟩
    · exact absurd hy (hne y)
    · rw [hy] at hy1
      simp only [Ret.returned.injEq, Prod.mk.injEq, and_true] at hy1
      subst hy1
      rw [hst]
      refine ⟨?_, ?_, rfl⟩
      · simp only [fsToken.set, timeAdd, expireDuration_eq y.Expire h1 h2]
      · exact notExpired_set_expire a.tenantAccess y.TenantAccessToken y.Expire now h1 h2

/-- C5, as amended, at a concrete run: the response carries `t-1` with an
expire of 7200 seconds. -/
theorem token_refresh_stores_with_margin_witness :
    (exampleApp.GetAppAccessTokenInternalWithContext
        (exampleEnv exampleMarshal (exampleReply "ok"))
        (exampleUnmarshal (exampleTokenResponse "t-1" 7200)) 6).out.1.appAccess
      = { val := "t-1", expiration := 6 + 7200 * Second, min := 30 * Minute } ∧
    ((exampleApp.GetAppAccessTokenInternalWithContext
        (exampleEnv exampleMarshal (exampleReply "ok"))
        (exampleUnmarshal (exampleTokenResponse "t-1" 7200)) 6).out.1.appAccess.notExpired 6 = true
      ↔ (7200 : Int) > 1800) ∧
    (exampleApp.GetAppAccessTokenInternalWithContext
        (exampleEnv exampleMarshal (exampleReply "ok"))
        (exampleUnmarshal (exampleTokenResponse "t-1" 7200)) 6).out.1.tenantAccess
      = exampleApp.tenantAccess :=
  (token_refresh_stores_with_margin (exampleEnv exampleMarshal (exampleReply "ok"))
    (exampleUnmarshal (exampleTokenResponse "t-1" 7200))
    (exampleEnv (fun _ => .ok "[]") (exampleReply "ok"))
    (exampleUnmarshal
      { fsResponse := { Code := 0, Msg := "ok" },
        TenantAccessTokenInternal := { TenantAccessToken := "t-2", Expire := 7200 } })
    6 exampleApp).1
    { AppAccessToken := "t-1", Expire := 7200 } (by rfl) (by decide) (by decide)

/-- C5 as stated fails when the number of nanoseconds overflows: a successful
response with `expire = 9223372037` stores an expiration that is not
`now + expire` seconds, and the token is not valid at `now` although
`expire > 1800`. -/
theorem token_refresh_overflow_counterexample :
    (exampleApp.GetAppAccessTokenInternalWithContext
        (exampleEnv exampleMarshal (exampleReply "ok"))
        (exampleUnmarshal (exampleTokenResponse "t-1" 9223372037)) 6).out.2
      = .returned ({ AppAccessToken := "t-1", Expire := 9223372037 }, none) ∧
    (exampleApp.GetAppAccessTokenInternalWithContext
        (exampleEnv exampleMarshal (exampleReply "ok"))
        (exampleUnmarshal (exampleTokenResponse "t-1" 9223372037)) 6).out.1.appAccess.expiration
      ≠ 6 + 9223372037 * Second ∧
    (exampleApp.GetAppAccessTokenInternalWithContext
        (exampleEnv exampleMarshal (exampleReply "ok"))
        (exampleUnmarshal (exampleTokenResponse "t-1" 9223372037)) 6).out.1.appAccess.notExpired 6
      = false ∧
    (9223372037 : Int) > 1800 :=
  ⟨by rfl, by decide, by decide, by decide⟩

/-! ### Errors of the response decoder and of the pipeline -/

/-- C6: `fsResponse.check` returns nil iff `Code == 0`; when `Code != 0` the
text of the error is `[domain] operation`, then ` (X-Request-ID: id)` exactly
when the correlation id is non-empty, then `: code: message`. -/
theorem fsResponse_check_spec (resp : fsResponse) (reqID domain apiName : String) :
    (resp.check reqID domain apiName = none ↔ resp.Code = 0) ∧
    (resp.Code ≠ 0 → reqID ≠ "" →
      ∃ err, resp.check reqID domain apiName = some err ∧
        err.Error = "[" ++ domain ++ "] " ++ apiName ++ " (X-Request-ID: " ++ reqID ++ "): "
          ++ fmtInt resp.Code ++ ": " ++ resp.Msg) ∧
    (resp.Code ≠ 0 → reqID = "" →
      ∃ err, resp.check reqID domain apiName = some err ∧
        err.Error = "[" ++ domain ++ "] " ++ apiName ++ ": "
          ++ fmtInt resp.Code ++ ": " ++ resp.Msg) := by
  refine ⟨?_, ?_, ?_⟩
  · unfold fsResponse.check
    by_cases h : resp.Code = 0
    · simp [h]
    · by_cases h2 : reqID = "" <;> simp [h, h2]
  · intro h h2
    refine ⟨_fmtErrResp domain apiName reqID resp.Code resp.Msg, ?_, rfl⟩
    simp [fsResponse.check, h, h2]
  · intro h h2
    refine ⟨_fmtErrRespNoID domain apiName resp.Code resp.Msg, ?_, rfl⟩
    simp [fsResponse.check, h, h2]

/-- C6 at a concrete response: code 99991663 with a correlation id. -/
theorem fsResponse_check_spec_witness :
    ∃ err, ({ Code := 99991663, Msg := "token invalid" } : fsResponse).check "req-1" "访问凭证" "op"
        = some err ∧
      err.Error = "[" ++ "访问凭证" ++ "] " ++ "op" ++ " (X-Request-ID: " ++ "req-1" ++ "): "
        ++ fmtInt 99991663 ++ ": " ++ "token invalid" :=
  (fsResponse_check_spec { Code := 99991663, Msg := "token invalid" } "req-1" "访问凭证" "op").2.1
    (by decide) (by decide)

/-- C7: `app._do` has the effects of `_doWithContext`; when that succeeds its
results are returned unchanged; when it fails with error `e` the correlation
id and the reader are returned as obtained, and the error wraps `e` with the
text `[domain] operation`, then ` (X-Request-ID: id)` exactly when the
correlation id is non-empty, then `: ` and the text of `e`; a panic goes
through. -/
theorem app_do_spec {Data : Type} (env : Env Data) (a : app) (method rawURL : String)
    (data : Option Data) (opts : List doOption) :
    (a._do env method rawURL data opts).effects
      = (_doWithContext env method rawURL data opts).effects ∧
    (∀ res, (_doWithContext env method rawURL data opts).out = .returned res → res.err = none →
      (a._do env method rawURL data opts).out = .returned res) ∧
    (∀ res e, (_doWithContext env method rawURL data opts).out = .returned res →
      res.err = some e →
      ∃ err, (a._do env method rawURL data opts).out
          = .returned { reqID := res.reqID, resp := res.resp, err := some err } ∧
        err.Unwrap = some e ∧
        err.Error = "[" ++ (_newDoOpt opts).apiDomain ++ "] " ++ (_newDoOpt opts).apiName
          ++ (if res.reqID = "" then "" else " (X-Request-ID: " ++ res.reqID ++ ")")
          ++ ": " ++ e.Error) ∧
    (∀ v, (_doWithContext env method rawURL data opts).out = .panicked v →
      (a._do env method rawURL data opts).out = .panicked v) := by
  have hlit : ∀ t : String, ")" ++ (": " ++ t) = "): " ++ t := by
    intro t
    rw [← String.append_assoc]
    rfl
  unfold app._do
  generalize _doWithContext env method rawURL data opts = w
  rcases w with ⟨eff, ⟨reqID, resp, _ | e⟩ | v⟩
  · refine ⟨rfl, ?_, ?_, ?_⟩
    · intro res h _
      cases h
      rfl
    · intro res e h he
      cases h
      simp at he
    · intro v h
      cases h
  · refine ⟨?_, ?_, ?_, ?_⟩
    · dsimp only
      split <;> rfl
    · intro res h he
      cases h
      simp at he
    · intro res e1 h he
      cases h
      simp only [Option.some.injEq] at he
      subst he
      by_cases hid : reqID = ""
      · subst hid
        refine ⟨_fmtErrNoReqID (_newDoOpt opts).apiDomain (_newDoOpt opts).apiName e, ?_, rfl, ?_⟩
        · simp
        · simp [_fmtErrNoReqID, GoError.Error]
      · refine ⟨_fmtErrReq (_newDoOpt opts).apiDomain (_newDoOpt opts).apiName reqID e, ?_, rfl, ?_⟩
        · simp [hid]
        · simp only [_fmtErrReq, GoError.Error, hid, if_false, String.append_assoc, hlit]
    · intro v h
      cases h
  · refine ⟨rfl, ?_, ?_, ?_⟩
    · intro res h
      cases h
    · intro res e h
      cases h
    · intro v1 h
      cases h
      rfl

/-- C7 at a concrete run: the body of the reply cannot be read to its end,
after the correlation id `req-1` was obtained. -/
theorem app_do_spec_witness :
    ∃ err, (exampleApp._do (exampleEnv exampleMarshal exampleBrokenReply)
        "POST" "https://open.feishu.cn/x" (some { AppID := "i", AppSecret := "s" })
        [withDoAPIDomain "dom", withDoAPIName "op"]).out
        = .returned { reqID := "req-1", resp := none, err := some err } ∧
      err.Unwrap = some (.errorString "unexpected EOF") ∧
      err.Error = "[" ++ (_newDoOpt [withDoAPIDomain "dom", withDoAPIName "op"]).apiDomain ++ "] "
        ++ (_newDoOpt [withDoAPIDomain "dom", withDoAPIName "op"]).apiName
        ++ (if "req-1" = "" then "" else " (X-Request-ID: " ++ "req-1" ++ ")")
        ++ ": " ++ (GoError.errorString "unexpected EOF").Error :=
  (app_do_spec (exampleEnv exampleMarshal exampleBrokenReply)
    exampleApp "POST" "https://open.feishu.cn/x" (some { AppID := "i", AppSecret := "s" })
    [withDoAPIDomain "dom", withDoAPIName "op"]).2.2.1
    { reqID := "req-1", resp := none, err := some (.errorString "unexpected EOF") }
    (.errorString "unexpected EOF") (by rfl) (by rfl)

/-! ### The body of a request -/

/-- A request built by `newUploadReq` carries the parts written by its loop,
in a multipart body. -/
theorem newUploadReq_ok {Data : Type} (env : Env Data) (opt : _doOpt) (method rawURL : String)
    (req : Request) (h : (opt.newUploadReq env method rawURL).out = .ok req) :
    ∃ parts name, (uploadLoop env opt method rawURL opt.uploadFormData "").out = .ok (parts, name) ∧
      req.body = .multipart env.boundary parts ∧ req.method = method ∧ req.url = rawURL := by
  unfold _doOpt.newUploadReq at h
  dsimp only at h
  split at h
  · cases h
  · cases h
  · rename_i parts name hl
    split at h
    · cases h
    · simp only [Outcome.ok.injEq] at h
      subst h
      exact ⟨parts, name, hl, rfl, rfl, rfl⟩

/-- The loop over the headers leaves the body, the method and the URL. -/
theorem setHeaders_body {Data : Type} (env : Env Data) (header : GoMap) (req : Request) :
    (setHeaders env header req).body = req.body ∧ (setHeaders env header req).method = req.method ∧
    (setHeaders env header req).url = req.url :=
  ⟨rfl, rfl, rfl⟩

/-- C8: a request built by `NewRequest` has a multipart body iff the options
hold at least one multipart part; otherwise its body is the JSON encoding of
`data`: for `data` that is not nil the bytes `json.Marshal` gives for it,
followed by the newline of the encoder, and for nil `data` the text `null`
followed by that newline, never an empty body; and without parts the request
is built for every method whenever the URL is accepted and `data` is nil or
can be encoded. -/
theorem NewRequest_body_spec {Data : Type} (env : Env Data) (opt : _doOpt)
    (method rawURL : String) (data : Option Data) :
    (∀ req, (opt.NewRequest env method rawURL data).out = .ok req →
      ((∃ b parts, req.body = .multipart b parts) ↔ opt.uploadFormData ≠ []) ∧
      (opt.uploadFormData = [] → ∀ d, data = some d →
        ∃ bytes, env.marshal d = .ok bytes ∧ req.body = .buffer (bytes ++ "\n")) ∧
      (opt.uploadFormData = [] → data = none → req.body = .buffer "null\n")) ∧
    (∀ u, (if opt.query.len != 0 then env.addQuery rawURL opt.query else .ok rawURL) = .ok u →
      env.newRequestErr method u = none → opt.uploadFormData = [] → data = none →
      ∃ req, (opt.NewRequest env method rawURL data).out = .ok req ∧ req.method = method ∧
        req.url = u ∧ req.body = .buffer "null\n") ∧
    (∀ u d bytes,
      (if opt.query.len != 0 then env.addQuery rawURL opt.query else .ok rawURL) = .ok u →
      env.newRequestErr method u = none → opt.uploadFormData = [] → data = some d →
      env.marshal d = .ok bytes →
      ∃ req, (opt.NewRequest env method rawURL data).out = .ok req ∧ req.method = method ∧
        req.url = u ∧ req.body = .buffer (bytes ++ "\n")) := by
  refine ⟨?_, ?_, ?_⟩
  · intro req h
    unfold _doOpt.NewRequest at h
    split at h
    · cases h
    · rename_i u hu
      cases hparts : opt.uploadFormData with
      | nil =>
        simp only [hparts, List.length_nil, beq_self_eq_true, if_true] at h
        cases data with
        | none =>
          simp only [encodeJSON] at h
          cases hreq : env.newRequestErr method u with
          | some e =>
            simp only [hreq] at h
            cases h
          | none =>
            simp only [hreq, Outcome.ok.injEq] at h
            subst h
            refine ⟨?_, ?_, ?_⟩
            · simp [setHeaders]
            · intro _ d hd
              cases hd
            · intro _ _
              rfl
        | some d =>
          cases hm : env.marshal d with
          | error e =>
            simp only [encodeJSON, hm] at h
            cases h
          | ok bytes =>
            simp only [encodeJSON, hm] at h
            cases hreq : env.newRequestErr method u with
            | some e =>
              simp only [hreq] at h
              cases h
            | none =>
              simp only [hreq, Outcome.ok.injEq] at h
              subst h
              refine ⟨?_, ?_, ?_⟩
              · simp [setHeaders]
              · intro _ d1 hd
                cases hd
                exact ⟨bytes, hm, rfl⟩
              · intro _ hd
                cases hd
      | cons fd rest =>
        simp only [hparts, List.length_cons, Nat.add_one_ne_zero, beq_iff_eq, if_false] at h
        cases hup : (opt.newUploadReq env method u).out with
        | error e =>
          simp only [hup] at h
          cases h
        | panic v =>
          simp only [hup] at h
          cases h
        | ok req1 =>
          obtain ⟨parts, name, _, hb, _, _⟩ := newUploadReq_ok env opt method u req1 hup
          simp only [hup, Outcome.ok.injEq] at h
          subst h
          refine ⟨?_, ?_, ?_⟩
          · simp [setHeaders, hb]
          · intro hc
            cases hc
          · intro hc
            cases hc
  · intro u hu hreq hparts hd
    subst hd
    unfold _doOpt.NewRequest
    simp only [hu, hparts, List.length_nil, beq_self_eq_true, if_true, encodeJSON, hreq]
    exact ⟨_, rfl, rfl, rfl, rfl⟩
  · intro u d bytes hu hreq hparts hd hm
    subst hd
    unfold _doOpt.NewRequest
    simp only [hu, hparts, List.length_nil, beq_self_eq_true, if_true, encodeJSON, hm, hreq]
    exact ⟨_, rfl, rfl, rfl, rfl⟩

/-- C8 at two concrete requests without parts: a GET without data, whose body
is `null` and a newline, and a POST with the credentials of an app as data,
whose body is the JSON text of the struct and a newline. -/
theorem NewRequest_body_spec_witness :
    (∃ req, ((_newDoOpt [withDoAPIDomain "dom", withDoAPIName "op"]).NewRequest
          (exampleEnv exampleMarshal (exampleReply "ok")) "GET" "https://open.feishu.cn/x" none).out
        = .ok req ∧ req.method = "GET" ∧ req.url = "https://open.feishu.cn/x" ∧
      req.body = .buffer "null\n") ∧
    (∃ req, ((_newDoOpt [withDoAPIDomain "dom", withDoAPIName "op"]).NewRequest
          (exampleEnv exampleMarshalObject (exampleReply "ok")) "POST"
          "https://open.feishu.cn/x" (some { AppID := "cli_a1", AppSecret := "s3cret" })).out
        = .ok req ∧ req.method = "POST" ∧ req.url = "https://open.feishu.cn/x" ∧
      req.body = .buffer "\x7b\"app_id\":\"cli_a1\",\"app_secret\":\"s3cret\"\x7d\n") :=
  ⟨(NewRequest_body_spec (exampleEnv exampleMarshal (exampleReply "ok"))
      (_newDoOpt [withDoAPIDomain "dom", withDoAPIName "op"]) "GET" "https://open.feishu.cn/x"
      none).2.1 "https://open.feishu.cn/x" (by rfl) (by rfl) (by rfl) (by rfl),
   (NewRequest_body_spec (exampleEnv exampleMarshalObject (exampleReply "ok"))
      (_newDoOpt [withDoAPIDomain "dom", withDoAPIName "op"]) "POST" "https://open.feishu.cn/x"
      (some { AppID := "cli_a1", AppSecret := "s3cret" })).2.2 "https://open.feishu.cn/x"
      { AppID := "cli_a1", AppSecret := "s3cret" }
      "\x7b\"app_id\":\"cli_a1\",\"app_secret\":\"s3cret\"\x7d" (by rfl) (by rfl) (by rfl)
      (by rfl) (by rfl)⟩

/-! ### Multipart parts -/

/-- The header value of the form part a registration appends is the expected
`Content-Disposition`. -/
theorem PartSpec.option_apply (p : PartSpec) (opt : _doOpt) :
    ∃ f fd, p.option = some f ∧ (f opt).uploadFormData = opt.uploadFormData ++ [fd] ∧
      fd.headerValue = p.disposition := by
  cases p with
  | formData name value => exact ⟨_, _, rfl, rfl, rfl⟩
  | formFile name filename r d => exact ⟨_, _, rfl, rfl, rfl⟩

/-- The parts registered from any starting value: the old ones, then one for
each registration, in order. -/
theorem foldl_parts (P : List PartSpec) (opt : _doOpt) :
    ((P.map PartSpec.option).foldl (fun opt fn => match fn with
      | none => opt
      | some f => f opt) opt).uploadFormData.map (fun fd => fd.headerValue)
    = opt.uploadFormData.map (fun fd => fd.headerValue) ++ P.map PartSpec.disposition := by
  induction P generalizing opt with
  | nil => simp
  | cons p rest ih =>
    obtain ⟨f, fd, hf, hu, hh⟩ := PartSpec.option_apply p opt
    simp only [List.map_cons, List.foldl_cons, hf]
    rw [ih, hu]
    simp [hh]

/-- The parts written by the loop of `newUploadReq` carry the header values of
the form parts, in order. -/
theorem uploadLoop_ok {Data : Type} (env : Env Data) (opt : _doOpt) (method rawURL : String)
    (fds : List _doFormData) (name0 : String) (parts : List MIMEPart) (name : String)
    (h : (uploadLoop env opt method rawURL fds name0).out = .ok (parts, name)) :
    parts.map (fun p => p.contentDisposition) = fds.map (fun fd => fd.headerValue) := by
  induction fds generalizing name0 parts name with
  | nil =>
    simp only [uploadLoop, Outcome.ok.injEq, Prod.mk.injEq] at h
    rw [← h.1]
    rfl
  | cons fd rest ih =>
    unfold uploadLoop at h
    dsimp only at h
    split at h
    · cases h
    · cases h
    · rename_i part hp
      dsimp only at h
      split at h
      · rename_i ps n hr
        simp only [Outcome.ok.injEq, Prod.mk.injEq] at h
        obtain ⟨h1, _⟩ := h
        subst h1
        have hd : part.contentDisposition = fd.headerValue := by
          unfold uploadPart at hp
          split at hp
          · split at hp
            · cases hp
            · split at hp
              · cases hp
              · simp only [Outcome.ok.injEq] at hp
                rw [← hp]
          · split at hp
            · cases hp
            · cases hp
            · simp only [Outcome.ok.injEq] at hp
              rw [← hp]
        simp only [List.map_cons, hd, ih _ _ _ hr]
      · cases h
      · cases h

/-- When every pass of the loop succeeds, the loop succeeds. -/
theorem uploadLoop_succeeds {Data : Type} (env : Env Data) (opt : _doOpt) (method rawURL : String)
    (fds : List _doFormData) (name0 : String)
    (h : ∀ fd ∈ fds, ∃ part, (uploadPart env opt method rawURL fd).out = .ok part) :
    ∃ parts name, (uploadLoop env opt method rawURL fds name0).out = .ok (parts, name) := by
  induction fds generalizing name0 with
  | nil => exact ⟨[], name0, rfl⟩
  | cons fd rest ih =>
    obtain ⟨part, hp⟩ := h fd (List.mem_cons_self _ _)
    obtain ⟨ps, n, hr⟩ := ih (if fd.filename != "" then fd.filename else name0)
      (fun fd1 h1 => h fd1 (List.mem_cons_of_mem _ h1))
    refine ⟨part :: ps, n, ?_⟩
    unfold uploadLoop
    simp only [hp, hr]

/-- C9: for upload options applied in order `P1..PN`, `_newDoOpt` yields
exactly `N` form parts whose header values are the expected
`Content-Disposition` of `P1..PN` in that order; every request built by
`newUploadReq` from them has a multipart body of exactly `N` parts with these
headers in that order; and the request is built whenever every part can be
read and the URL is accepted. -/
theorem upload_parts_in_order {Data : Type} (env : Env Data) (method rawURL : String)
    (P : List PartSpec) :
    (_newDoOpt (P.map PartSpec.option)).uploadFormData.length = P.length ∧
    (_newDoOpt (P.map PartSpec.option)).uploadFormData.map (fun fd => fd.headerValue)
      = P.map PartSpec.disposition ∧
    (∀ req, ((_newDoOpt (P.map PartSpec.option)).newUploadReq env method rawURL).out = .ok req →
      ∃ parts, req.body = .multipart env.boundary parts ∧ parts.length = P.length ∧
        parts.map (fun p => p.contentDisposition) = P.map PartSpec.disposition) ∧
    ((∀ fd ∈ (_newDoOpt (P.map PartSpec.option)).uploadFormData,
        ∃ part, (uploadPart env (_newDoOpt (P.map PartSpec.option)) method rawURL fd).out
          = .ok part) →
      env.newRequestErr method rawURL = none →
      ∃ req, ((_newDoOpt (P.map PartSpec.option)).newUploadReq env method rawURL).out = .ok req) := by
  have hmap : (_newDoOpt (P.map PartSpec.option)).uploadFormData.map (fun fd => fd.headerValue)
      = P.map PartSpec.disposition := by
    unfold _newDoOpt
    rw [foldl_parts]
    simp [_doOpt.zero]
  have hlen : (_newDoOpt (P.map PartSpec.option)).uploadFormData.length = P.length := by
    have := congrArg List.length hmap
    simpa using this
  refine ⟨hlen, hmap, ?_, ?_⟩
  · intro req h
    obtain ⟨parts, name, hl, hb, _, _⟩ := newUploadReq_ok env _ method rawURL req h
    have hd := uploadLoop_ok env _ method rawURL _ _ parts name hl
    refine ⟨parts, hb, ?_, hd.trans hmap⟩
    have := congrArg List.length hd
    simp only [List.length_map] at this
    rw [this, hlen]
  · intro hall hreq
    obtain ⟨parts, name, hl⟩ := uploadLoop_succeeds env (_newDoOpt (P.map PartSpec.option))
      method rawURL (_newDoOpt (P.map PartSpec.option)).uploadFormData "" hall
    unfold _doOpt.newUploadReq
    simp only [hl, hreq]
    exact ⟨_, rfl⟩

/-- C9 at the two parts of an image upload: the request is built, and the
headers are the expected ones. -/
theorem upload_parts_in_order_witness :
    (exampleParts.map PartSpec.disposition
      = ["form-data; name=\"image_type\"",
         "form-data; name=\"image\"; filename=\"a\\\"b\\\\c.png\""]) ∧
    ∃ req, ((_newDoOpt (exampleParts.map PartSpec.option)).newUploadReq
      (exampleEnv exampleMarshal (exampleReply "ok")) "POST" "https://open.feishu.cn/x").out
        = .ok req :=
  ⟨by decide,
   (upload_parts_in_order (exampleEnv exampleMarshal (exampleReply "ok")) "POST"
      "https://open.feishu.cn/x" exampleParts).2.2.2
      (by
        intro fd hfd
        simp only [exampleParts, List.map_cons, List.map_nil, PartSpec.option, _newDoOpt,
          List.foldl_cons, List.foldl_nil, withDoUploadFormData, withDoUploadFormFile,
          _doOpt.zero, List.nil_append, List.cons_append, List.mem_cons, List.mem_singleton,
          List.not_mem_nil, or_false] at hfd
        rcases hfd with rfl | rfl
        · exact ⟨_, rfl⟩
        · exact ⟨_, rfl⟩)
      (by rfl)⟩

/-- The base name of a path holds no slash, unless it is the root. -/
theorem pathBase_no_slash (path : String) :
    pathBase path = "/" ∨ '/' ∉ (pathBase path).data := by
  unfold pathBase
  split
  · right
    decide
  · dsimp only
    split
    · left
      rfl
    · right
      intro hmem
      simp only [List.mem_reverse] at hmem
      have := List.mem_takeWhile_imp hmem
      simp at this

/-- Escaping works character by character, in order. -/
theorem escapeQuotes_append (s t : String) :
    escapeQuotes (s ++ t) = escapeQuotes s ++ escapeQuotes t := by
  simp [escapeQuotes, String.ext_iff]

/-- Escaping puts a backslash before a backslash and before a double quote,
and leaves every other character. -/
theorem escapeQuotes_singleton (c : Char) :
    escapeQuotes (String.singleton c)
      = if c = '\\' ∨ c = '"' then "\\" ++ String.singleton c else String.singleton c := by
  by_cases h1 : c = '\\'
  · subst h1
    decide
  · by_cases h2 : c = '"'
    · subst h2
      decide
    · simp [escapeQuotes, quoteEscaper, h1, h2, String.singleton, String.ext_iff]

/-! ### Query mutators -/

/-- A map of length zero has no entry. -/
theorem GoMap.lookup_of_len_zero (m : GoMap) (h : m.len = 0) (key : String) :
    m.lookup key = none := by
  have he : m.entries = [] := List.length_eq_zero.mp h
  simp [AList.lookup, he]

/-- Storing the entries of a list with distinct keys: a key of the list gets
the value of the list, every other key keeps its value. -/
theorem foldl_store_lookup (l : List (Sigma fun _ : String => String)) (hl : l.NodupKeys)
    (dst : GoMap) (key : String) :
    (l.foldl (fun m e => GoMap.store m e.1 e.2) dst).lookup key
      = (l.dlookup key).or (dst.lookup key) := by
  induction l generalizing dst with
  | nil => simp
  | cons e t ih =>
    obtain ⟨k, v⟩ := e
    rw [List.nodupKeys_cons] at hl
    simp only [List.foldl_cons]
    rw [ih hl.2]
    by_cases hk : key = k
    · subst hk
      have hnone : List.dlookup key t = none := List.dlookup_eq_none.mpr hl.1
      simp [hnone, GoMap.store]
    · have hk2 : k ≠ key := fun h => hk h.symm
      simp [GoMap.store, List.dlookup_cons_ne t (⟨k, v⟩ : Sigma fun _ : String => String) hk, AList.lookup_insert_ne hk]

/-- A map literal with one entry, read at a key. -/
theorem GoMap.single_lookup (k v key : String) :
    (GoMap.single k v).lookup key = if key = k then some v else none := by
  by_cases h : key = k
  · subst h
    simp [GoMap.single, AList.singleton, AList.lookup]
  · simp [GoMap.single, AList.singleton, AList.lookup, h, List.dlookup_cons_ne [] (⟨k, v⟩ : Sigma fun _ : String => String) h]

/-- The loop of `withDoQuery` is a right-biased union. -/
theorem GoMap.storeAll_lookup (dst src : GoMap) (key : String) :
    (dst.storeAll src).lookup key = (src.lookup key).or (dst.lookup key) :=
  foldl_store_lookup src.entries src.nodupKeys dst key

/-- The union of two maps, the left one winning, read at a key. -/
theorem GoMap.union_lookup (m1 m2 : GoMap) (key : String) :
    (m1 ∪ m2).lookup key = (m1.lookup key).or (m2.lookup key) := by
  by_cases h : key ∈ m1
  · rw [AList.lookup_union_left h]
    obtain ⟨v, hv⟩ := Option.isSome_iff_exists.mp (AList.lookup_isSome.mpr h)
    simp [hv]
  · rw [AList.lookup_union_right h]
    have : m1.lookup key = none := AList.lookup_eq_none.mpr h
    simp [this]

/-- Storing the entries of a map into the map itself changes no entry. -/
theorem GoMap.storeAll_self_lookup (m : GoMap) (key : String) :
    (m.storeAll m).lookup key = m.lookup key := by
  rw [GoMap.storeAll_lookup]
  cases m.lookup key <;> rfl

/-- One option applied: the query afterwards is what the option gives at that
moment, over what was there before. -/
theorem OptionSpec.apply_query (s : OptionSpec) (opt : _doOpt) (key : String) :
    (match s.option with
      | none => opt
      | some f => f opt).query.lookup key
    = ((s.givenNow opt).lookup key).or (opt.query.lookup key) := by
  cases s with
  | query q =>
    simp only [OptionSpec.option, withDoQuery, OptionSpec.givenNow]
    split
    · rename_i h
      have h0 : opt.query.len = 0 := by simpa using h
      simp [GoMap.lookup_of_len_zero _ h0]
    · exact GoMap.storeAll_lookup _ _ _
  | queryKV k v =>
    simp only [OptionSpec.option, withDoQueryKV, OptionSpec.givenNow, OptionSpec.queryGiven]
    split
    · rename_i h
      have h0 : opt.query.len = 0 := by simpa using h
      simp [GoMap.lookup_of_len_zero _ h0]
    · by_cases hk : key = k
      · subst hk
        simp [GoMap.store, GoMap.single_lookup]
      · simp [GoMap.store, GoMap.single_lookup, AList.lookup_insert_ne hk, hk]
  | part p =>
    cases p <;> simp [OptionSpec.option, PartSpec.option, withDoUploadFormData,
      withDoUploadFormFile, OptionSpec.givenNow, OptionSpec.queryGiven]
  | nil => simp [OptionSpec.option, OptionSpec.givenNow, OptionSpec.queryGiven]
  | apiDomain d =>
    simp [OptionSpec.option, withDoAPIDomain, OptionSpec.givenNow, OptionSpec.queryGiven]
  | apiName n =>
    simp [OptionSpec.option, withDoAPIName, OptionSpec.givenNow, OptionSpec.queryGiven]
  | header h =>
    simp [OptionSpec.option, withDoHeader, OptionSpec.givenNow, OptionSpec.queryGiven]
  | httpCli c =>
    simp [OptionSpec.option, withDoHTTPCli, OptionSpec.givenNow, OptionSpec.queryGiven]
  | debug b =>
    simp [OptionSpec.option, withDoDebug, OptionSpec.givenNow, OptionSpec.queryGiven]
  | logger l =>
    simp [OptionSpec.option, withDoLogger, OptionSpec.givenNow, OptionSpec.queryGiven]

/-- One option applied: the map of the caller that the query refers to
afterwards is the one it referred to before, or the map handed over by the
option. -/
theorem OptionSpec.apply_queryRef (s : OptionSpec) (opt : _doOpt) (id : Nat)
    (h : (match s.option with
      | none => opt
      | some f => f opt).queryRef = some id) :
    opt.queryRef = some id ∨ s.mapID = some id := by
  cases s with
  | query q =>
    simp only [OptionSpec.option, withDoQuery] at h
    split at h
    · right
      exact h
    · left
      exact h
  | queryKV k v =>
    simp only [OptionSpec.option, withDoQueryKV] at h
    split at h
    · cases h
    · left
      exact h
  | part p =>
    left
    cases p <;> exact h
  | nil => exact Or.inl h
  | apiDomain d => exact Or.inl h
  | apiName n => exact Or.inl h
  | header hd => exact Or.inl h
  | httpCli c => exact Or.inl h
  | debug b => exact Or.inl h
  | logger l => exact Or.inl h

/-- An option whose map is not the object the query refers to gives what the
caller built. -/
theorem OptionSpec.givenNow_of_fresh (s : OptionSpec) (opt : _doOpt)
    (h : ∀ id, opt.queryRef = some id → s.mapID ≠ some id) :
    s.givenNow opt = s.queryGiven := by
  cases s with
  | query q =>
    have hne : ¬ opt.queryRef = some q.id := fun hq => h q.id hq rfl
    simp [OptionSpec.givenNow, OptionSpec.queryGiven, _doOpt.mapNow, hne]
  | queryKV k v => rfl
  | part p => rfl
  | nil => rfl
  | apiDomain d => rfl
  | apiName n => rfl
  | header hd => rfl
  | httpCli c => rfl
  | debug b => rfl
  | logger l => rfl

/-- The option `withDoQuery` with the very map the query refers to changes no
entry: the entries it stores are those the query holds. -/
theorem withDoQuery_same_map (m : MapRef) (opt : _doOpt) (key : String)
    (h : opt.queryRef = some m.id) :
    (match withDoQuery m with
      | none => opt
      | some f => f opt).query.lookup key = opt.query.lookup key := by
  have hstep := OptionSpec.apply_query (.query m) opt key
  simp only [OptionSpec.option] at hstep
  rw [hstep]
  simp only [OptionSpec.givenNow, _doOpt.mapNow, h, if_true]
  cases opt.query.lookup key <;> rfl

/-- The query after a list of options applied to any starting value, when no
map object is handed over twice and none is the object the query refers to at
the start. -/
theorem foldl_query_lookup (specs : List OptionSpec) (opt : _doOpt) (key : String)
    (hnodup : (specs.filterMap OptionSpec.mapID).Nodup)
    (hfresh : ∀ id, opt.queryRef = some id → id ∉ specs.filterMap OptionSpec.mapID) :
    ((specs.map OptionSpec.option).foldl (fun opt fn => match fn with
      | none => opt
      | some f => f opt) opt).query.lookup key
    = (specs.reverse.findSome? (fun s => s.queryGiven.lookup key)).or (opt.query.lookup key) := by
  induction specs generalizing opt with
  | nil => simp
  | cons s rest ih =>
    have hgiven : s.givenNow opt = s.queryGiven := by
      apply OptionSpec.givenNow_of_fresh
      intro id hid hs
      apply hfresh id hid
      simp only [List.filterMap_cons, hs]
      exact List.mem_cons_self _ _
    have hrest : (rest.filterMap OptionSpec.mapID).Nodup := by
      cases hs : s.mapID with
      | none => simpa [List.filterMap_cons, hs] using hnodup
      | some id =>
        simp only [List.filterMap_cons, hs, List.nodup_cons] at hnodup
        exact hnodup.2
    have hfresh2 : ∀ id, (match s.option with
        | none => opt
        | some f => f opt).queryRef = some id → id ∉ rest.filterMap OptionSpec.mapID := by
      intro id hid
      rcases OptionSpec.apply_queryRef s opt id hid with h1 | h1
      · intro hmem
        apply hfresh id h1
        cases hs : s.mapID with
        | none => simpa [List.filterMap_cons, hs] using hmem
        | some id2 =>
          simp only [List.filterMap_cons, hs]
          exact List.mem_cons_of_mem _ hmem
      · simp only [List.filterMap_cons, h1, List.nodup_cons] at hnodup
        exact hnodup.1
    simp only [List.map_cons, List.foldl_cons, List.reverse_cons, List.findSome?_append]
    rw [ih _ hrest hfresh2, OptionSpec.apply_query, hgiven]
    cases h1 : List.findSome? (fun s => s.queryGiven.lookup key) rest.reverse <;>
      cases h2 : s.queryGiven.lookup key <;> simp [List.findSome?, h2]

/-- The union of what the options give, later options winning, read at a
key. -/
theorem foldl_union_lookup (specs : List OptionSpec) (m : GoMap) (key : String) :
    (specs.foldl (fun (m : GoMap) (s : OptionSpec) => s.queryGiven ∪ m) m).lookup key
    = (specs.reverse.findSome? (fun s => s.queryGiven.lookup key)).or (m.lookup key) := by
  induction specs generalizing m with
  | nil => simp
  | cons s rest ih =>
    simp only [List.foldl_cons, List.reverse_cons, List.findSome?_append]
    rw [ih, GoMap.union_lookup]
    cases h1 : List.findSome? (fun s => s.queryGiven.lookup key) rest.reverse <;>
      cases h2 : s.queryGiven.lookup key <;> simp [List.findSome?, h2]

/-- C10, as amended: for every list of options applied in order by
`_newDoOpt` in which no map object is handed to `withDoQuery` more than once,
the query read at any key is the value given by the last option that gives the
key (`withDoQuery` with a map holding it, `withDoQueryKV` with it), so keys
given only by earlier options keep their value; this is the union of the given
maps, later ones winning. Nil options anywhere in a list change nothing. In
every case an option stores what it gives over the query as it is, where
`withDoQuery` gives what its map holds at that moment; and `withDoQuery` with
the very map the query refers to (a map, or an option value, used again after
it became the query) changes no entry, whatever was written to the query in
between. -/
theorem newDoOpt_query_right_biased (specs : List OptionSpec) (key : String)
    (opts : List doOption) (opt : _doOpt) (s : OptionSpec) (m : MapRef) :
    ((specs.filterMap OptionSpec.mapID).Nodup →
      (_newDoOpt (specs.map OptionSpec.option)).query.lookup key
        = specs.reverse.findSome? (fun s => s.queryGiven.lookup key) ∧
      (_newDoOpt (specs.map OptionSpec.option)).query.lookup key
        = (specs.foldl (fun (m : GoMap) (s : OptionSpec) => s.queryGiven ∪ m) ∅).lookup key) ∧
    _newDoOpt (opts.filter (fun fn => fn.isSome)) = _newDoOpt opts ∧
    (match s.option with
      | none => opt
      | some f => f opt).query.lookup key
      = ((s.givenNow opt).lookup key).or (opt.query.lookup key) ∧
    (opt.queryRef = some m.id →
      (match withDoQuery m with
        | none => opt
        | some f => f opt).query.lookup key = opt.query.lookup key) := by
  refine ⟨?_, ?_, OptionSpec.apply_query s opt key, withDoQuery_same_map m opt key⟩
  · intro hnodup
    have h1 : (_newDoOpt (specs.map OptionSpec.option)).query.lookup key
        = specs.reverse.findSome? (fun s => s.queryGiven.lookup key) := by
      unfold _newDoOpt
      rw [foldl_query_lookup specs _ key hnodup (by simp [_doOpt.zero])]
      simp [_doOpt.zero]
    refine ⟨h1, ?_⟩
    rw [h1, foldl_union_lookup]
    simp
  · unfold _newDoOpt
    generalize _doOpt.zero = opt
    induction opts generalizing opt with
    | nil => rfl
    | cons fn rest ih =>
      cases fn with
      | none => simpa using ih opt
      | some f => simpa using ih (f opt)

/-- C10, as amended, at three options with two map objects: the key `a` is
given by the first map, then by `withDoQueryKV`, the key `b` by the second map
only. -/
theorem newDoOpt_query_right_biased_witness :
    (_newDoOpt ([OptionSpec.query { id := 1, content := GoMap.single "a" "1" },
        .queryKV "a" "2", .nil,
        .query { id := 2, content := GoMap.single "b" "3" }].map OptionSpec.option)).query.lookup
        "a" = some "2" ∧
    (_newDoOpt ([OptionSpec.query { id := 1, content := GoMap.single "a" "1" },
        .queryKV "a" "2", .nil,
        .query { id := 2, content := GoMap.single "b" "3" }].map OptionSpec.option)).query.lookup
        "b" = some "3" := by
  constructor
  · rw [((newDoOpt_query_right_biased
      [OptionSpec.query { id := 1, content := GoMap.single "a" "1" }, .queryKV "a" "2", .nil,
        .query { id := 2, content := GoMap.single "b" "3" }] "a" [] _doOpt.zero .nil
      { id := 1, content := ∅ }).1 (by decide)).1]
    decide
  · rw [((newDoOpt_query_right_biased
      [OptionSpec.query { id := 1, content := GoMap.single "a" "1" }, .queryKV "a" "2", .nil,
        .query { id := 2, content := GoMap.single "b" "3" }] "b" [] _doOpt.zero .nil
      { id := 1, content := ∅ }).1 (by decide)).1]
    decide

/-- C10 as stated fails when a map object is used again: with a map `m`
holding `a = 1`, the options `withDoQuery(m)`, `withDoQueryKV(a, 2)`,
`withDoQuery(m)` end with `a = 2`, although the last mutator that sets `a` is
`withDoQuery(m)`, built with `a = 1`: the first option made `m` itself the
query, the second wrote into it, and the third found `a = 2` in it. -/
theorem newDoOpt_query_counterexample :
    (_newDoOpt [withDoQuery { id := 1, content := GoMap.single "a" "1" },
        withDoQueryKV "a" "2",
        withDoQuery { id := 1, content := GoMap.single "a" "1" }]).query.lookup "a"
      = some "2" ∧
    [OptionSpec.query { id := 1, content := GoMap.single "a" "1" }, .queryKV "a" "2",
        .query { id := 1, content := GoMap.single "a" "1" }].reverse.findSome?
        (fun s => s.queryGiven.lookup "a") = some "1" := by
  refine ⟨by decide, by decide⟩

/-! ### The debug log -/

/-- Every effect of `debugLog` is a call of `Logger.Debug` on the configured
logger, made under a true debug flag, with the prefixed message. -/
theorem debugLog_mem (opt : _doOpt) (msg : String) (l : Logger) (line : String)
    (h : Effect.debug l line ∈ opt.debugLog msg) :
    opt.debug = true ∧ opt.logger = some l ∧ line = "[FEISHU-DEBUG] " ++ msg := by
  unfold _doOpt.debugLog at h
  cases hl : opt.logger with
  | none => simp [hl] at h
  | some l1 =>
    cases hd : opt.debug with
    | false => simp [hl, hd] at h
    | true =>
      simp only [hl, hd, Bool.not_true, Bool.false_eq_true, if_false, List.mem_singleton,
        Effect.debug.injEq] at h
      exact ⟨rfl, by rw [h.1], h.2⟩

/-- The calls of `Logger.Debug` in one pass of the upload loop come from
`debugLog`. -/
theorem uploadPart_debug {Data : Type} (env : Env Data) (opt : _doOpt) (method rawURL : String)
    (fd : _doFormData) (l : Logger) (line : String)
    (h : Effect.debug l line ∈ (uploadPart env opt method rawURL fd).effects) :
    opt.debug = true ∧ opt.logger = some l ∧ ∃ m, line = "[FEISHU-DEBUG] " ++ m := by
  unfold uploadPart at h
  split at h
  · split at h
    · simp at h
    · split at h
      · simp at h
      · split at h
        · simp at h
        · simp only [List.cons_append, List.nil_append, List.mem_cons, reduceCtorEq,
            false_or] at h
          obtain ⟨h1, h2, h3⟩ := debugLog_mem opt _ l line h
          exact ⟨h1, h2, _, h3⟩
  · split at h <;> simp at h

/-- The calls of `Logger.Debug` in the upload loop come from `debugLog`. -/
theorem uploadLoop_debug {Data : Type} (env : Env Data) (opt : _doOpt) (method rawURL : String)
    (fds : List _doFormData) (name0 : String) (l : Logger) (line : String)
    (h : Effect.debug l line ∈ (uploadLoop env opt method rawURL fds name0).effects) :
    opt.debug = true ∧ opt.logger = some l ∧ ∃ m, line = "[FEISHU-DEBUG] " ++ m := by
  induction fds generalizing name0 with
  | nil => simp [uploadLoop] at h
  | cons fd rest ih =>
    unfold uploadLoop at h
    dsimp only at h
    split at h
    · exact uploadPart_debug env opt method rawURL fd l line h
    · exact uploadPart_debug env opt method rawURL fd l line h
    · simp only [List.mem_append] at h
      rcases h with h | h
      · exact uploadPart_debug env opt method rawURL fd l line h
      · exact ih _ h

/-- The calls of `Logger.Debug` in `newUploadReq` come from `debugLog`. -/
theorem newUploadReq_debug {Data : Type} (env : Env Data) (opt : _doOpt) (method rawURL : String)
    (l : Logger) (line : String)
    (h : Effect.debug l line ∈ (opt.newUploadReq env method rawURL).effects) :
    opt.debug = true ∧ opt.logger = some l ∧ ∃ m, line = "[FEISHU-DEBUG] " ++ m := by
  unfold _doOpt.newUploadReq at h
  dsimp only at h
  split at h
  · exact uploadLoop_debug env opt method rawURL _ _ l line h
  · exact uploadLoop_debug env opt method rawURL _ _ l line h
  · split at h <;>
    · simp only [List.mem_append] at h
      rcases h with h | h
      · exact uploadLoop_debug env opt method rawURL _ _ l line h
      · obtain ⟨h1, h2, h3⟩ := debugLog_mem opt _ l line h
        exact ⟨h1, h2, _, h3⟩

/-- The calls of `Logger.Debug` in `NewRequest` come from `debugLog`. -/
theorem NewRequest_debug {Data : Type} (env : Env Data) (opt : _doOpt) (method rawURL : String)
    (data : Option Data) (l : Logger) (line : String)
    (h : Effect.debug l line ∈ (opt.NewRequest env method rawURL data).effects) :
    opt.debug = true ∧ opt.logger = some l ∧ ∃ m, line = "[FEISHU-DEBUG] " ++ m := by
  have fromLog : ∀ m, Effect.debug l line ∈ opt.debugLog m →
      opt.debug = true ∧ opt.logger = some l ∧ ∃ m, line = "[FEISHU-DEBUG] " ++ m := by
    intro m hm
    obtain ⟨h1, h2, h3⟩ := debugLog_mem opt m l line hm
    exact ⟨h1, h2, _, h3⟩
  unfold _doOpt.NewRequest at h
  split at h
  · simp at h
  · rename_i u _
    cases hparts : opt.uploadFormData with
    | nil =>
      simp only [hparts, List.length_nil, beq_self_eq_true, if_true] at h
      cases henc : encodeJSON env data with
      | error e => simp [henc] at h
      | ok buf =>
        simp only [henc] at h
        cases hreq : env.newRequestErr method u <;> simp only [hreq] at h <;>
          cases data <;> exact fromLog _ h
    | cons fd rest =>
      simp only [hparts, List.length_cons, Nat.add_one_ne_zero, beq_iff_eq, if_false] at h
      cases hup : (opt.newUploadReq env method u).out <;> simp only [hup] at h <;>
        exact newUploadReq_debug env opt method u l line h

/-- C11: `debugLog` makes one call of `Logger.Debug`, with the message
prefixed by `[FEISHU-DEBUG] `, when the debug flag is true and a logger is
present, and no call otherwise; every call of `Logger.Debug` made during
`_doWithContext` is made under a true flag on the configured logger with a
prefixed line; and the options built by `buildOpts` carry the flag and the
logger of the app. -/
theorem debugLog_gated {Data : Type} (env : Env Data) (opt : _doOpt) (msg : String)
    (method rawURL : String) (data : Option Data) (opts : List doOption)
    (a : app) (apiDomain apiName : String) (header : GoMap) :
    (∀ l, opt.debug = true → opt.logger = some l →
      opt.debugLog msg = [.debug l ("[FEISHU-DEBUG] " ++ msg)]) ∧
    ((opt.debug = false ∨ opt.logger = none) → opt.debugLog msg = []) ∧
    (∀ l line, Effect.debug l line ∈ (_doWithContext env method rawURL data opts).effects →
      (_newDoOpt opts).debug = true ∧ (_newDoOpt opts).logger = some l ∧
      ∃ m, line = "[FEISHU-DEBUG] " ++ m) ∧
    ((_newDoOpt (a.buildOpts apiDomain apiName header [])).debug = a.opt.debug ∧
      (_newDoOpt (a.buildOpts apiDomain apiName header [])).logger = a.opt.logger) := by
  refine ⟨?_, ?_, ?_, ?_⟩
  · intro l hd hl
    simp [_doOpt.debugLog, hd, hl]
  · rintro (hd | hl)
    · cases hl : opt.logger <;> simp [_doOpt.debugLog, hd, hl]
    · simp [_doOpt.debugLog, hl]
  · intro l line h
    have fromLog : ∀ m, Effect.debug l line ∈ (_newDoOpt opts).debugLog m →
        (_newDoOpt opts).debug = true ∧ (_newDoOpt opts).logger = some l ∧
        ∃ m, line = "[FEISHU-DEBUG] " ++ m := by
      intro m hm
      obtain ⟨h1, h2, h3⟩ := debugLog_mem _ m l line hm
      exact ⟨h1, h2, _, h3⟩
    unfold _doWithContext at h
    dsimp only at h
    cases hreq : ((_newDoOpt opts).NewRequest env method rawURL data).out with
    | error e =>
      simp only [hreq] at h
      exact NewRequest_debug env _ method rawURL data l line h
    | panic v =>
      simp only [hreq] at h
      exact NewRequest_debug env _ method rawURL data l line h
    | ok req =>
      simp only [hreq] at h
      split at h
      · simp only [List.mem_append, List.mem_cons, reduceCtorEq, List.mem_singleton,
          List.not_mem_nil, or_self, or_false] at h
        exact NewRequest_debug env _ method rawURL data l line h
      · split at h <;>
        · simp only [List.mem_append, List.mem_cons, reduceCtorEq, List.mem_singleton,
            List.not_mem_nil, or_self, or_false] at h
          rcases h with h | h
          · exact NewRequest_debug env _ method rawURL data l line h
          · exact fromLog _ h
  · cases hl : a.opt.logger <;> cases hd : a.opt.debug <;> cases hc : a.opt.cli <;>
      simp [app.buildOpts, _newDoOpt, hl, hd, hc, withDoAPIDomain, withDoAPIName, withDoHeader,
        withDoLogger, withDoDebug, withDoHTTPCli, _doOpt.zero]

/-- C11 at a concrete option set: the flag is true and a logger is present. -/
theorem debugLog_gated_witness :
    (_newDoOpt [withDoLogger (some { name := "stderr" }), withDoDebug true]).debugLog "hello"
      = [.debug { name := "stderr" } ("[FEISHU-DEBUG] " ++ "hello")] :=
  (debugLog_gated (exampleEnv exampleMarshal (exampleReply "ok"))
    (_newDoOpt [withDoLogger (some { name := "stderr" }), withDoDebug true]) "hello"
    "GET" "https://open.feishu.cn/x" none [] exampleApp "dom" "op" ∅).1
    { name := "stderr" } (by rfl) (by rfl)

/-! ### The webhook: observations -/

/-- The log of one message is empty or one call of `Logger.Debug`. -/
theorem debugLog_cases (opt : _doOpt) (msg : String) :
    opt.debugLog msg = [] ∨ ∃ l line, opt.debugLog msg = [.debug l line] := by
  unfold _doOpt.debugLog
  cases opt.logger with
  | none => exact Or.inl rfl
  | some l =>
    cases opt.debug with
    | false => exact Or.inl rfl
    | true => exact Or.inr ⟨l, _, rfl⟩

/-- The handlers started by two runs in a row. -/
theorem handlerCalls_append (e1 e2 : List Effect) :
    handlerCalls (e1 ++ e2) = handlerCalls e1 ++ handlerCalls e2 := by
  simp [handlerCalls]

/-- Logging starts no handler. -/
theorem handlerCalls_debugLog (opt : _doOpt) (msg : String) :
    handlerCalls (opt.debugLog msg) = [] := by
  rcases debugLog_cases opt msg with h | ⟨l, line, h⟩ <;>
    simp [h, handlerCalls, Effect.isHandlerCall]

/-- The bytes written by two runs in a row. -/
theorem responseBody_append (e1 e2 : List Effect) :
    responseBody (e1 ++ e2) = responseBody e1 ++ responseBody e2 := by
  induction e1 with
  | nil => rfl
  | cons e rest ih => cases e <;> simp [responseBody, ih]

/-- Logging writes no byte. -/
theorem responseBody_debugLog (opt : _doOpt) (msg : String) :
    responseBody (opt.debugLog msg) = [] := by
  rcases debugLog_cases opt msg with h | ⟨l, line, h⟩ <;> simp [h, responseBody]

/-- The status codes written by two runs in a row. -/
theorem statusWritten_append (e1 e2 : List Effect) :
    statusWritten (e1 ++ e2) = statusWritten e1 ++ statusWritten e2 := by
  induction e1 with
  | nil => rfl
  | cons e rest ih => cases e <;> simp [statusWritten, ih]

/-- Logging writes no status. -/
theorem statusWritten_debugLog (opt : _doOpt) (msg : String) :
    statusWritten (opt.debugLog msg) = [] := by
  rcases debugLog_cases opt msg with h | ⟨l, line, h⟩ <;> simp [h, statusWritten]

/-- Logging does not change the status of the response. -/
theorem responseStatus_debugLog (opt : _doOpt) (msg : String) (rest : List Effect) :
    responseStatus (opt.debugLog msg ++ rest) = responseStatus rest := by
  rcases debugLog_cases opt msg with h | ⟨l, line, h⟩ <;> simp [h, responseStatus]

/-- A log line is no start of a handler. -/
theorem goHandler_not_mem_debugLog (opt : _doOpt) (msg : String) (h : EventHandler)
    (hd : EventHeaderV2) (ev : Bytes) : Effect.goHandler h hd ev ∉ opt.debugLog msg := by
  rcases debugLog_cases opt msg with h1 | ⟨l, line, h1⟩ <;> simp [h1]

/-- A log line is no start of a v1 handler. -/
theorem goHandlerV1_not_mem_debugLog (opt : _doOpt) (msg : String) (h : EventHandlerV1)
    (hd : EventHeaderV1) (ev : Bytes) : Effect.goHandlerV1 h hd ev ∉ opt.debugLog msg := by
  rcases debugLog_cases opt msg with h1 | ⟨l, line, h1⟩ <;> simp [h1]

/-! ### The webhook: from the body to the classification -/

/-- A body that is decoded and, if need be, decrypted without error has had
no effect so far. -/
theorem decodeEvent_ok_effects (a : app) (env : EventEnv) (opt : _doOpt) (bytes : Bytes)
    (eReq : eventRequest) (buf : Bytes)
    (h : (a.decodeEvent env opt bytes).out = .ok (eReq, buf)) :
    (a.decodeEvent env opt bytes).effects = [] := by
  unfold app.decodeEvent at h ⊢
  split
  · rename_i h1
    simp only [h1] at h
    cases h
  · rename_i e1 h1
    simp only [h1] at h ⊢
    split
    · rename_i h2
      simp only [h2, if_true] at h
      split
      · rfl
      · rename_i h3
        simp only [h3] at h
        cases h
      · rfl
    · rfl

/-- Once the envelope is decoded, the run of `ListenEventCallback` is the run
of the `switch` statement followed by the two deferred functions. -/
theorem ListenEventCallback_decoded (a : app) (env : EventEnv) (bytes : Bytes)
    (eReq : eventRequest) (buf : Bytes)
    (h : (a.decodeEvent env a.eventOpt bytes).out = .ok (eReq, buf)) :
    a.ListenEventCallback env (.ok bytes)
      = (match (a.dispatchEvent env a.eventOpt eReq buf).out with
         | .panicked v =>
           { effects := (a.dispatchEvent env a.eventOpt eReq buf).effects ++ [.bodyClose],
             out := .panicked v }
         | .returned none =>
           { effects := (a.dispatchEvent env a.eventOpt eReq buf).effects ++ [.bodyClose],
             out := .returned () }
         | .returned (some _) =>
           { effects := (a.dispatchEvent env a.eventOpt eReq buf).effects
               ++ [.bodyClose, .writeHeader 500],
             out := .returned () }) := by
  have he := decodeEvent_ok_effects a env a.eventOpt bytes eReq buf h
  unfold app.ListenEventCallback
  simp only [h, he, List.nil_append]

/-- An envelope that needs no decryption is classified as decoded, with the
body of the request. -/
theorem decodeEvent_plain (a : app) (env : EventEnv) (opt : _doOpt) (bytes : Bytes)
    (e : eventRequest) (hev : jsonUnmarshalEvent env bytes eventRequest.zero = (e, none))
    (henc : e.Encrypt = "") :
    (a.decodeEvent env opt bytes).out = .ok (e, bytes) := by
  unfold app.decodeEvent
  simp [hev, henc]

/-- The handlers started by `ListenEventCallback` are those started by the
`switch` statement. -/
theorem ListenEventCallback_handlerCalls (a : app) (env : EventEnv) (bytes : Bytes)
    (eReq : eventRequest) (buf : Bytes)
    (h : (a.decodeEvent env a.eventOpt bytes).out = .ok (eReq, buf)) :
    handlerCalls (a.ListenEventCallback env (.ok bytes)).effects
      = handlerCalls (a.dispatchEvent env a.eventOpt eReq buf).effects := by
  rw [ListenEventCallback_decoded a env bytes eReq buf h]
  rcases (a.dispatchEvent env a.eventOpt eReq buf).out with (_ | e) | v <;>
    simp [handlerCalls_append, handlerCalls, Effect.isHandlerCall]

/-- The bytes written by `ListenEventCallback` are those written by the
`switch` statement. -/
theorem ListenEventCallback_responseBody (a : app) (env : EventEnv) (bytes : Bytes)
    (eReq : eventRequest) (buf : Bytes)
    (h : (a.decodeEvent env a.eventOpt bytes).out = .ok (eReq, buf)) :
    responseBody (a.ListenEventCallback env (.ok bytes)).effects
      = responseBody (a.dispatchEvent env a.eventOpt eReq buf).effects := by
  rw [ListenEventCallback_decoded a env bytes eReq buf h]
  rcases (a.dispatchEvent env a.eventOpt eReq buf).out with (_ | e) | v <;>
    simp [responseBody_append, responseBody]

/-- When the `switch` statement ends without error, `ListenEventCallback`
adds the closing of the body and nothing else. -/
theorem ListenEventCallback_no_error (a : app) (env : EventEnv) (bytes : Bytes)
    (eReq : eventRequest) (buf : Bytes)
    (h : (a.decodeEvent env a.eventOpt bytes).out = .ok (eReq, buf))
    (hd : (a.dispatchEvent env a.eventOpt eReq buf).out = .returned none) :
    a.ListenEventCallback env (.ok bytes)
      = { effects := (a.dispatchEvent env a.eventOpt eReq buf).effects ++ [.bodyClose],
          out := .returned () } := by
  rw [ListenEventCallback_decoded a env bytes eReq buf h, hd]

/-- The ping branch looks at the bytes of the body only, starts no handler
and does not panic. -/
theorem dispatchEvent_ping (a : app) (env : EventEnv) (opt : _doOpt) (eReq : eventRequest)
    (buf : Bytes) (hty : eReq.EventHeaderV1.Type_ = EventTypeURLVerification) :
    (∀ e2 : eventRequest, e2.EventHeaderV1.Type_ = EventTypeURLVerification →
      a.dispatchEvent env opt eReq buf = a.dispatchEvent env opt e2 buf) ∧
    handlerCalls (a.dispatchEvent env opt eReq buf).effects = [] ∧
    (∀ v, (a.dispatchEvent env opt eReq buf).out ≠ .panicked v) := by
  refine ⟨?_, ?_, ?_⟩
  · intro e2 h2
    unfold app.dispatchEvent
    simp only [hty, h2, beq_self_eq_true, if_true]
  · unfold app.dispatchEvent
    simp only [hty, beq_self_eq_true, if_true]
    split
    · exact handlerCalls_debugLog _ _
    · split
      · exact handlerCalls_debugLog _ _
      · split
        · exact handlerCalls_debugLog _ _
        · split <;>
          · rw [handlerCalls_append, handlerCalls_debugLog]
            rfl
  · intro v
    unfold app.dispatchEvent
    simp only [hty, beq_self_eq_true, if_true]
    split
    · simp
    · split
      · simp
      · split
        · simp
        · split <;> simp

/-- The branch of schema 2.0 starts no v1 handler. -/
theorem dispatchEvent_v2_no_v1 (a : app) (env : EventEnv) (opt : _doOpt) (eReq : eventRequest)
    (buf : Bytes) (hty : eReq.EventHeaderV1.Type_ ≠ EventTypeURLVerification)
    (hs : eReq.Schema = "2.0") (h : EventHandlerV1) (hd : EventHeaderV1) (ev : Bytes) :
    Effect.goHandlerV1 h hd ev ∉ (a.dispatchEvent env opt eReq buf).effects := by
  unfold app.dispatchEvent
  simp only [beq_iff_eq, hty, if_false, hs, if_true]
  split
  · exact goHandlerV1_not_mem_debugLog _ _ _ _ _
  · split
    · exact goHandlerV1_not_mem_debugLog _ _ _ _ _
    · split
      · simp
      · simp [goHandlerV1_not_mem_debugLog]

/-- An envelope that matches no shape: nothing happens. -/
theorem dispatchEvent_no_match (a : app) (env : EventEnv) (opt : _doOpt) (eReq : eventRequest)
    (buf : Bytes) (hty : eReq.EventHeaderV1.Type_ ≠ EventTypeURLVerification)
    (hs : eReq.Schema ≠ "2.0") (hu : eReq.EventHeaderV1.UUID = "") :
    a.dispatchEvent env opt eReq buf = { effects := [], out := .returned none } := by
  unfold app.dispatchEvent
  simp [hty, hs, hu]

/-- The effects of `ListenEventCallback` are those of the `switch` statement,
then the closing of the body, then perhaps status 500. -/
theorem ListenEventCallback_mem (a : app) (env : EventEnv) (bytes : Bytes)
    (eReq : eventRequest) (buf : Bytes)
    (h : (a.decodeEvent env a.eventOpt bytes).out = .ok (eReq, buf)) (e : Effect)
    (he : e ∈ (a.ListenEventCallback env (.ok bytes)).effects) :
    e ∈ (a.dispatchEvent env a.eventOpt eReq buf).effects ∨ e = .bodyClose ∨
      e = .writeHeader 500 := by
  rw [ListenEventCallback_decoded a env bytes eReq buf h] at he
  rcases hout : (a.dispatchEvent env a.eventOpt eReq buf).out with (_ | e1) | v <;>
    simp only [hout, List.mem_append, List.mem_cons, List.mem_singleton, List.not_mem_nil,
      or_false] at he <;> tauto

/-- C12: the envelope is classified in the order ping, v2, v1 and only the
first matching branch runs. An envelope whose type is `url_verification` is
handled by the ping branch whatever its schema, header and uuid (the branch
sees the bytes of the body only), and no handler is started; an envelope of
schema 2.0 that is no ping never starts a v1 handler; an envelope that
matches none of the three shapes has no effect but the closing of the request
body: no response body, no status, no handler. -/
theorem listenEvent_first_match (a : app) (env : EventEnv) (bytes : Bytes)
    (eReq : eventRequest) (buf : Bytes)
    (hdec : (a.decodeEvent env a.eventOpt bytes).out = .ok (eReq, buf)) :
    (eReq.EventHeaderV1.Type_ = EventTypeURLVerification →
      handlerCalls (a.ListenEventCallback env (.ok bytes)).effects = [] ∧
      (a.ListenEventCallback env (.ok bytes)).out = .returned () ∧
      ∀ e2 : eventRequest, e2.EventHeaderV1.Type_ = EventTypeURLVerification →
        a.dispatchEvent env a.eventOpt eReq buf = a.dispatchEvent env a.eventOpt e2 buf) ∧
    (eReq.EventHeaderV1.Type_ ≠ EventTypeURLVerification → eReq.Schema = "2.0" →
      ∀ h hd ev, Effect.goHandlerV1 h hd ev ∉ (a.ListenEventCallback env (.ok bytes)).effects) ∧
    (eReq.EventHeaderV1.Type_ ≠ EventTypeURLVerification → eReq.Schema ≠ "2.0" →
      eReq.EventHeaderV1.UUID = "" →
      (a.ListenEventCallback env (.ok bytes)).effects = [.bodyClose] ∧
      (a.ListenEventCallback env (.ok bytes)).out = .returned ()) := by
  refine ⟨?_, ?_, ?_⟩
  · intro hty
    obtain ⟨h1, h2, h3⟩ := dispatchEvent_ping a env a.eventOpt eReq buf hty
    refine ⟨?_, ?_, h1⟩
    · rw [ListenEventCallback_handlerCalls a env bytes eReq buf hdec, h2]
    · rw [ListenEventCallback_decoded a env bytes eReq buf hdec]
      rcases hout : (a.dispatchEvent env a.eventOpt eReq buf).out with (_ | e1) | v
      · rfl
      · rfl
      · exact absurd hout (h3 v)
  · intro hty hs h hd ev hmem
    rcases ListenEventCallback_mem a env bytes eReq buf hdec _ hmem with h1 | h1 | h1
    · exact dispatchEvent_v2_no_v1 a env a.eventOpt eReq buf hty hs h hd ev h1
    · cases h1
    · cases h1
  · intro hty hs hu
    have hd := dispatchEvent_no_match a env a.eventOpt eReq buf hty hs hu
    rw [ListenEventCallback_no_error a env bytes eReq buf hdec (by rw [hd]), hd]
    exact ⟨rfl, rfl⟩

/-- C12 at a concrete envelope: a ping that also carries schema 2.0, a
header and a uuid, sent to an app with a v2 handler for its event type. -/
theorem listenEvent_first_match_witness :
    handlerCalls ((exampleEventApp.RegisterEventCallback EventTypeMessageReceived
        { name := "h2" }).ListenEventCallback
      (exampleEventEnv (exampleEvents (exampleEnvelopeV2 EventTypeURLVerification))
        exampleNoVerification) (.ok [braceOpen, braceClose])).effects = [] :=
  ((listenEvent_first_match
    (exampleEventApp.RegisterEventCallback EventTypeMessageReceived { name := "h2" })
    (exampleEventEnv (exampleEvents (exampleEnvelopeV2 EventTypeURLVerification))
      exampleNoVerification)
    [braceOpen, braceClose] (exampleEnvelopeV2 EventTypeURLVerification)
    [braceOpen, braceClose] (by rfl)).1 (by rfl)).1

/-- The status codes written by `ListenEventCallback` when the `switch`
statement ends without error are those written by the `switch` statement. -/
theorem ListenEventCallback_statusWritten (a : app) (env : EventEnv) (bytes : Bytes)
    (eReq : eventRequest) (buf : Bytes)
    (h : (a.decodeEvent env a.eventOpt bytes).out = .ok (eReq, buf))
    (hd : (a.dispatchEvent env a.eventOpt eReq buf).out = .returned none) :
    statusWritten (a.ListenEventCallback env (.ok bytes)).effects
      = statusWritten (a.dispatchEvent env a.eventOpt eReq buf).effects ∧
    responseStatus (a.ListenEventCallback env (.ok bytes)).effects
      = responseStatus ((a.dispatchEvent env a.eventOpt eReq buf).effects ++ [.bodyClose]) := by
  rw [ListenEventCallback_no_error a env bytes eReq buf h hd]
  simp [statusWritten_append, statusWritten]

/-- C13: a body that decodes to an envelope of type `url_verification`
without `encrypt` field, and to the verification request with challenge `c`
and token `T`, makes `ListenEventCallback` write exactly the JSON object with
the one key `challenge` whose value is the JSON string `q` of `c` (an opening
brace, `"challenge":`, `q`, a closing brace) and start no handler when the
configured token is `T`; with another configured token nothing is written, no
status is set and no handler is started. -/
theorem listenEvent_url_verification (a : app) (env : EventEnv) (bytes : Bytes)
    (e : eventRequest) (c T : String) (q : Bytes)
    (hev : jsonUnmarshalEvent env bytes eventRequest.zero = (e, none))
    (henc : e.Encrypt = "")
    (hty : e.EventHeaderV1.Type_ = EventTypeURLVerification)
    (hv : jsonUnmarshalVerification env bytes
            = .ok { Challenge := c, Token := T, Type_ := EventTypeURLVerification })
    (hq : env.marshalString c = .ok q) :
    (a.verificationToken = T →
      responseBody (a.ListenEventCallback env (.ok bytes)).effects
        = stringBytes "\x7b\"challenge\":" ++ q ++ stringBytes "\x7d" ∧
      handlerCalls (a.ListenEventCallback env (.ok bytes)).effects = []) ∧
    (a.verificationToken ≠ T →
      responseBody (a.ListenEventCallback env (.ok bytes)).effects = [] ∧
      handlerCalls (a.ListenEventCallback env (.ok bytes)).effects = [] ∧
      statusWritten (a.ListenEventCallback env (.ok bytes)).effects = []) := by
  have hdec := decodeEvent_plain a env a.eventOpt bytes e hev henc
  have hcalls := (dispatchEvent_ping a env a.eventOpt e bytes hty).2.1
  have hm : jsonMarshalVerification env { Challenge := c }
      = .ok (stringBytes "\x7b\"challenge\":" ++ q ++ stringBytes "\x7d") := by
    simp only [jsonMarshalVerification, hq]
  constructor
  · intro hT
    refine ⟨?_, ?_⟩
    · rw [ListenEventCallback_responseBody a env bytes e bytes hdec]
      unfold app.dispatchEvent
      simp only [hty, beq_self_eq_true, if_true, hv, hT, bne_self_eq_false, Bool.false_eq_true,
        if_false, hm]
      split <;>
      · rw [responseBody_append, responseBody_debugLog]
        simp [responseBody]
    · rw [ListenEventCallback_handlerCalls a env bytes e bytes hdec, hcalls]
  · intro hT
    have hne : (T != a.verificationToken) = true := by
      simp only [bne_iff_ne, ne_eq]
      exact fun h => hT h.symm
    have hd : a.dispatchEvent env a.eventOpt e bytes
        = { effects := a.eventOpt.debugLog (eventLogHead a.eventOpt
              ++ "unexpected event callback token (app: " ++ a.verificationToken ++ "): "
              ++ T ++ "\n"),
            out := .returned none } := by
      unfold app.dispatchEvent
      simp only [hty, beq_self_eq_true, if_true, hv, hne]
    refine ⟨?_, ?_, ?_⟩
    · rw [ListenEventCallback_responseBody a env bytes e bytes hdec, hd]
      exact responseBody_debugLog _ _
    · rw [ListenEventCallback_handlerCalls a env bytes e bytes hdec, hcalls]
    · rw [(ListenEventCallback_statusWritten a env bytes e bytes hdec (by rw [hd])).1, hd]
      exact statusWritten_debugLog _ _

/-- The branch of schema 2.0 with a header whose token is the configured
one: the handler registered for the event type, if any, is started once with
the header and the raw event, and status 200 is written. -/
theorem dispatchEvent_v2 (a : app) (env : EventEnv) (opt : _doOpt) (eReq : eventRequest)
    (buf : Bytes) (header : EventHeaderV2)
    (hty : eReq.EventHeaderV1.Type_ ≠ EventTypeURLVerification) (hs : eReq.Schema = "2.0")
    (hh : eReq.Header = some header) (htok : header.Token = a.verificationToken) :
    (a.dispatchEvent env opt eReq buf).out = .returned none ∧
    statusWritten (a.dispatchEvent env opt eReq buf).effects = [200] ∧
    (∀ handler, a.eventHandler.lookup header.EventType = some handler →
      (a.dispatchEvent env opt eReq buf).effects
        = [.goHandler handler header eReq.Event, .writeHeader 200]) ∧
    (a.eventHandler.lookup header.EventType = none →
      handlerCalls (a.dispatchEvent env opt eReq buf).effects = []) := by
  unfold app.dispatchEvent
  simp only [beq_iff_eq, hty, if_false, hs, if_true, hh, htok, bne_self_eq_false,
    Bool.false_eq_true]
  cases hl : a.eventHandler.lookup header.EventType with
  | some handler =>
    refine ⟨rfl, rfl, ?_, ?_⟩
    · intro h1 h2
      cases h2
      rfl
    · intro h2
      cases h2
  | none =>
    refine ⟨rfl, ?_, ?_, ?_⟩
    · rw [statusWritten_append, statusWritten_debugLog]
      rfl
    · intro h1 h2
      cases h2
    · intro _
      rw [handlerCalls_append, handlerCalls_debugLog]
      rfl

/-- A token that is not the configured one: the branch logs and returns. -/
theorem dispatchEvent_v2_mismatch (a : app) (env : EventEnv) (opt : _doOpt)
    (eReq : eventRequest) (buf : Bytes) (header : EventHeaderV2)
    (hty : eReq.EventHeaderV1.Type_ ≠ EventTypeURLVerification) (hs : eReq.Schema = "2.0")
    (hh : eReq.Header = some header) (htok : header.Token ≠ a.verificationToken) :
    a.dispatchEvent env opt eReq buf
      = { effects := opt.debugLog (eventLogHead opt ++ "unexpected event callback token (app: "
            ++ a.verificationToken ++ "): " ++ header.Token ++ "\n"),
          out := .returned none } := by
  unfold app.dispatchEvent
  simp [hty, hs, hh, htok]

/-- C14: for a v2 envelope (schema 2.0, header present, no ping) whose header
token is the configured one, the handler registered for the event type of the
header is started exactly once with the header and the raw event bytes of the
envelope, no handler is started when none is registered, and in both cases
status 200 is written; with another header token no handler is started,
nothing is written and the response has status 200. -/
theorem listenEvent_v2 (a : app) (env : EventEnv) (bytes : Bytes) (eReq : eventRequest)
    (buf : Bytes) (header : EventHeaderV2)
    (hdec : (a.decodeEvent env a.eventOpt bytes).out = .ok (eReq, buf))
    (hty : eReq.EventHeaderV1.Type_ ≠ EventTypeURLVerification) (hs : eReq.Schema = "2.0")
    (hh : eReq.Header = some header) :
    (header.Token = a.verificationToken →
      (∀ handler, a.eventHandler.lookup header.EventType = some handler →
        handlerCalls (a.ListenEventCallback env (.ok bytes)).effects
          = [.goHandler handler header eReq.Event]) ∧
      (a.eventHandler.lookup header.EventType = none →
        handlerCalls (a.ListenEventCallback env (.ok bytes)).effects = []) ∧
      statusWritten (a.ListenEventCallback env (.ok bytes)).effects = [200] ∧
      responseStatus (a.ListenEventCallback env (.ok bytes)).effects = 200 ∧
      (a.ListenEventCallback env (.ok bytes)).out = .returned ()) ∧
    (header.Token ≠ a.verificationToken →
      handlerCalls (a.ListenEventCallback env (.ok bytes)).effects = [] ∧
      statusWritten (a.ListenEventCallback env (.ok bytes)).effects = [] ∧
      responseBody (a.ListenEventCallback env (.ok bytes)).effects = [] ∧
      responseStatus (a.ListenEventCallback env (.ok bytes)).effects = 200 ∧
      (a.ListenEventCallback env (.ok bytes)).out = .returned ()) := by
  constructor
  · intro htok
    obtain ⟨hout, hst, hreg, hnone⟩ := dispatchEvent_v2 a env a.eventOpt eReq buf header hty hs
      hh htok
    have hL := ListenEventCallback_no_error a env bytes eReq buf hdec hout
    have hS := ListenEventCallback_statusWritten a env bytes eReq buf hdec hout
    refine ⟨?_, ?_, ?_, ?_, ?_⟩
    · intro handler hl
      rw [ListenEventCallback_handlerCalls a env bytes eReq buf hdec, hreg handler hl]
      rfl
    · intro hl
      rw [ListenEventCallback_handlerCalls a env bytes eReq buf hdec, hnone hl]
    · rw [hS.1, hst]
    · rw [hS.2]
      cases hl : a.eventHandler.lookup header.EventType with
      | some handler =>
        rw [hreg handler hl]
        rfl
      | none =>
        unfold app.dispatchEvent
        simp only [beq_iff_eq, hty, if_false, hs, if_true, hh, htok, bne_self_eq_false,
          Bool.false_eq_true, hl]
        rw [List.append_assoc, responseStatus_debugLog]
        rfl
    · rw [hL]
  · intro htok
    have hd := dispatchEvent_v2_mismatch a env a.eventOpt eReq buf header hty hs hh htok
    have hout : (a.dispatchEvent env a.eventOpt eReq buf).out = .returned none := by rw [hd]
    have hL := ListenEventCallback_no_error a env bytes eReq buf hdec hout
    have hS := ListenEventCallback_statusWritten a env bytes eReq buf hdec hout
    refine ⟨?_, ?_, ?_, ?_, ?_⟩
    · rw [ListenEventCallback_handlerCalls a env bytes eReq buf hdec, hd]
      exact handlerCalls_debugLog _ _
    · rw [hS.1, hd]
      exact statusWritten_debugLog _ _
    · rw [ListenEventCallback_responseBody a env bytes eReq buf hdec, hd]
      exact responseBody_debugLog _ _
    · rw [hS.2, hd, responseStatus_debugLog]
      rfl
    · rw [hL]

/-- C13 at a concrete ping: challenge `abc123` and the configured token; the
response body is the text `{"challenge":"abc123"}`. -/
theorem listenEvent_url_verification_witness :
    responseBody (exampleEventApp.ListenEventCallback
        (exampleEventEnv (exampleEvents examplePing) (exampleVerification "abc123" "tok-1"))
        (.ok [braceOpen, braceClose])).effects
      = stringBytes "\x7b\"challenge\":\"abc123\"\x7d" ∧
    handlerCalls (exampleEventApp.ListenEventCallback
        (exampleEventEnv (exampleEvents examplePing) (exampleVerification "abc123" "tok-1"))
        (.ok [braceOpen, braceClose])).effects = [] := by
  obtain ⟨h1, h2⟩ := (listenEvent_url_verification exampleEventApp
    (exampleEventEnv (exampleEvents examplePing) (exampleVerification "abc123" "tok-1"))
    [braceOpen, braceClose] examplePing "abc123" "tok-1"
    ([34] ++ stringBytes "abc123" ++ [34])
    (by rfl) (by rfl) (by rfl) (by rfl) (by rfl)).1 (by rfl)
  exact ⟨h1.trans (by decide), h2⟩

/-- C14 at a concrete v2 envelope with a handler registered for its event
type. -/
theorem listenEvent_v2_witness :
    handlerCalls ((exampleEventApp.RegisterEventCallback EventTypeMessageReceived
        { name := "h2" }).ListenEventCallback
      (exampleEventEnv (exampleEvents (exampleEnvelopeV2 "")) exampleNoVerification)
      (.ok [braceOpen, braceClose])).effects
      = [.goHandler { name := "h2" } exampleHeaderV2 (exampleEnvelopeV2 "").Event] :=
  ((listenEvent_v2
    (exampleEventApp.RegisterEventCallback EventTypeMessageReceived { name := "h2" })
    (exampleEventEnv (exampleEvents (exampleEnvelopeV2 "")) exampleNoVerification)
    [braceOpen, braceClose] (exampleEnvelopeV2 "") [braceOpen, braceClose] exampleHeaderV2
    (by rfl) (by decide) (by rfl) (by rfl)).1 (by rfl)).1 { name := "h2" } (by rfl)

/-! ### The webhook: v1 envelopes -/

/-- The v1 branch with the configured token: a registered handler is started
once with the v1 header and the raw event and status 200 is written; with no
handler registered and no header block the branch panics, reading the event
type of a nil header. -/
theorem dispatchEvent_v1 (a : app) (env : EventEnv) (opt : _doOpt) (eReq : eventRequest)
    (buf : Bytes) (hty : eReq.EventHeaderV1.Type_ ≠ EventTypeURLVerification)
    (hs : eReq.Schema ≠ "2.0") (hu : eReq.EventHeaderV1.UUID ≠ "")
    (htok : eReq.EventHeaderV1.Token = a.verificationToken) :
    (∀ handler, a.eventHandlerV1.lookup eReq.EventHeaderV1.Type_ = some handler →
      a.dispatchEvent env opt eReq buf
        = { effects := [.goHandlerV1 handler eReq.EventHeaderV1 eReq.Event, .writeHeader 200],
            out := .returned none }) ∧
    (a.eventHandlerV1.lookup eReq.EventHeaderV1.Type_ = none → eReq.Header = none →
      a.dispatchEvent env opt eReq buf = { effects := [], out := .panicked nilDereference }) := by
  constructor
  · intro handler hl
    unfold app.dispatchEvent
    simp [hty, hs, hu, htok, hl]
  · intro hl hh
    unfold app.dispatchEvent
    simp [hty, hs, hu, htok, hl, hh]

/-- The v1 branch with a token that is not the configured one logs and
returns. -/
theorem dispatchEvent_v1_mismatch (a : app) (env : EventEnv) (opt : _doOpt)
    (eReq : eventRequest) (buf : Bytes)
    (hty : eReq.EventHeaderV1.Type_ ≠ EventTypeURLVerification)
    (hs : eReq.Schema ≠ "2.0") (hu : eReq.EventHeaderV1.UUID ≠ "")
    (htok : eReq.EventHeaderV1.Token ≠ a.verificationToken) :
    a.dispatchEvent env opt eReq buf
      = { effects := opt.debugLog (eventLogHead opt ++ "unexpected event callback token (app: "
            ++ a.verificationToken ++ "): " ++ eReq.EventHeaderV1.Token ++ "\n"),
          out := .returned none } := by
  unfold app.dispatchEvent
  simp [hty, hs, hu, htok]

/-- A v1 envelope with the configured token and a registered handler: the
handler is started once with the v1 header and the raw event, status 200 is
written and the call returns. -/
theorem listenEvent_v1_registered (a : app) (env : EventEnv) (bytes : Bytes)
    (eReq : eventRequest) (buf : Bytes) (handler : EventHandlerV1)
    (hdec : (a.decodeEvent env a.eventOpt bytes).out = .ok (eReq, buf))
    (hty : eReq.EventHeaderV1.Type_ ≠ EventTypeURLVerification)
    (hs : eReq.Schema ≠ "2.0") (hu : eReq.EventHeaderV1.UUID ≠ "")
    (htok : eReq.EventHeaderV1.Token = a.verificationToken)
    (hl : a.eventHandlerV1.lookup eReq.EventHeaderV1.Type_ = some handler) :
    a.ListenEventCallback env (.ok bytes)
      = { effects := [.goHandlerV1 handler eReq.EventHeaderV1 eReq.Event, .writeHeader 200,
            .bodyClose],
          out := .returned () } := by
  have hd := (dispatchEvent_v1 a env a.eventOpt eReq buf hty hs hu htok).1 handler hl
  rw [ListenEventCallback_no_error a env bytes eReq buf hdec (by rw [hd]), hd]
  rfl

/-- A v1 envelope with the configured token, no header block and no handler
registered for its type: the call panics and writes no status. -/
theorem listenEvent_v1_unregistered (a : app) (env : EventEnv) (bytes : Bytes)
    (eReq : eventRequest) (buf : Bytes)
    (hdec : (a.decodeEvent env a.eventOpt bytes).out = .ok (eReq, buf))
    (hty : eReq.EventHeaderV1.Type_ ≠ EventTypeURLVerification)
    (hs : eReq.Schema ≠ "2.0") (hu : eReq.EventHeaderV1.UUID ≠ "")
    (htok : eReq.EventHeaderV1.Token = a.verificationToken)
    (hl : a.eventHandlerV1.lookup eReq.EventHeaderV1.Type_ = none)
    (hh : eReq.Header = none) :
    a.ListenEventCallback env (.ok bytes)
      = { effects := [.bodyClose], out := .panicked nilDereference } := by
  have hd := (dispatchEvent_v1 a env a.eventOpt eReq buf hty hs hu htok).2 hl hh
  rw [ListenEventCallback_decoded a env bytes eReq buf hdec, hd]
  rfl

/-- C15 fails on the code: a v1 envelope (uuid `u-1`, type `message`, schema
empty, no header block) whose token is the configured one, sent to an app
with no v1 handler for `message`, makes `ListenEventCallback` panic with a nil
dereference; no status is written. -/
theorem listenEvent_v1_unregistered_panics :
    (exampleEnvelopeV1 "").EventHeaderV1.UUID ≠ "" ∧
    (exampleEnvelopeV1 "").EventHeaderV1.Type_ ≠ EventTypeURLVerification ∧
    (exampleEnvelopeV1 "").Schema ≠ "2.0" ∧
    (exampleEnvelopeV1 "").Header = none ∧
    (exampleEnvelopeV1 "").EventHeaderV1.Token = exampleEventApp.verificationToken ∧
    exampleEventApp.eventHandlerV1.lookup (exampleEnvelopeV1 "").EventHeaderV1.Type_ = none ∧
    (exampleEventApp.ListenEventCallback
        (exampleEventEnv (exampleEvents (exampleEnvelopeV1 "")) exampleNoVerification)
        (.ok [braceOpen, braceClose])).out = .panicked nilDereference ∧
    statusWritten (exampleEventApp.ListenEventCallback
        (exampleEventEnv (exampleEvents (exampleEnvelopeV1 "")) exampleNoVerification)
        (.ok [braceOpen, braceClose])).effects = [] := by
  refine ⟨by decide, by decide, by decide, by rfl, by rfl, by rfl, by rfl, by rfl⟩

/-! ### The webhook: which handlers can start -/

/-- Where no handler is started, no v1 handler is started. -/
theorem goHandlerV1_not_mem_of_handlerCalls (effects : List Effect)
    (h0 : handlerCalls effects = []) (h : EventHandlerV1) (hd : EventHeaderV1) (ev : Bytes) :
    Effect.goHandlerV1 h hd ev ∉ effects := by
  intro hmem
  have : Effect.goHandlerV1 h hd ev ∈ handlerCalls effects := by
    unfold handlerCalls
    exact List.mem_filter.mpr ⟨hmem, rfl⟩
  rw [h0] at this
  cases this

/-- Where no handler is started, no v2 handler is started. -/
theorem goHandler_not_mem_of_handlerCalls (effects : List Effect)
    (h0 : handlerCalls effects = []) (h : EventHandler) (hd : EventHeaderV2) (ev : Bytes) :
    Effect.goHandler h hd ev ∉ effects := by
  intro hmem
  have : Effect.goHandler h hd ev ∈ handlerCalls effects := by
    unfold handlerCalls
    exact List.mem_filter.mpr ⟨hmem, rfl⟩
  rw [h0] at this
  cases this

/-- An envelope of schema 2.0 without header block: the branch logs and
returns. -/
theorem dispatchEvent_v2_no_header (a : app) (env : EventEnv) (opt : _doOpt)
    (eReq : eventRequest) (buf : Bytes)
    (hty : eReq.EventHeaderV1.Type_ ≠ EventTypeURLVerification) (hs : eReq.Schema = "2.0")
    (hh : eReq.Header = none) :
    a.dispatchEvent env opt eReq buf
      = { effects := opt.debugLog (eventLogHead opt ++ "get event(2.0), but header is nil\n"),
          out := .returned none } := by
  unfold app.dispatchEvent
  simp [hty, hs, hh]

/-- A v2 handler starts only in the branch of schema 2.0, for the header of
the envelope, after its token was found equal to the configured one and the
handler was found in the registry under the event type of the header. -/
theorem dispatchEvent_goHandler (a : app) (env : EventEnv) (opt : _doOpt)
    (eReq : eventRequest) (buf : Bytes) (h : EventHandler) (hd : EventHeaderV2) (ev : Bytes)
    (hmem : Effect.goHandler h hd ev ∈ (a.dispatchEvent env opt eReq buf).effects) :
    eReq.EventHeaderV1.Type_ ≠ EventTypeURLVerification ∧ eReq.Schema = "2.0" ∧
    eReq.Header = some hd ∧ hd.Token = a.verificationToken ∧
    a.eventHandler.lookup hd.EventType = some h ∧ ev = eReq.Event := by
  by_cases hty : eReq.EventHeaderV1.Type_ = EventTypeURLVerification
  · exact absurd hmem (goHandler_not_mem_of_handlerCalls _
      (dispatchEvent_ping a env opt eReq buf hty).2.1 h hd ev)
  · by_cases hs : eReq.Schema = "2.0"
    · cases hh : eReq.Header with
      | none =>
        rw [dispatchEvent_v2_no_header a env opt eReq buf hty hs hh] at hmem
        exact absurd hmem (goHandler_not_mem_debugLog _ _ _ _ _)
      | some header =>
        by_cases htok : header.Token = a.verificationToken
        · obtain ⟨_, _, hreg, hnone⟩ := dispatchEvent_v2 a env opt eReq buf header hty hs hh htok
          cases hl : a.eventHandler.lookup header.EventType with
          | none =>
            exact absurd hmem (goHandler_not_mem_of_handlerCalls _ (hnone hl) h hd ev)
          | some handler =>
            rw [hreg handler hl] at hmem
            simp only [List.mem_cons, Effect.goHandler.injEq, reduceCtorEq, List.mem_singleton,
              List.not_mem_nil, or_false] at hmem
            obtain ⟨h1, h2, h3⟩ := hmem
            subst h1 h2 h3
            exact ⟨hty, hs, rfl, htok, hl, rfl⟩
        · rw [dispatchEvent_v2_mismatch a env opt eReq buf header hty hs hh htok] at hmem
          exact absurd hmem (goHandler_not_mem_debugLog _ _ _ _ _)
    · unfold app.dispatchEvent at hmem
      simp only [beq_iff_eq, hty, if_false, hs] at hmem
      split at hmem
      · split at hmem
        · exact absurd hmem (goHandler_not_mem_debugLog _ _ _ _ _)
        · split at hmem
          · simp at hmem
          · split at hmem
            · simp at hmem
            · simp [goHandler_not_mem_debugLog] at hmem
      · simp at hmem

/-- A v1 handler starts only in the v1 branch, for the v1 header of the
envelope, after its token was found equal to the configured one and the
handler was found in the v1 registry under the type of the envelope. -/
theorem dispatchEvent_goHandlerV1 (a : app) (env : EventEnv) (opt : _doOpt)
    (eReq : eventRequest) (buf : Bytes) (h : EventHandlerV1) (hd : EventHeaderV1) (ev : Bytes)
    (hmem : Effect.goHandlerV1 h hd ev ∈ (a.dispatchEvent env opt eReq buf).effects) :
    eReq.EventHeaderV1.Type_ ≠ EventTypeURLVerification ∧ eReq.Schema ≠ "2.0" ∧
    eReq.EventHeaderV1.UUID ≠ "" ∧ hd = eReq.EventHeaderV1 ∧
    hd.Token = a.verificationToken ∧
    a.eventHandlerV1.lookup hd.Type_ = some h ∧ ev = eReq.Event := by
  by_cases hty : eReq.EventHeaderV1.Type_ = EventTypeURLVerification
  · exact absurd hmem (goHandlerV1_not_mem_of_handlerCalls _
      (dispatchEvent_ping a env opt eReq buf hty).2.1 h hd ev)
  · by_cases hs : eReq.Schema = "2.0"
    · exact absurd hmem (dispatchEvent_v2_no_v1 a env opt eReq buf hty hs h hd ev)
    · by_cases hu : eReq.EventHeaderV1.UUID = ""
      · rw [dispatchEvent_no_match a env opt eReq buf hty hs hu] at hmem
        cases hmem
      · by_cases htok : eReq.EventHeaderV1.Token = a.verificationToken
        · cases hl : a.eventHandlerV1.lookup eReq.EventHeaderV1.Type_ with
          | some handler =>
            rw [(dispatchEvent_v1 a env opt eReq buf hty hs hu htok).1 handler hl] at hmem
            simp only [List.mem_cons, Effect.goHandlerV1.injEq, reduceCtorEq,
              List.mem_singleton, List.not_mem_nil, or_false] at hmem
            obtain ⟨h1, h2, h3⟩ := hmem
            subst h1 h2 h3
            exact ⟨hty, hs, hu, rfl, htok, hl, rfl⟩
          | none =>
            unfold app.dispatchEvent at hmem
            simp only [beq_iff_eq, hty, if_false, hs, bne_iff_ne, ne_eq, hu, not_false_eq_true,
              if_true, htok, not_true_eq_false, hl] at hmem
            split at hmem
            · cases hmem
            · simp [goHandlerV1_not_mem_debugLog] at hmem
        · rw [dispatchEvent_v1_mismatch a env opt eReq buf hty hs hu htok] at hmem
          exact absurd hmem (goHandlerV1_not_mem_debugLog _ _ _ _ _)

/-- C16, as amended: an envelope of schema 2.0 that is no ping is always
classified as v2. Without header block the call logs that the header is nil,
closes the request body and returns: no handler is started, whatever the
uuid, the token and the v1 registry, and no status is written. A v1 handler
is started only for an envelope whose schema is not 2.0. -/
theorem listenEvent_v2_without_header (a : app) (env : EventEnv) (bytes : Bytes)
    (eReq : eventRequest) (buf : Bytes)
    (hdec : (a.decodeEvent env a.eventOpt bytes).out = .ok (eReq, buf)) :
    (eReq.EventHeaderV1.Type_ ≠ EventTypeURLVerification → eReq.Schema = "2.0" →
      eReq.Header = none →
      a.ListenEventCallback env (.ok bytes)
        = { effects := a.eventOpt.debugLog (eventLogHead a.eventOpt
              ++ "get event(2.0), but header is nil\n") ++ [.bodyClose],
            out := .returned () } ∧
      handlerCalls (a.ListenEventCallback env (.ok bytes)).effects = [] ∧
      statusWritten (a.ListenEventCallback env (.ok bytes)).effects = []) ∧
    (∀ h hd ev, Effect.goHandlerV1 h hd ev ∈ (a.ListenEventCallback env (.ok bytes)).effects →
      eReq.Schema ≠ "2.0") := by
  constructor
  · intro hty hs hh
    have hd := dispatchEvent_v2_no_header a env a.eventOpt eReq buf hty hs hh
    have hL := ListenEventCallback_no_error a env bytes eReq buf hdec (by rw [hd])
    rw [hd] at hL
    refine ⟨hL, ?_, ?_⟩
    · rw [hL, handlerCalls_append, handlerCalls_debugLog]
      rfl
    · rw [hL, statusWritten_append, statusWritten_debugLog]
      rfl
  · intro h hd ev hmem
    rcases ListenEventCallback_mem a env bytes eReq buf hdec _ hmem with h1 | h1 | h1
    · exact (dispatchEvent_goHandlerV1 a env a.eventOpt eReq buf h hd ev h1).2.1
    · cases h1
    · cases h1

/-- C16, as amended, at a concrete envelope of schema 2.0 without header
block. -/
theorem listenEvent_v2_without_header_witness :
    handlerCalls ((exampleEventApp.RegisterEventCallbackV1 "message"
        { name := "h1" }).ListenEventCallback
      (exampleEventEnv (exampleEvents (exampleEnvelopeV1 "2.0")) exampleNoVerification)
      (.ok [braceOpen, braceClose])).effects = [] :=
  ((listenEvent_v2_without_header
    (exampleEventApp.RegisterEventCallbackV1 "message" { name := "h1" })
    (exampleEventEnv (exampleEvents (exampleEnvelopeV1 "2.0")) exampleNoVerification)
    [braceOpen, braceClose] (exampleEnvelopeV1 "2.0") [braceOpen, braceClose] (by rfl)).1
    (by decide) (by rfl) (by rfl)).2.1

/-- C16 as stated fails: an envelope with schema 2.0, no header block, the
uuid `u-1` and the configured token, sent to an app with a v1 handler
registered for its type, starts no handler; the same envelope with an empty
schema starts that handler. -/
theorem listenEvent_v2_without_header_counterexample :
    (exampleEnvelopeV1 "2.0").Schema = "2.0" ∧
    (exampleEnvelopeV1 "2.0").Header = none ∧
    (exampleEnvelopeV1 "2.0").EventHeaderV1.UUID ≠ "" ∧
    (exampleEnvelopeV1 "2.0").EventHeaderV1.Token = exampleEventApp.verificationToken ∧
    (exampleEventApp.RegisterEventCallbackV1 "message" { name := "h1" }).eventHandlerV1.lookup
      (exampleEnvelopeV1 "2.0").EventHeaderV1.Type_ = some { name := "h1" } ∧
    handlerCalls ((exampleEventApp.RegisterEventCallbackV1 "message"
        { name := "h1" }).ListenEventCallback
      (exampleEventEnv (exampleEvents (exampleEnvelopeV1 "2.0")) exampleNoVerification)
      (.ok [braceOpen, braceClose])).effects = [] ∧
    handlerCalls ((exampleEventApp.RegisterEventCallbackV1 "message"
        { name := "h1" }).ListenEventCallback
      (exampleEventEnv (exampleEvents (exampleEnvelopeV1 "")) exampleNoVerification)
      (.ok [braceOpen, braceClose])).effects
      = [.goHandlerV1 { name := "h1" } (exampleEnvelopeV1 "").EventHeaderV1
          (exampleEnvelopeV1 "").Event] := by
  refine ⟨by rfl, by rfl, by decide, by rfl, by rfl, by rfl, by rfl⟩

/-- A log line is no start of a handler. -/
theorem isHandlerCall_of_mem_debugLog (opt : _doOpt) (msg : String) (e : Effect)
    (h : e ∈ opt.debugLog msg) : e.isHandlerCall = false := by
  rcases debugLog_cases opt msg with h1 | ⟨l, line, h1⟩
  · rw [h1] at h
    cases h
  · rw [h1] at h
    simp only [List.mem_singleton] at h
    subst h
    rfl

/-- The effects of decoding and decrypting the body are at most one log
line. -/
theorem decodeEvent_effects (a : app) (env : EventEnv) (opt : _doOpt) (bytes : Bytes) :
    (a.decodeEvent env opt bytes).effects = [] ∨
      ∃ msg, (a.decodeEvent env opt bytes).effects = opt.debugLog msg := by
  unfold app.decodeEvent
  split
  · exact Or.inr ⟨_, rfl⟩
  · split
    · split
      · exact Or.inl rfl
      · exact Or.inr ⟨_, rfl⟩
      · exact Or.inl rfl
    · exact Or.inl rfl

/-- A handler started by `ListenEventCallback` is started by the `switch`
statement, on the envelope decoded from the body. -/
theorem ListenEventCallback_handler_origin (a : app) (env : EventEnv)
    (body : Except GoError Bytes) (e : Effect) (hc : e.isHandlerCall = true)
    (hmem : e ∈ (a.ListenEventCallback env body).effects) :
    ∃ bytes eReq buf, body = .ok bytes ∧
      (a.decodeEvent env a.eventOpt bytes).out = .ok (eReq, buf) ∧
      e ∈ (a.dispatchEvent env a.eventOpt eReq buf).effects := by
  cases body with
  | error err =>
    unfold app.ListenEventCallback at hmem
    simp only [List.mem_append, List.mem_singleton] at hmem
    rcases hmem with h | h
    · rw [isHandlerCall_of_mem_debugLog _ _ e h] at hc
      cases hc
    · subst h
      cases hc
  | ok bytes =>
    have hdecEff : ∀ x ∈ (a.decodeEvent env a.eventOpt bytes).effects,
        x.isHandlerCall = false := by
      intro x hx
      rcases decodeEvent_effects a env a.eventOpt bytes with h | ⟨msg, h⟩
      · rw [h] at hx
        cases hx
      · rw [h] at hx
        exact isHandlerCall_of_mem_debugLog _ _ x hx
    cases hout : (a.decodeEvent env a.eventOpt bytes).out with
    | ok val =>
      obtain ⟨eReq, buf⟩ := val
      refine ⟨bytes, eReq, buf, rfl, hout, ?_⟩
      rcases ListenEventCallback_mem a env bytes eReq buf hout e hmem with h | h | h
      · exact h
      · subst h
        cases hc
      · subst h
        cases hc
    | error err =>
      unfold app.ListenEventCallback at hmem
      simp only [hout, List.mem_append, List.mem_cons, List.mem_singleton, List.not_mem_nil,
        or_false] at hmem
      rcases hmem with h | h | h
      · rw [hdecEff e h] at hc
        cases hc
      · subst h
        cases hc
      · subst h
        cases hc
    | panic v =>
      unfold app.ListenEventCallback at hmem
      simp only [hout, List.mem_append, List.mem_singleton] at hmem
      rcases hmem with h | h
      · rw [hdecEff e h] at hc
        cases hc
      · subst h
        cases hc

/-- C17: for every body, configured token and registries, a handler that
`ListenEventCallback` starts gets the header of the envelope decoded from the
body (the header block for v2, the top-level fields for v1), the token of
that header is the configured verification token, and the handler is the one
the registry holds for the type of the header; when the token of the
classified envelope is not the configured one, no handler is started. -/
theorem listenEvent_token_checked (a : app) (env : EventEnv) (body : Except GoError Bytes) :
    (∀ h hd ev, Effect.goHandler h hd ev ∈ (a.ListenEventCallback env body).effects →
      hd.Token = a.verificationToken ∧
      ∃ bytes eReq buf, body = .ok bytes ∧
        (a.decodeEvent env a.eventOpt bytes).out = .ok (eReq, buf) ∧
        eReq.Header = some hd ∧ ev = eReq.Event ∧
        a.eventHandler.lookup hd.EventType = some h) ∧
    (∀ h hd ev, Effect.goHandlerV1 h hd ev ∈ (a.ListenEventCallback env body).effects →
      hd.Token = a.verificationToken ∧
      ∃ bytes eReq buf, body = .ok bytes ∧
        (a.decodeEvent env a.eventOpt bytes).out = .ok (eReq, buf) ∧
        hd = eReq.EventHeaderV1 ∧ ev = eReq.Event ∧
        a.eventHandlerV1.lookup hd.Type_ = some h) ∧
    (∀ bytes eReq buf, body = .ok bytes →
      (a.decodeEvent env a.eventOpt bytes).out = .ok (eReq, buf) →
      ((eReq.Schema = "2.0" ∧ ∀ hd, eReq.Header = some hd → hd.Token ≠ a.verificationToken) ∨
       (eReq.Schema ≠ "2.0" ∧ eReq.EventHeaderV1.Token ≠ a.verificationToken)) →
      handlerCalls (a.ListenEventCallback env body).effects = []) := by
  refine ⟨?_, ?_, ?_⟩
  · intro h hd ev hmem
    obtain ⟨bytes, eReq, buf, hb, hdec, hin⟩ :=
      ListenEventCallback_handler_origin a env body (.goHandler h hd ev) rfl hmem
    obtain ⟨_, _, hh, htok, hl, hev⟩ :=
      dispatchEvent_goHandler a env a.eventOpt eReq buf h hd ev hin
    exact ⟨htok, bytes, eReq, buf, hb, hdec, hh, hev, hl⟩
  · intro h hd ev hmem
    obtain ⟨bytes, eReq, buf, hb, hdec, hin⟩ :=
      ListenEventCallback_handler_origin a env body (.goHandlerV1 h hd ev) rfl hmem
    obtain ⟨_, _, _, hh, htok, hl, hev⟩ :=
      dispatchEvent_goHandlerV1 a env a.eventOpt eReq buf h hd ev hin
    exact ⟨htok, bytes, eReq, buf, hb, hdec, hh, hev, hl⟩
  · intro bytes eReq buf hb hdec hmis
    unfold handlerCalls
    rw [List.filter_eq_nil_iff]
    intro e hmem hc
    obtain ⟨bytes1, eReq1, buf1, hb1, hdec1, hin⟩ :=
      ListenEventCallback_handler_origin a env body e hc hmem
    rw [hb] at hb1
    cases hb1
    rw [hdec] at hdec1
    cases hdec1
    cases e with
    | goHandler h hd ev =>
      obtain ⟨_, hs, hh, htok, _, _⟩ :=
        dispatchEvent_goHandler a env a.eventOpt eReq buf h hd ev hin
      rcases hmis with ⟨_, hm⟩ | ⟨hns, _⟩
      · exact hm hd hh htok
      · exact hns hs
    | goHandlerV1 h hd ev =>
      obtain ⟨_, hs, _, hh, htok, _, _⟩ :=
        dispatchEvent_goHandlerV1 a env a.eventOpt eReq buf h hd ev hin
      rcases hmis with ⟨hs2, _⟩ | ⟨_, hm⟩
      · exact hs hs2
      · rw [hh] at htok
        exact hm htok
    | debug l line => cases hc
    | fileOpen n => cases hc
    | fileClose n => cases hc
    | setTimeout c d => cases hc
    | clientDo c r => cases hc
    | writeHeader c => cases hc
    | write bs => cases hc
    | bodyClose => cases hc

/-- C17 at a concrete v2 envelope whose header token is not the configured
one, with a handler registered for its event type. -/
theorem listenEvent_token_checked_witness :
    handlerCalls (((NewCustomApp "cli_a1" "s3cret"
        [WithAppEventVerificationToken "other"]).RegisterEventCallback
          EventTypeMessageReceived { name := "h2" }).ListenEventCallback
      (exampleEventEnv (exampleEvents (exampleEnvelopeV2 "")) exampleNoVerification)
      (.ok [braceOpen, braceClose])).effects = [] :=
  (listenEvent_token_checked
    ((NewCustomApp "cli_a1" "s3cret" [WithAppEventVerificationToken "other"]).RegisterEventCallback
      EventTypeMessageReceived { name := "h2" })
    (exampleEventEnv (exampleEvents (exampleEnvelopeV2 "")) exampleNoVerification)
    (.ok [braceOpen, braceClose])).2.2 [braceOpen, braceClose] (exampleEnvelopeV2 "")
    [braceOpen, braceClose] rfl (by rfl)
    (Or.inl ⟨by rfl, by
      intro hd hh
      have : hd = exampleHeaderV2 := by
        simp only [exampleEnvelopeV2, Option.some.injEq] at hh
        exact hh.symm
      subst this
      decide⟩)

/-! ### Decryption -/

/-- The first index of a byte that is not in the front part of a buffer. -/
theorem IndexByte_append_cons (pre rest : Bytes) (c : UInt8) (hpre : c ∉ pre) :
    IndexByte (pre ++ c :: rest) c = (pre.length : Int) := by
  unfold IndexByte
  have hmem : c ∈ pre ++ c :: rest := by simp
  rw [if_pos hmem, List.indexOf_append_of_not_mem hpre, List.indexOf_cons_self]
  simp

/-- The last index of a byte that is not in the back part of a buffer. -/
theorem LastIndexByte_append_cons (front post : Bytes) (c : UInt8) (hpost : c ∉ post) :
    LastIndexByte (front ++ c :: post) c = (front.length : Int) := by
  unfold LastIndexByte
  have hmem : c ∈ front ++ c :: post := by simp
  have hrev : (front ++ c :: post).reverse = post.reverse ++ c :: front.reverse := by simp
  have hpost2 : c ∉ post.reverse := by simpa using hpost
  rw [if_pos hmem, hrev, List.indexOf_append_of_not_mem hpost2, List.indexOf_cons_self]
  simp only [List.length_append, List.length_cons, List.length_reverse, Nat.add_zero]
  push_cast
  omega

/-- The slice from the first opening brace to the last closing brace. -/
theorem sliceBytes_span (pre mid post : Bytes) (o c : UInt8) :
    sliceBytes (pre ++ o :: (mid ++ c :: post)) (pre.length : Int)
        ((pre.length : Int) + 1 + (mid.length : Int) + 1)
      = some (o :: (mid ++ [c])) := by
  unfold sliceBytes
  have hb : (0 : Int) ≤ pre.length ∧ (pre.length : Int) ≤ pre.length + 1 + mid.length + 1 ∧
      (pre.length : Int) + 1 + mid.length + 1
        ≤ ((pre ++ o :: (mid ++ c :: post)).length : Int) := by
    simp only [List.length_append, List.length_cons]
    push_cast
    omega
  rw [if_pos hb]
  have h1 : ((pre.length : Int) + 1 + (mid.length : Int) + 1).toNat
      = (pre ++ o :: (mid ++ [c])).length := by
    simp only [List.length_append, List.length_cons, List.length_nil]
    omega
  have h2 : pre ++ o :: (mid ++ c :: post) = (pre ++ o :: (mid ++ [c])) ++ post := by simp
  rw [h1, h2, List.take_left']
  · simp
  · rfl

/-- The run of `decrypt` after its checks: with a decoded buffer of at least
16 bytes whose rest is a whole number of blocks and a digest of 32 bytes, the
result is made from the brace scan of the decrypted buffer. -/
theorem decrypt_after_checks (env : EventEnv) (eq : eventRequest) (encryptKey : String)
    (decoded : Bytes)
    (hd : env.base64Decode eq.Encrypt = .ok decoded) (h16 : 16 ≤ decoded.length)
    (hmul : (decoded.length - 16) % 16 = 0)
    (hk : (env.sha256 (stringBytes encryptKey)).length = 32) :
    eq.decrypt env encryptKey
      = (match sliceBytes
            (CryptBlocks env (env.sha256 (stringBytes encryptKey)) (decoded.take 16)
              (decoded.drop 16))
            (if IndexByte (CryptBlocks env (env.sha256 (stringBytes encryptKey))
                  (decoded.take 16) (decoded.drop 16)) braceOpen == -1 then 0
             else IndexByte (CryptBlocks env (env.sha256 (stringBytes encryptKey))
                  (decoded.take 16) (decoded.drop 16)) braceOpen)
            ((if LastIndexByte (CryptBlocks env (env.sha256 (stringBytes encryptKey))
                  (decoded.take 16) (decoded.drop 16)) braceClose == -1 then
                ((CryptBlocks env (env.sha256 (stringBytes encryptKey))
                  (decoded.take 16) (decoded.drop 16)).length : Int) - 1
              else LastIndexByte (CryptBlocks env (env.sha256 (stringBytes encryptKey))
                  (decoded.take 16) (decoded.drop 16)) braceClose) + 1) with
         | none => .panicked sliceOutOfRange
         | some raw =>
           match jsonUnmarshalEvent env raw eq with
           | (eq1, some err) => .returned (eq1, raw, some err)
           | (eq1, none) => .returned (eq1, raw, none)) := by
  have hcipher : aesNewCipherErr (env.sha256 (stringBytes encryptKey)) = none := by
    simp [aesNewCipherErr, hk]
  have hlt : ¬ decoded.length < 16 := by omega
  unfold eventRequest.decrypt
  simp only [hd, hlt, if_false, hcipher, List.length_drop, hmul, bne_self_eq_false,
    Bool.false_eq_true]

/-- The brace scan of a buffer with a first opening brace and a later last
closing brace cuts the buffer from the one to the other. -/
theorem braceScan_span (pre mid post : Bytes) (hpre : braceOpen ∉ pre)
    (hpost : braceClose ∉ post) :
    sliceBytes (pre ++ braceOpen :: (mid ++ braceClose :: post))
        (if IndexByte (pre ++ braceOpen :: (mid ++ braceClose :: post)) braceOpen == -1 then 0
         else IndexByte (pre ++ braceOpen :: (mid ++ braceClose :: post)) braceOpen)
        ((if LastIndexByte (pre ++ braceOpen :: (mid ++ braceClose :: post)) braceClose == -1
          then ((pre ++ braceOpen :: (mid ++ braceClose :: post)).length : Int) - 1
          else LastIndexByte (pre ++ braceOpen :: (mid ++ braceClose :: post)) braceClose) + 1)
      = some (braceOpen :: (mid ++ [braceClose])) := by
  have hleft : IndexByte (pre ++ braceOpen :: (mid ++ braceClose :: post)) braceOpen
      = (pre.length : Int) := IndexByte_append_cons pre _ braceOpen hpre
  have hright : LastIndexByte (pre ++ braceOpen :: (mid ++ braceClose :: post)) braceClose
      = (pre.length : Int) + 1 + (mid.length : Int) := by
    have h2 : pre ++ braceOpen :: (mid ++ braceClose :: post)
        = (pre ++ braceOpen :: mid) ++ braceClose :: post := by simp
    rw [h2, LastIndexByte_append_cons _ post braceClose hpost]
    simp only [List.length_append, List.length_cons]
    push_cast
    ring
  have hl1 : ((pre.length : Int) == -1) = false := by
    simp only [beq_eq_false_iff_ne, ne_eq]
    omega
  have hr1 : ((pre.length : Int) + 1 + (mid.length : Int) == -1) = false := by
    simp only [beq_eq_false_iff_ne, ne_eq]
    omega
  simp only [hleft, hright, hl1, hr1, Bool.false_eq_true, if_false, sliceBytes_span]

/-- The two ends of `decrypt` after a brace scan that gave `raw`. -/
theorem decrypt_result_cases (env : EventEnv) (eq : eventRequest) (raw : Bytes) :
    ∃ eq1 err, (match jsonUnmarshalEvent env raw eq with
      | (eq1, some err) => Ret.returned (eq1, raw, some err)
      | (eq1, none) => Ret.returned (eq1, raw, none)) = .returned (eq1, raw, err) := by
  cases hj : jsonUnmarshalEvent env raw eq with
  | mk eq1 err =>
    cases err with
    | none => exact ⟨eq1, none, rfl⟩
    | some e => exact ⟨eq1, some e, rfl⟩

/-- C19: when the decrypted buffer is `pre`, an opening brace, `mid`, a
closing brace, `post`, with no opening brace in `pre` and no closing brace in
`post` (its first opening brace comes before its last closing brace), the
plaintext that `decrypt` returns is exactly the opening brace, `mid`, the
closing brace: the bytes of `pre` and of `post`, whatever they are, are cut
and the bytes of `mid` are kept as they are. -/
theorem decrypt_brace_span (env : EventEnv) (eq : eventRequest) (encryptKey : String)
    (decoded pre mid post : Bytes)
    (hd : env.base64Decode eq.Encrypt = .ok decoded) (h16 : 16 ≤ decoded.length)
    (hmul : (decoded.length - 16) % 16 = 0)
    (hk : (env.sha256 (stringBytes encryptKey)).length = 32)
    (hplain : CryptBlocks env (env.sha256 (stringBytes encryptKey)) (decoded.take 16)
        (decoded.drop 16) = pre ++ braceOpen :: (mid ++ braceClose :: post))
    (hpre : braceOpen ∉ pre) (hpost : braceClose ∉ post) :
    ∃ eq1 err, eq.decrypt env encryptKey
      = .returned (eq1, braceOpen :: (mid ++ [braceClose]), err) := by
  rw [decrypt_after_checks env eq encryptKey decoded hd h16 hmul hk, hplain,
    braceScan_span pre mid post hpre hpost]
  exact decrypt_result_cases env eq _

/-- C20: round trip. For a secret `s`, an initialization vector of 16 bytes,
a text `P` that begins with an opening brace and ends with a closing brace,
and a padding without closing brace that fills `P` to a whole number of
blocks: when the `encrypt` field is the base64 text of the vector followed by
the CBC encryption of `P` and the padding under the digest of `s` (base64
decoding and CBC decryption undo the encoding and the encryption of these
bytes, and encryption keeps the length), `decrypt` with `s` returns exactly
the bytes of `P`. -/
theorem decrypt_round_trip (env : EventEnv) (enc64 : Bytes → String)
    (cbcEncrypt : Bytes → Bytes → Bytes → Bytes) (s : String) (iv mid pad : Bytes)
    (eq : eventRequest)
    (hiv : iv.length = 16)
    (hpad : braceClose ∉ pad)
    (hblocks : (braceOpen :: (mid ++ braceClose :: pad)).length % 16 = 0)
    (hsha : (env.sha256 (stringBytes s)).length = 32)
    (hlen : (cbcEncrypt (env.sha256 (stringBytes s)) iv
        (braceOpen :: (mid ++ braceClose :: pad))).length
          = (braceOpen :: (mid ++ braceClose :: pad)).length)
    (hcbc : env.cbcDecrypt (env.sha256 (stringBytes s)) iv
        (cbcEncrypt (env.sha256 (stringBytes s)) iv (braceOpen :: (mid ++ braceClose :: pad)))
          = braceOpen :: (mid ++ braceClose :: pad))
    (h64 : env.base64Decode (enc64 (iv ++ cbcEncrypt (env.sha256 (stringBytes s)) iv
        (braceOpen :: (mid ++ braceClose :: pad))))
          = .ok (iv ++ cbcEncrypt (env.sha256 (stringBytes s)) iv
              (braceOpen :: (mid ++ braceClose :: pad))))
    (heq : eq.Encrypt = enc64 (iv ++ cbcEncrypt (env.sha256 (stringBytes s)) iv
        (braceOpen :: (mid ++ braceClose :: pad)))) :
    ∃ eq1 err, eq.decrypt env s = .returned (eq1, braceOpen :: (mid ++ [braceClose]), err) := by
  have hd : env.base64Decode eq.Encrypt
      = .ok (iv ++ cbcEncrypt (env.sha256 (stringBytes s)) iv
          (braceOpen :: (mid ++ braceClose :: pad))) := by
    rw [heq, h64]
  have htake : (iv ++ cbcEncrypt (env.sha256 (stringBytes s)) iv
      (braceOpen :: (mid ++ braceClose :: pad))).take 16 = iv := by
    rw [← hiv, List.take_left']
    rfl
  have hdrop : (iv ++ cbcEncrypt (env.sha256 (stringBytes s)) iv
      (braceOpen :: (mid ++ braceClose :: pad))).drop 16
        = cbcEncrypt (env.sha256 (stringBytes s)) iv
            (braceOpen :: (mid ++ braceClose :: pad)) := by
    rw [← hiv, List.drop_left']
    rfl
  have hne : (cbcEncrypt (env.sha256 (stringBytes s)) iv
      (braceOpen :: (mid ++ braceClose :: pad))).isEmpty = false := by
    cases hc : cbcEncrypt (env.sha256 (stringBytes s)) iv
        (braceOpen :: (mid ++ braceClose :: pad)) with
    | nil =>
      rw [hc] at hlen
      simp at hlen
    | cons b rest => rfl
  have h16 : 16 ≤ (iv ++ cbcEncrypt (env.sha256 (stringBytes s)) iv
      (braceOpen :: (mid ++ braceClose :: pad))).length := by
    rw [List.length_append, hiv]
    omega
  have hmul : ((iv ++ cbcEncrypt (env.sha256 (stringBytes s)) iv
      (braceOpen :: (mid ++ braceClose :: pad))).length - 16) % 16 = 0 := by
    rw [List.length_append, hiv, hlen]
    simpa using hblocks
  rw [decrypt_after_checks env eq s _ hd h16 hmul hsha, htake, hdrop]
  have hplain : CryptBlocks env (env.sha256 (stringBytes s)) iv
      (cbcEncrypt (env.sha256 (stringBytes s)) iv (braceOpen :: (mid ++ braceClose :: pad)))
        = [] ++ braceOpen :: (mid ++ braceClose :: pad) := by
    unfold CryptBlocks
    rw [hne]
    simpa using hcbc
  rw [hplain, braceScan_span [] mid pad (by simp) hpad]
  exact decrypt_result_cases env eq _

/-- The brace scan of an empty buffer gives the empty slice. -/
theorem braceScan_nil :
    sliceBytes ([] : Bytes)
        (if IndexByte ([] : Bytes) braceOpen == -1 then 0 else IndexByte ([] : Bytes) braceOpen)
        ((if LastIndexByte ([] : Bytes) braceClose == -1 then
            ((([] : Bytes).length : Int)) - 1
          else LastIndexByte ([] : Bytes) braceClose) + 1)
      = some [] := by
  decide

/-- An `encrypt` field that is no base64 text, or decodes to fewer than 16
bytes, or whose bytes after the first 16 are not a positive multiple of 16 in
number, makes `decrypt` return an error, whatever the receiver and the key. -/
theorem decrypt_malformed (env : EventEnv) (eq : eventRequest) (encryptKey : String)
    (hbad : (∃ x, env.base64Decode eq.Encrypt = .error x) ∨
      ∃ decoded, env.base64Decode eq.Encrypt = .ok decoded ∧
        (decoded.length < 16 ∨
          ¬ (0 < decoded.length - 16 ∧ (decoded.length - 16) % 16 = 0))) :
    ∃ eq1 raw err, eq.decrypt env encryptKey = .returned (eq1, raw, some err) := by
  rcases hbad with ⟨x, hx⟩ | ⟨decoded, hd, hlen⟩
  · refine ⟨eq, [], x, ?_⟩
    unfold eventRequest.decrypt
    simp only [hx]
  · by_cases h16 : decoded.length < 16
    · refine ⟨eq, [], .errorString "ciphertext too short", ?_⟩
      unfold eventRequest.decrypt
      simp only [hd, h16, if_true]
    · have hrest : ¬ (0 < decoded.length - 16 ∧ (decoded.length - 16) % 16 = 0) := by
        rcases hlen with h | h
        · exact absurd h h16
        · exact h
      cases hc : aesNewCipherErr (env.sha256 (stringBytes encryptKey)) with
      | some err =>
        refine ⟨eq, [], err, ?_⟩
        unfold eventRequest.decrypt
        simp only [hd, h16, if_false, hc]
      | none =>
        by_cases hmul : (decoded.length - 16) % 16 = 0
        · have hzero : decoded.length - 16 = 0 := by
            by_contra hne
            exact hrest ⟨Nat.pos_of_ne_zero hne, hmul⟩
          have hdrop : decoded.drop 16 = [] := by
            apply List.eq_nil_of_length_eq_zero
            rw [List.length_drop, hzero]
          refine ⟨eq, [], jsonUnexpectedEnd, ?_⟩
          unfold eventRequest.decrypt
          simp only [hd, h16, if_false, hc, hdrop, List.length_nil, Nat.zero_mod,
            bne_self_eq_false, Bool.false_eq_true]
          have hcb : CryptBlocks env (env.sha256 (stringBytes encryptKey)) (decoded.take 16) []
              = [] := rfl
          rw [hcb, braceScan_nil]
          rfl
        · refine ⟨eq, [], .errorString "ciphertext is not a multiple of the block size", ?_⟩
          unfold eventRequest.decrypt
          have hb : ((decoded.drop 16).length % 16 != 0) = true := by
            rw [List.length_drop]
            simpa using hmul
          simp only [hd, h16, if_false, hc, hb, if_true]

/-- When decryption returns an error, `ListenEventCallback` logs it, closes
the request body and writes status 500: the `switch` statement is not run. -/
theorem ListenEventCallback_decrypt_error (a : app) (env : EventEnv) (bytes : Bytes)
    (e eq1 : eventRequest) (raw : Bytes) (err : GoError)
    (hev : jsonUnmarshalEvent env bytes eventRequest.zero = (e, none))
    (henc : e.Encrypt ≠ "")
    (hdec : e.decrypt env a.encryptKey = .returned (eq1, raw, some err)) :
    a.ListenEventCallback env (.ok bytes)
      = { effects := a.eventOpt.debugLog (eventLogHead a.eventOpt ++ "decrypt event: "
            ++ err.Error ++ "\n") ++ [.bodyClose, .writeHeader 500],
          out := .returned () } := by
  have hne : (e.Encrypt != "") = true := by simpa using henc
  have hr : a.decodeEvent env a.eventOpt bytes
      = { effects := a.eventOpt.debugLog (eventLogHead a.eventOpt ++ "decrypt event: "
            ++ err.Error ++ "\n"),
          out := .error err } := by
    unfold app.decodeEvent
    simp only [hev, hne, if_true, hdec]
  unfold app.ListenEventCallback
  simp only [hr]

/-- C18: when the decoded envelope has an `encrypt` field that is no base64
text, or decodes to fewer than 16 bytes, or whose bytes after the 16 bytes of
the initialization vector are not a positive multiple of 16 in number (a
decoded length of exactly 16 included), `decrypt` returns an error and
`ListenEventCallback` only logs it, closes the request body and writes status
500: no handler is started, no body is written and the `switch` statement is
not reached. -/
theorem decrypt_rejects_malformed (a : app) (env : EventEnv) (bytes : Bytes)
    (e : eventRequest)
    (hev : jsonUnmarshalEvent env bytes eventRequest.zero = (e, none))
    (henc : e.Encrypt ≠ "")
    (hbad : (∃ x, env.base64Decode e.Encrypt = .error x) ∨
      ∃ decoded, env.base64Decode e.Encrypt = .ok decoded ∧
        (decoded.length < 16 ∨
          ¬ (0 < decoded.length - 16 ∧ (decoded.length - 16) % 16 = 0))) :
    ∃ eq1 raw err, e.decrypt env a.encryptKey = .returned (eq1, raw, some err) ∧
      a.ListenEventCallback env (.ok bytes)
        = { effects := a.eventOpt.debugLog (eventLogHead a.eventOpt ++ "decrypt event: "
              ++ err.Error ++ "\n") ++ [.bodyClose, .writeHeader 500],
            out := .returned () } ∧
      handlerCalls (a.ListenEventCallback env (.ok bytes)).effects = [] ∧
      responseBody (a.ListenEventCallback env (.ok bytes)).effects = [] ∧
      statusWritten (a.ListenEventCallback env (.ok bytes)).effects = [500] := by
  obtain ⟨eq1, raw, err, hdec⟩ := decrypt_malformed env e a.encryptKey hbad
  have hL := ListenEventCallback_decrypt_error a env bytes e eq1 raw err hev henc hdec
  refine ⟨eq1, raw, err, hdec, hL, ?_, ?_, ?_⟩
  · rw [hL, handlerCalls_append, handlerCalls_debugLog]
    rfl
  · rw [hL, responseBody_append, responseBody_debugLog]
    rfl
  · rw [hL, statusWritten_append, statusWritten_debugLog]
    rfl

/-- C18 at a concrete envelope whose `encrypt` field decodes to exactly 16
bytes, sent to an app with a v1 handler. -/
theorem decrypt_rejects_malformed_witness :
    ∃ eq1 raw err,
      (exampleEncrypted "0123456789abcdef").decrypt
          (exampleEventEnv (exampleEvents (exampleEncrypted "0123456789abcdef"))
            exampleNoVerification)
          (exampleEventApp.RegisterEventCallbackV1 "message" { name := "h1" }).encryptKey
        = .returned (eq1, raw, some err) ∧
      (exampleEventApp.RegisterEventCallbackV1 "message" { name := "h1" }).ListenEventCallback
          (exampleEventEnv (exampleEvents (exampleEncrypted "0123456789abcdef"))
            exampleNoVerification) (.ok [braceOpen, braceClose])
        = { effects := (exampleEventApp.RegisterEventCallbackV1 "message"
                { name := "h1" }).eventOpt.debugLog
              (eventLogHead (exampleEventApp.RegisterEventCallbackV1 "message"
                { name := "h1" }).eventOpt ++ "decrypt event: " ++ err.Error ++ "\n")
              ++ [.bodyClose, .writeHeader 500],
            out := .returned () } ∧
      handlerCalls ((exampleEventApp.RegisterEventCallbackV1 "message"
          { name := "h1" }).ListenEventCallback
        (exampleEventEnv (exampleEvents (exampleEncrypted "0123456789abcdef"))
          exampleNoVerification) (.ok [braceOpen, braceClose])).effects = [] ∧
      responseBody ((exampleEventApp.RegisterEventCallbackV1 "message"
          { name := "h1" }).ListenEventCallback
        (exampleEventEnv (exampleEvents (exampleEncrypted "0123456789abcdef"))
          exampleNoVerification) (.ok [braceOpen, braceClose])).effects = [] ∧
      statusWritten ((exampleEventApp.RegisterEventCallbackV1 "message"
          { name := "h1" }).ListenEventCallback
        (exampleEventEnv (exampleEvents (exampleEncrypted "0123456789abcdef"))
          exampleNoVerification) (.ok [braceOpen, braceClose])).effects = [500] :=
  decrypt_rejects_malformed
    (exampleEventApp.RegisterEventCallbackV1 "message" { name := "h1" })
    (exampleEventEnv (exampleEvents (exampleEncrypted "0123456789abcdef"))
      exampleNoVerification)
    [braceOpen, braceClose] (exampleEncrypted "0123456789abcdef") (by rfl) (by decide)
    (Or.inr ⟨stringBytes "0123456789abcdef", by rfl, Or.inr (by decide)⟩)

/-- C19 at a concrete buffer: the bytes after the initialization vector
decrypt to `mlkjihgfedcba`, an opening brace, `x`, a closing brace. -/
theorem decrypt_brace_span_witness :
    ∃ eq1 err,
      (exampleEncrypted "0123456789abcdef\x7dx\x7babcdefghijklm").decrypt
          (exampleEventEnv (exampleEvents examplePing) exampleNoVerification) "key-1"
        = .returned (eq1, braceOpen :: ([120] ++ [braceClose]), err) :=
  decrypt_brace_span (exampleEventEnv (exampleEvents examplePing) exampleNoVerification)
    (exampleEncrypted "0123456789abcdef\x7dx\x7babcdefghijklm") "key-1"
    (stringBytes "0123456789abcdef\x7dx\x7babcdefghijklm") (stringBytes "mlkjihgfedcba") [120] []
    (by rfl) (by decide) (by decide) (by decide) (by decide) (by decide) (by decide)

/-- C20 at a concrete text: `P` is an opening brace, `x`, a closing brace,
filled to one block with the thirteen bytes of `abcdefghijklm`. -/
theorem decrypt_round_trip_witness :
    ∃ eq1 err,
      (exampleEncrypted (exampleEnc64 (stringBytes "0123456789abcdef"
          ++ exampleCbcEncrypt
              ((exampleEventEnv (exampleEvents examplePing) exampleNoVerification).sha256
                (stringBytes "key-1"))
              (stringBytes "0123456789abcdef")
              (braceOpen :: ([120] ++ braceClose :: stringBytes "abcdefghijklm"))))).decrypt
          (exampleEventEnv (exampleEvents examplePing) exampleNoVerification) "key-1"
        = .returned (eq1, braceOpen :: ([120] ++ [braceClose]), err) :=
  decrypt_round_trip (exampleEventEnv (exampleEvents examplePing) exampleNoVerification)
    exampleEnc64 exampleCbcEncrypt "key-1" (stringBytes "0123456789abcdef") [120]
    (stringBytes "abcdefghijklm") _
    (by decide) (by decide) (by decide) (by decide) (by decide) (by decide) (by rfl)
    (by rfl)

/-! ### The message builders -/

/-- C28: for every integer `w`, the option built by
`WithCardElementImageCustomWidth(w)` has the key `custom_width` and an `int`
value in the documented range 278 to 580: `w` itself when it lies in the
range, 278 when `w` is below it and 580 when `w` is above it. -/
theorem customWidth_clamped (w : Int) :
    (WithCardElementImageCustomWidth w).1 = "custom_width" ∧
    ∃ v : Int, (WithCardElementImageCustomWidth w).2 = .int v ∧ 278 ≤ v ∧ v ≤ 580 ∧
      (278 ≤ w → w ≤ 580 → v = w) ∧ (w < 278 → v = 278) ∧ (580 < w → v = 580) := by
  unfold WithCardElementImageCustomWidth
  refine ⟨rfl, _, rfl, ?_⟩
  dsimp only
  split_ifs <;> omega

/-- C28 at widths below, inside and above the range. -/
theorem customWidth_clamped_witness :
    WithCardElementImageCustomWidth 100 = ("custom_width", .int 278) ∧
    WithCardElementImageCustomWidth 300 = ("custom_width", .int 300) ∧
    WithCardElementImageCustomWidth 1000 = ("custom_width", .int 580) ∧
    ∃ v : Int, (WithCardElementImageCustomWidth 100).2 = .int v ∧ v = 278 := by
  refine ⟨by decide, by decide, by decide, ?_⟩
  obtain ⟨v, hv, _, _, _, hlow, _⟩ := (customWidth_clamped 100).2
  exact ⟨v, hv, hlow (by decide)⟩

/-- The loop of `WithPost`, started with finished paragraphs that keep every
image alone and with a paragraph being filled that holds no image: it returns,
its paragraphs are the finished ones, then the rest cut at the images, and
every image is alone in its paragraph. -/
theorem postLoop_spec (rest : List postElement) (qs0 : List (List postElement))
    (q0 : List postElement)
    (hq0 : ∀ x ∈ q0, x.isImage = false)
    (hqs0 : ∀ q ∈ qs0, ∀ x ∈ q, x.isImage = true → q = [x]) :
    ∃ qs : List (List postElement),
      postLoop (rest.map some) (qs0.map (List.map postElement.elem))
          (q0.map postElement.elem)
        = .returned (qs.map (List.map postElement.elem)) ∧
      qs.flatten = qs0.flatten ++ q0 ++ rest ∧
      ∀ q ∈ qs, ∀ x ∈ q, x.isImage = true → q = [x] := by
  induction rest generalizing qs0 q0 with
  | nil =>
    refine ⟨qs0 ++ [q0], ?_, ?_, ?_⟩
    · simp [postLoop]
    · simp
    · intro q hq x hx himg
      rcases List.mem_append.mp hq with h | h
      · exact hqs0 q h x hx himg
      · rw [List.mem_singleton] at h
        subst h
        rw [hq0 x hx] at himg
        cases himg
  | cons e rest ih =>
    cases himg : e.isImage with
    | true =>
      obtain ⟨qs, h1, h2, h3⟩ := ih (qs0 ++ [q0, [e]]) [] (by simp) (by
        intro q hq x hx hx2
        rcases List.mem_append.mp hq with h | h
        · exact hqs0 q h x hx hx2
        · simp only [List.mem_cons, List.mem_singleton, List.not_mem_nil, or_false] at h
          rcases h with h | h
          · subst h
            rw [hq0 x hx] at hx2
            cases hx2
          · subst h
            simp only [List.mem_singleton] at hx
            rw [hx])
      refine ⟨qs, ?_, ?_, h3⟩
      · simp only [List.map_cons, postLoop, himg, if_true]
        simpa using h1
      · rw [h2]
        simp
    | false =>
      obtain ⟨qs, h1, h2, h3⟩ := ih qs0 (q0 ++ [e]) (by
        intro x hx
        rcases List.mem_append.mp hx with h | h
        · exact hq0 x h
        · rw [List.mem_singleton] at h
          rw [h, himg]) hqs0
      refine ⟨qs, ?_, ?_, h3⟩
      · simp only [List.map_cons, postLoop, himg, Bool.false_eq_true, if_false]
        simpa using h1
      · rw [h2]
        simp

/-- The loop of `WithPost` panics when a nil element is among those still to
come. -/
theorem postLoop_nil (rest : List PostElement) (es : List (List GoObject)) (p : List GoObject)
    (h : none ∈ rest) : postLoop rest es p = .panicked nilDereference := by
  induction rest generalizing es p with
  | nil => cases h
  | cons e rest ih =>
    cases e with
    | none => rfl
    | some elem =>
      have h1 : none ∈ rest := by
        rcases List.mem_cons.mp h with h | h
        · cases h
        · exact h
      unfold postLoop
      split <;> exact ih _ _ h1

/-- C27: for every language, title and sequence of post elements, `WithPost`
returns a post with that language and title whose paragraphs are the sequence
of elements cut into consecutive groups, nothing lost and the order kept, and
every group that holds an image element is that image alone: an image is in a
paragraph of its own and no other element shares a paragraph with an image.
(A nil function among the elements makes the call of the post panic, so that
no paragraph is built.) -/
theorem withPost_images_alone (lang title : String) (elements : List postElement)
    (withNil : List PostElement) :
    (∃ qs : List (List postElement),
      WithPost lang title (elements.map some)
        = .returned { lang := lang, title := title,
                      elements := qs.map (List.map postElement.elem) } ∧
      qs.flatten = elements ∧
      ∀ q ∈ qs, ∀ x ∈ q, x.isImage = true → q = [x]) ∧
    (none ∈ withNil → WithPost lang title withNil = .panicked nilDereference) := by
  constructor
  · obtain ⟨qs, h1, h2, h3⟩ := postLoop_spec elements [] [] (by simp) (by simp)
    refine ⟨qs, ?_, by simpa using h2, h3⟩
    unfold WithPost
    simp only [List.map_nil] at h1
    rw [h1]
  · intro h
    unfold WithPost
    rw [postLoop_nil withNil [] [] h]

/-- C27 at three elements, the second an image, and at a nil element. -/
theorem withPost_images_alone_witness :
    (∃ qs : List (List postElement),
      WithPost "zh_cn" "title"
          ([({ elem := ∅, isImage := false } : postElement), { elem := ∅, isImage := true },
            { elem := ∅, isImage := false }].map some)
        = .returned { lang := "zh_cn", title := "title",
                      elements := qs.map (List.map postElement.elem) } ∧
      qs.flatten = [({ elem := ∅, isImage := false } : postElement),
        { elem := ∅, isImage := true }, { elem := ∅, isImage := false }] ∧
      ∀ q ∈ qs, ∀ x ∈ q, x.isImage = true → q = [x]) ∧
    WithPost "zh_cn" "title" [WithPostElementImage "img_1", none] = .panicked nilDereference :=
  ⟨(withPost_images_alone "zh_cn" "title" _ []).1,
   (withPost_images_alone "zh_cn" "title" [] [WithPostElementImage "img_1", none]).2
     (by simp)⟩

/-- The post of the test `Test_app_SendMessage`: text, link, image, text,
mention of all, text, mention, image. Each image is a paragraph of its own,
and the paragraph being filled at the end, here empty, is kept. -/
theorem withPost_example :
    WithPost "zh_cn" "title"
      [WithPostElementText "first line" [], WithPostElementLink "link" "https://www.feishu.cn",
       WithPostElementImage "img_1", WithPostElementText "\n" [], WithPostElementMentionAll,
       WithPostElementText "+" [], WithPostElementMentionByOpenID "ou_1" [],
       WithPostElementImage "img_2"]
    = .returned
        { lang := "zh_cn", title := "title",
          elements :=
            [[((∅ : GoObject).insert "tag" (.str "text")).insert "text" (.str "first line"),
              (((∅ : GoObject).insert "tag" (.str "a")).insert "text" (.str "link")).insert
                "href" (.str "https://www.feishu.cn")],
             [((∅ : GoObject).insert "tag" (.str "img")).insert "image_key" (.str "img_1")],
             [((∅ : GoObject).insert "tag" (.str "text")).insert "text" (.str "\n"),
              ((∅ : GoObject).insert "tag" (.str "at")).insert "user_id" (.str "all"),
              ((∅ : GoObject).insert "tag" (.str "text")).insert "text" (.str "+"),
              ((∅ : GoObject).insert "tag" (.str "at")).insert "user_id" (.str "ou_1")],
             [((∅ : GoObject).insert "tag" (.str "img")).insert "image_key" (.str "img_2")],
             []] } := by
  rfl

/-- When the first character that is no ASCII white space is below
`utf8.RuneSelf`, or there is none, `trimPrefixSpace` cuts the leading ASCII
white space and nothing else. -/
theorem trimPrefixSpaceFrom_ascii (l : List Char)
    (h : ∀ c, (l.dropWhile (fun c => asciiSpace c.toNat != 0)).head? = some c →
      c.toNat < RuneSelf) :
    trimPrefixSpaceFrom l = l.dropWhile (fun c => asciiSpace c.toNat != 0) := by
  induction l with
  | nil => rfl
  | cons c rest ih =>
    unfold trimPrefixSpaceFrom
    by_cases hsp : asciiSpace c.toNat = 0
    · have hdrop : (c :: rest).dropWhile (fun c => asciiSpace c.toNat != 0) = c :: rest := by
        simp [List.dropWhile, hsp]
      have hc : c.toNat < RuneSelf := h c (by rw [hdrop]; rfl)
      have hnot : ¬ c.toNat ≥ RuneSelf := by omega
      rw [if_neg hnot, hdrop]
      simp [hsp]
    · have hdrop : (c :: rest).dropWhile (fun c => asciiSpace c.toNat != 0)
          = rest.dropWhile (fun c => asciiSpace c.toNat != 0) :=
        List.dropWhile_cons_of_pos (by simp [hsp])
      have hc : c.toNat < RuneSelf := by
        unfold asciiSpace at hsp
        unfold RuneSelf
        split_ifs at hsp with h6
        · omega
        · exact absurd rfl hsp
      have hnot : ¬ c.toNat ≥ RuneSelf := by omega
      rw [if_neg hnot, hdrop]
      have hne : (asciiSpace c.toNat == 0) = false := by simpa using hsp
      simp only [hne, Bool.false_eq_true, if_false]
      exact ih (by rw [hdrop] at h; exact h)

/-- C30 fails on the code: a title whose first byte is not below
`utf8.RuneSelf` is handed to `strings.TrimFunc`, which cuts white space at
both ends: the trailing space of the title is lost, the result is no suffix of
the title, and the Markdown title option carries the shortened text; the title
of the test, whose first character after the spaces is `*`, keeps its
trailing space. -/
theorem trimPrefixSpace_cuts_trailing_space :
    trimPrefixSpace "图片 标题 " = "图片 标题" ∧
    ¬ (trimPrefixSpace "图片 标题 ").data <:+ "图片 标题 ".data ∧
    WithCardElementImageTitle "图片 标题 " [true]
      = ("title", .object (((∅ : GoMap).insert "tag" "lark_md").insert "content" "图片 标题")) ∧
    trimPrefixSpace "    *图片标题* " = "*图片标题* " := by
  refine ⟨by decide, by decide, by rfl, by decide⟩

/-! ### The next page of the group list -/

/-- The option `withDoQuery`, applied: only the query and the map it refers to
change, and the entries are those the given map holds now over those that were
there. -/
theorem withDoQuery_apply (q : MapRef) (opt : _doOpt) :
    ∃ f, withDoQuery q = some f ∧
      f opt = { opt with query := (f opt).query, queryRef := (f opt).queryRef } ∧
      ∀ key, (f opt).query.lookup key
        = ((opt.mapNow q).lookup key).or (opt.query.lookup key) := by
  refine ⟨_, rfl, ?_, ?_⟩
  · split <;> rfl
  · intro key
    split
    · rename_i h
      have h0 : opt.query.len = 0 := by simpa using h
      simp [GoMap.lookup_of_len_zero _ h0]
    · exact GoMap.storeAll_lookup _ _ _

/-- A nil option anywhere in a list of options changes nothing. -/
theorem newDoOpt_skip_nil (pre post : List doOption) :
    _newDoOpt (pre ++ none :: post) = _newDoOpt (pre ++ post) := by
  unfold _newDoOpt
  simp only [List.foldl_append, List.foldl_cons]

/-- The entries of the map made by `WithGetAllGroupChatsNextPage`: the page
token of the last page, and the owner id type of its first item when there is
one and it is not empty. -/
theorem nextPageQuery_lookup (lastResp : GroupChatsResponse) (key : String) :
    (nextPageQuery lastResp).lookup key
      = if key = "page_token" then some lastResp.PageToken
        else if key = "user_id_type" then
          (match lastResp.Items with
           | first :: _ => if first.OwnerIDType = "" then none else some first.OwnerIDType
           | [] => none)
        else none := by
  have hsingle : ∀ k, (GoMap.single "page_token" lastResp.PageToken).lookup k
      = if k = "page_token" then some lastResp.PageToken else none :=
    fun k => GoMap.single_lookup _ _ k
  unfold nextPageQuery
  cases hitems : lastResp.Items with
  | nil =>
    simp only [hsingle]
    split_ifs <;> rfl
  | cons first rest =>
    by_cases hown : first.OwnerIDType = ""
    · simp only [hown, bne_self_eq_false, Bool.false_eq_true, if_false, hsingle, if_true]
      split_ifs <;> rfl
    · have hne : (first.OwnerIDType != "") = true := by simpa using hown
      simp only [hne, if_true, hown, if_false]
      by_cases hk : key = "user_id_type"
      · subst hk
        simp [GoMap.store]
      · simp [GoMap.store, AList.lookup_insert_ne hk, hk, hsingle]

/-- C24, as amended: for every prior page `lastResp` with `HasMore`, applying
`WithGetAllGroupChatsNextPage(lastResp)` to an option set whose query is not
the option's own map (as whenever the option value is applied for the first
time) changes the query only: `page_token` becomes exactly
`lastResp.PageToken`; `user_id_type` becomes the `OwnerIDType` of the first
item when there is one and it is not empty, and keeps its earlier value
otherwise; every other key, such as `page_size`, keeps its earlier value.
Applied again to an option set whose query is the option's own map, the option
changes no entry. Without `HasMore` the option is nil, and a nil option
anywhere in the list given to `_newDoOpt` changes nothing. -/
theorem nextPage_spec (lastResp : GroupChatsResponse) (id : Nat) (opt : _doOpt)
    (pre post : List doOption) :
    (lastResp.HasMore = true → opt.queryRef ≠ some id →
      ∃ f, WithGetAllGroupChatsNextPage lastResp id = some f ∧
        f opt = { opt with query := (f opt).query, queryRef := (f opt).queryRef } ∧
        (f opt).query.lookup "page_token" = some lastResp.PageToken ∧
        (∀ first rest, lastResp.Items = first :: rest → first.OwnerIDType ≠ "" →
          (f opt).query.lookup "user_id_type" = some first.OwnerIDType) ∧
        ((lastResp.Items = [] ∨ ∃ first rest, lastResp.Items = first :: rest ∧
            first.OwnerIDType = "") →
          (f opt).query.lookup "user_id_type" = opt.query.lookup "user_id_type") ∧
        (∀ key, key ≠ "page_token" → key ≠ "user_id_type" →
          (f opt).query.lookup key = opt.query.lookup key)) ∧
    (lastResp.HasMore = true → opt.queryRef = some id →
      ∃ f, WithGetAllGroupChatsNextPage lastResp id = some f ∧
        ∀ key, (f opt).query.lookup key = opt.query.lookup key) ∧
    (lastResp.HasMore = false →
      WithGetAllGroupChatsNextPage lastResp id = none ∧
      _newDoOpt (pre ++ WithGetAllGroupChatsNextPage lastResp id :: post)
        = _newDoOpt (pre ++ post)) := by
  obtain ⟨f, hf, hframe, hq⟩ := withDoQuery_apply
    { id := id, content := nextPageQuery lastResp } opt
  have hopt : lastResp.HasMore = true → WithGetAllGroupChatsNextPage lastResp id = some f := by
    intro hmore
    simp only [WithGetAllGroupChatsNextPage, hmore, Bool.not_true, Bool.false_eq_true, if_false]
    exact hf
  refine ⟨?_, ?_, ?_⟩
  · intro hmore hfresh
    have hnow : opt.mapNow { id := id, content := nextPageQuery lastResp }
        = nextPageQuery lastResp := by
      simp [_doOpt.mapNow, hfresh]
    have hq2 : ∀ key, (f opt).query.lookup key
        = ((nextPageQuery lastResp).lookup key).or (opt.query.lookup key) := by
      intro key
      rw [hq, hnow]
    refine ⟨f, hopt hmore, hframe, ?_, ?_, ?_, ?_⟩
    · rw [hq2, nextPageQuery_lookup]
      simp
    · intro first rest hitems hown
      rw [hq2, nextPageQuery_lookup, hitems]
      simp [hown]
    · intro hnone
      rw [hq2, nextPageQuery_lookup]
      rcases hnone with hitems | ⟨first, rest, hitems, hown⟩
      · rw [hitems]
        simp
      · rw [hitems]
        simp [hown]
    · intro key h1 h2
      rw [hq2, nextPageQuery_lookup]
      simp [h1, h2]
  · intro hmore hsame
    refine ⟨f, hopt hmore, ?_⟩
    intro key
    rw [hq]
    simp only [_doOpt.mapNow, hsame, if_true]
    cases opt.query.lookup key <;> rfl
  · intro hmore
    have hnil : WithGetAllGroupChatsNextPage lastResp id = none := by
      simp [WithGetAllGroupChatsNextPage, hmore]
    exact ⟨hnil, by rw [hnil]; exact newDoOpt_skip_nil pre post⟩

/-- C24, as amended, at the page of the spec: more pages, token `p2`, a first
item whose owner id type is `open_id`, after the options for page size 1 and
the owner id type `union_id`. -/
theorem nextPage_spec_witness :
    ∃ f, WithGetAllGroupChatsNextPage
          { Items := [{ ChatID := "oc_1", Avatar := "", Name := "g", Description := "",
                        OwnerID := "ou_1", OwnerIDType := "open_id", External := false,
                        TenantKey := "t-1" }],
            PageToken := "p2", HasMore := true } 1 = some f ∧
      (f (_newDoOpt [WithGetAllGroupChatsPageSize 1,
          WithGetAllGroupChatsOwnerIDType "union_id"])).query.lookup "page_token" = some "p2" ∧
      (f (_newDoOpt [WithGetAllGroupChatsPageSize 1,
          WithGetAllGroupChatsOwnerIDType "union_id"])).query.lookup "user_id_type"
        = some "open_id" ∧
      (f (_newDoOpt [WithGetAllGroupChatsPageSize 1,
          WithGetAllGroupChatsOwnerIDType "union_id"])).query.lookup "page_size" = some "1" := by
  obtain ⟨f, hf, _, h1, h2, _, h3⟩ := (nextPage_spec
    { Items := [{ ChatID := "oc_1", Avatar := "", Name := "g", Description := "",
                  OwnerID := "ou_1", OwnerIDType := "open_id", External := false,
                  TenantKey := "t-1" }],
      PageToken := "p2", HasMore := true } 1
    (_newDoOpt [WithGetAllGroupChatsPageSize 1, WithGetAllGroupChatsOwnerIDType "union_id"])
    [] []).1 rfl (by decide)
  refine ⟨f, hf, h1, h2 _ _ rfl (by decide), ?_⟩
  rw [h3 "page_size" (by decide) (by decide)]
  decide

/-- C24 as stated fails when the one option value is applied again after a
write: with `nxt` the option for a last page with token `p2`, the options
`nxt`, `WithGetAllGroupChatsPageToken(x)`, `nxt` end with `page_token = x`.
The first `nxt` made its own map the query, the page token `x` was written
into that map, and the second `nxt` found `x` in it. -/
theorem nextPage_counterexample :
    (_newDoOpt [WithGetAllGroupChatsNextPage { Items := [], PageToken := "p2", HasMore := true } 1,
        WithGetAllGroupChatsPageToken "x",
        WithGetAllGroupChatsNextPage { Items := [], PageToken := "p2", HasMore := true }
          1]).query.lookup "page_token" = some "x" ∧
    (some "x" : Option String) ≠ some "p2" := by
  refine ⟨by decide, by decide⟩

/-! ### The two registries -/

/-- Registering a v2 handler: the entry of the event type is the handler,
every other entry and the v1 registry are as before. -/
theorem RegisterEventCallback_lookup (a : app) (e : String) (h : EventHandler) :
    (a.RegisterEventCallback e h).eventHandler.lookup e = some h ∧
    (∀ e2, e2 ≠ e → (a.RegisterEventCallback e h).eventHandler.lookup e2
      = a.eventHandler.lookup e2) ∧
    (a.RegisterEventCallback e h).eventHandlerV1 = a.eventHandlerV1 ∧
    (a.RegisterEventCallback e h).verificationToken = a.verificationToken := by
  refine ⟨?_, ?_, rfl, rfl⟩
  · simp [app.RegisterEventCallback]
  · intro e2 hne
    simp [app.RegisterEventCallback, AList.lookup_insert_ne hne]

/-- Registering a v1 handler: the entry of the event type is the handler,
every other entry and the v2 registry are as before. -/
theorem RegisterEventCallbackV1_lookup (a : app) (e : String) (g : EventHandlerV1) :
    (a.RegisterEventCallbackV1 e g).eventHandlerV1.lookup e = some g ∧
    (∀ e2, e2 ≠ e → (a.RegisterEventCallbackV1 e g).eventHandlerV1.lookup e2
      = a.eventHandlerV1.lookup e2) ∧
    (a.RegisterEventCallbackV1 e g).eventHandler = a.eventHandler ∧
    (a.RegisterEventCallbackV1 e g).verificationToken = a.verificationToken := by
  refine ⟨?_, ?_, rfl, rfl⟩
  · simp [app.RegisterEventCallbackV1]
  · intro e2 hne
    simp [app.RegisterEventCallbackV1, AList.lookup_insert_ne hne]

/-- C23: for every event type `e` and handlers `h1`, `h2`: after
`RegisterEventCallback(e, h1)` followed by `RegisterEventCallback(e, h2)` the
entry of `e` is `h2`, and a v2 event of type `e` with the configured token
starts `h2` and nothing else; the same holds for `RegisterEventCallbackV1`
with handlers `g1`, `g2` and a v1 event of type `e`; and a registration in one
registry leaves the other registry and the entry of every other type as they
were. -/
theorem register_last_write_wins (a : app) (e : String) (h1 h2 : EventHandler)
    (g1 g2 : EventHandlerV1) (env : EventEnv) (bytes : Bytes) (eReq : eventRequest)
    (buf : Bytes) (header : EventHeaderV2) :
    ((a.RegisterEventCallback e h1).RegisterEventCallback e h2).eventHandler.lookup e
      = some h2 ∧
    ((((a.RegisterEventCallback e h1).RegisterEventCallback e h2).decodeEvent env
          ((a.RegisterEventCallback e h1).RegisterEventCallback e h2).eventOpt bytes).out
        = .ok (eReq, buf) →
      eReq.EventHeaderV1.Type_ ≠ EventTypeURLVerification → eReq.Schema = "2.0" →
      eReq.Header = some header → header.Token = a.verificationToken →
      header.EventType = e →
      handlerCalls (((a.RegisterEventCallback e h1).RegisterEventCallback e h2).ListenEventCallback
          env (.ok bytes)).effects
        = [.goHandler h2 header eReq.Event]) ∧
    ((a.RegisterEventCallbackV1 e g1).RegisterEventCallbackV1 e g2).eventHandlerV1.lookup e
      = some g2 ∧
    ((((a.RegisterEventCallbackV1 e g1).RegisterEventCallbackV1 e g2).decodeEvent env
          ((a.RegisterEventCallbackV1 e g1).RegisterEventCallbackV1 e g2).eventOpt bytes).out
        = .ok (eReq, buf) →
      eReq.EventHeaderV1.Type_ ≠ EventTypeURLVerification → eReq.Schema ≠ "2.0" →
      eReq.EventHeaderV1.UUID ≠ "" → eReq.EventHeaderV1.Token = a.verificationToken →
      eReq.EventHeaderV1.Type_ = e →
      handlerCalls (((a.RegisterEventCallbackV1 e g1).RegisterEventCallbackV1 e
          g2).ListenEventCallback env (.ok bytes)).effects
        = [.goHandlerV1 g2 eReq.EventHeaderV1 eReq.Event]) ∧
    (a.RegisterEventCallback e h1).eventHandlerV1 = a.eventHandlerV1 ∧
    (a.RegisterEventCallbackV1 e g1).eventHandler = a.eventHandler ∧
    (∀ e2, e2 ≠ e →
      (a.RegisterEventCallback e h1).eventHandler.lookup e2 = a.eventHandler.lookup e2) ∧
    (∀ e2, e2 ≠ e →
      (a.RegisterEventCallbackV1 e g1).eventHandlerV1.lookup e2
        = a.eventHandlerV1.lookup e2) := by
  have hv2 := RegisterEventCallback_lookup (a.RegisterEventCallback e h1) e h2
  have hv1 := RegisterEventCallbackV1_lookup (a.RegisterEventCallbackV1 e g1) e g2
  refine ⟨hv2.1, ?_, hv1.1, ?_, rfl, rfl, (RegisterEventCallback_lookup a e h1).2.1,
    (RegisterEventCallbackV1_lookup a e g1).2.1⟩
  · intro hdec hty hs hh htok hev
    rw [ListenEventCallback_handlerCalls _ env bytes eReq buf hdec]
    have hd := (dispatchEvent_v2 ((a.RegisterEventCallback e h1).RegisterEventCallback e h2) env
      ((a.RegisterEventCallback e h1).RegisterEventCallback e h2).eventOpt eReq buf header hty hs
      hh htok).2.2.1 h2 (by rw [hev]; exact hv2.1)
    rw [hd]
    rfl
  · intro hdec hty hs hu htok hev
    rw [ListenEventCallback_handlerCalls _ env bytes eReq buf hdec]
    have hd := (dispatchEvent_v1 ((a.RegisterEventCallbackV1 e g1).RegisterEventCallbackV1 e g2)
      env ((a.RegisterEventCallbackV1 e g1).RegisterEventCallbackV1 e g2).eventOpt eReq buf hty
      hs hu htok).1 g2 (by rw [hev]; exact hv1.1)
    rw [hd]
    rfl

/-- C23 at a concrete v2 envelope of type `im.message.receive_v1`, sent to an
app where `h1` and then `h2` were registered for that type: only `h2` is
started. -/
theorem register_last_write_wins_witness :
    handlerCalls (((exampleEventApp.RegisterEventCallback EventTypeMessageReceived
        { name := "h1" }).RegisterEventCallback EventTypeMessageReceived
        { name := "h2" }).ListenEventCallback
      (exampleEventEnv (exampleEvents (exampleEnvelopeV2 "")) exampleNoVerification)
      (.ok [braceOpen, braceClose])).effects
      = [.goHandler { name := "h2" } exampleHeaderV2 (exampleEnvelopeV2 "").Event] :=
  (register_last_write_wins exampleEventApp EventTypeMessageReceived { name := "h1" }
    { name := "h2" } { name := "g1" } { name := "g2" }
    (exampleEventEnv (exampleEvents (exampleEnvelopeV2 "")) exampleNoVerification)
    [braceOpen, braceClose] (exampleEnvelopeV2 "") [braceOpen, braceClose]
    exampleHeaderV2).2.1 (by rfl) (by decide) (by rfl) (by rfl) (by rfl) (by rfl)

/-! ### The webhook: status 500 -/

/-- The `switch` statement ends with an error exactly in the ping branch, when
the verification request cannot be decoded or, with the configured token, the
response cannot be encoded or written. -/
theorem dispatchEvent_error_iff (a : app) (env : EventEnv) (opt : _doOpt) (eReq : eventRequest)
    (buf : Bytes) :
    (∃ err, (a.dispatchEvent env opt eReq buf).out = .returned (some err)) ↔
      eReq.EventHeaderV1.Type_ = EventTypeURLVerification ∧
      ((∃ err, jsonUnmarshalVerification env buf = .error err) ∨
        ∃ v, jsonUnmarshalVerification env buf = .ok v ∧ v.Token = a.verificationToken ∧
          ((∃ err, jsonMarshalVerification env { Challenge := v.Challenge } = .error err) ∨
            ∃ bs err, jsonMarshalVerification env { Challenge := v.Challenge } = .ok bs ∧
              env.writeErr bs = some err)) := by
  unfold app.dispatchEvent
  by_cases hty : eReq.EventHeaderV1.Type_ = EventTypeURLVerification
  · simp only [hty, beq_self_eq_true, if_true, true_and]
    cases hv : jsonUnmarshalVerification env buf with
    | error err => simp
    | ok v =>
      by_cases htok : v.Token = a.verificationToken
      · simp only [htok, bne_self_eq_false, Bool.false_eq_true, if_false]
        cases hm : jsonMarshalVerification env { Challenge := v.Challenge } with
        | error err => simp [htok, hm]
        | ok bs => cases hw : env.writeErr bs <;> simp [hw, htok, hm]
      · simp [htok]
  · simp only [beq_iff_eq, hty, if_false, false_and, iff_false]
    rintro ⟨err, h⟩
    revert h
    split_ifs <;> (repeat' split) <;> simp

/-- The `switch` statement writes no status or status 200, never 500. -/
theorem dispatchEvent_statusWritten (a : app) (env : EventEnv) (opt : _doOpt)
    (eReq : eventRequest) (buf : Bytes) :
    statusWritten (a.dispatchEvent env opt eReq buf).effects = [] ∨
    statusWritten (a.dispatchEvent env opt eReq buf).effects = [200] := by
  unfold app.dispatchEvent
  split_ifs <;> (repeat' split) <;>
    simp [statusWritten_append, statusWritten_debugLog, statusWritten]

/-- Lines 40 to 51 end with an error exactly when the outer envelope cannot be
decoded, or has an `encrypt` field whose decryption returns an error. -/
theorem decodeEvent_error_iff (a : app) (env : EventEnv) (opt : _doOpt) (bytes : Bytes) :
    (∃ err, (a.decodeEvent env opt bytes).out = .error err) ↔
      (∃ e err, jsonUnmarshalEvent env bytes eventRequest.zero = (e, some err)) ∨
      (∃ e eq1 raw err, jsonUnmarshalEvent env bytes eventRequest.zero = (e, none) ∧
        e.Encrypt ≠ "" ∧ e.decrypt env a.encryptKey = .returned (eq1, raw, some err)) := by
  unfold app.decodeEvent
  rcases hj : jsonUnmarshalEvent env bytes eventRequest.zero with ⟨e, _ | err⟩
  · by_cases henc : e.Encrypt = ""
    · have hb : (e.Encrypt != "") = false := by simp [henc]
      simp only [hb, Bool.false_eq_true, if_false]
      constructor
      · rintro ⟨err, h⟩
        cases h
      · rintro (⟨e1, err, h⟩ | ⟨e1, eq1, raw, err, h, hne, _⟩)
        · cases h
        · cases h
          exact absurd henc hne
    · have hb : (e.Encrypt != "") = true := by simpa using henc
      simp only [hb, if_true]
      rcases hd : e.decrypt env a.encryptKey with ⟨eq1, raw, _ | err⟩ | v
      · constructor
        · rintro ⟨err, h⟩
          cases h
        · rintro (⟨e1, err, h⟩ | ⟨e1, eq2, raw2, err, h, _, hd2⟩)
          · cases h
          · cases h
            rw [hd] at hd2
            cases hd2
      · constructor
        · intro _
          exact Or.inr ⟨e, eq1, raw, err, rfl, henc, hd⟩
        · intro _
          exact ⟨err, rfl⟩
      · constructor
        · rintro ⟨err, h⟩
          cases h
        · rintro (⟨e1, err, h⟩ | ⟨e1, eq2, raw2, err, h, _, hd2⟩)
          · cases h
          · cases h
            rw [hd] at hd2
            cases hd2
  · constructor
    · intro _
      exact Or.inl ⟨e, err, rfl⟩
    · intro _
      exact ⟨err, rfl⟩

/-- Lines 40 to 51 write no status. -/
theorem decodeEvent_statusWritten (a : app) (env : EventEnv) (opt : _doOpt) (bytes : Bytes) :
    statusWritten (a.decodeEvent env opt bytes).effects = [] := by
  unfold app.decodeEvent
  split
  · exact statusWritten_debugLog _ _
  · split
    · split
      · rfl
      · exact statusWritten_debugLog _ _
      · rfl
    · rfl

/-- The status codes written by `ListenEventCallback` for a body that was
read: those of the `switch` statement, followed by 500 when lines 40 to 51 or
the `switch` statement end with an error. -/
theorem ListenEventCallback_statusWritten_cases (a : app) (env : EventEnv) (bytes : Bytes) :
    statusWritten (a.ListenEventCallback env (.ok bytes)).effects
      = (match (a.decodeEvent env a.eventOpt bytes).out with
         | .panic _ => []
         | .error _ => [500]
         | .ok (eReq, buf) =>
           statusWritten (a.dispatchEvent env a.eventOpt eReq buf).effects
             ++ (match (a.dispatchEvent env a.eventOpt eReq buf).out with
                 | .returned (some _) => [500]
                 | _ => [])) := by
  have hr := decodeEvent_statusWritten a env a.eventOpt bytes
  unfold app.ListenEventCallback
  rcases hdec : (a.decodeEvent env a.eventOpt bytes).out with ⟨eReq, buf⟩ | err | v
  · rcases hout : (a.dispatchEvent env a.eventOpt eReq buf).out with (_ | err) | v <;>
      simp only [hdec, hout, statusWritten_append, hr, List.nil_append] <;> rfl
  · simp only [hdec, statusWritten_append, hr, List.nil_append]
    rfl
  · simp only [hdec, statusWritten_append, hr, List.nil_append]
    rfl

/-- Status 500 is written by `ListenEventCallback` exactly when the body
cannot be read, lines 40 to 51 end with an error, or the `switch` statement
ends with an error. -/
theorem ListenEventCallback_500_iff (a : app) (env : EventEnv) (body : Except GoError Bytes) :
    500 ∈ statusWritten (a.ListenEventCallback env body).effects ↔
      (∃ err, body = .error err) ∨
      (∃ bytes, body = .ok bytes ∧
        ((∃ err, (a.decodeEvent env a.eventOpt bytes).out = .error err) ∨
          ∃ eReq buf, (a.decodeEvent env a.eventOpt bytes).out = .ok (eReq, buf) ∧
            ∃ err, (a.dispatchEvent env a.eventOpt eReq buf).out = .returned (some err))) := by
  cases body with
  | error err =>
    have h : statusWritten (a.ListenEventCallback env (.error err)).effects = [500] := by
      unfold app.ListenEventCallback
      simp only []
      rw [statusWritten_append, statusWritten_debugLog]
      rfl
    rw [h]
    constructor
    · intro _
      exact Or.inl ⟨err, rfl⟩
    · intro _
      exact List.mem_singleton_self _
  | ok bytes =>
    rw [ListenEventCallback_statusWritten_cases]
    rcases hdec : (a.decodeEvent env a.eventOpt bytes).out with ⟨eReq, buf⟩ | err | v
    · have hd := dispatchEvent_statusWritten a env a.eventOpt eReq buf
      have h200 : (500 : Int) ∉ statusWritten (a.dispatchEvent env a.eventOpt eReq buf).effects := by
        rcases hd with hd | hd <;> rw [hd] <;> decide
      rcases hout : (a.dispatchEvent env a.eventOpt eReq buf).out with (_ | err) | v
      · simp only [hout, List.append_nil]
        constructor
        · intro h
          exact absurd h h200
        · rintro (⟨e, h⟩ | ⟨b, hb, (⟨e, h⟩ | ⟨e1, b1, h, e, he⟩)⟩)
          · cases h
          · cases hb
            rw [hdec] at h
            cases h
          · cases hb
            rw [hdec] at h
            cases h
            rw [hout] at he
            cases he
      · simp only [hout]
        constructor
        · intro _
          exact Or.inr ⟨bytes, rfl, Or.inr ⟨eReq, buf, hdec, err, hout⟩⟩
        · intro _
          simp
      · simp only [hout, List.append_nil]
        constructor
        · intro h
          exact absurd h h200
        · rintro (⟨e, h⟩ | ⟨b, hb, (⟨e, h⟩ | ⟨e1, b1, h, e, he⟩)⟩)
          · cases h
          · cases hb
            rw [hdec] at h
            cases h
          · cases hb
            rw [hdec] at h
            cases h
            rw [hout] at he
            cases he
    · constructor
      · intro _
        exact Or.inr ⟨bytes, rfl, Or.inl ⟨err, hdec⟩⟩
      · intro _
        exact List.mem_singleton_self _
    · constructor
      · intro h
        cases h
      · rintro (⟨e, h⟩ | ⟨b, hb, (⟨e, h⟩ | ⟨e1, b1, h, _⟩)⟩)
        · cases h
        · cases hb
          rw [hdec] at h
          cases h
        · cases hb
          rw [hdec] at h
          cases h

/-- C22, as amended: `ListenEventCallback` writes status 500 exactly when the
variable `err` is set at its end, that is when the body cannot be read, when
the outer envelope cannot be decoded or its decryption returns an error, and
also inside the ping branch when the verification request cannot be decoded
or, with the configured token, the response cannot be encoded or written; for
an envelope that is no ping, status 500 is never written once the envelope is
decoded. -/
theorem listenEvent_status_500 (a : app) (env : EventEnv) (body : Except GoError Bytes) :
    (500 ∈ statusWritten (a.ListenEventCallback env body).effects ↔
      (∃ err, body = .error err) ∨
      (∃ bytes, body = .ok bytes ∧
        ((∃ err, (a.decodeEvent env a.eventOpt bytes).out = .error err) ∨
          ∃ eReq buf, (a.decodeEvent env a.eventOpt bytes).out = .ok (eReq, buf) ∧
            ∃ err, (a.dispatchEvent env a.eventOpt eReq buf).out = .returned (some err)))) ∧
    (∀ bytes, (∃ err, (a.decodeEvent env a.eventOpt bytes).out = .error err) ↔
      (∃ e err, jsonUnmarshalEvent env bytes eventRequest.zero = (e, some err)) ∨
      (∃ e eq1 raw err, jsonUnmarshalEvent env bytes eventRequest.zero = (e, none) ∧
        e.Encrypt ≠ "" ∧ e.decrypt env a.encryptKey = .returned (eq1, raw, some err))) ∧
    (∀ eReq buf, (∃ err, (a.dispatchEvent env a.eventOpt eReq buf).out = .returned (some err)) ↔
      eReq.EventHeaderV1.Type_ = EventTypeURLVerification ∧
      ((∃ err, jsonUnmarshalVerification env buf = .error err) ∨
        ∃ v, jsonUnmarshalVerification env buf = .ok v ∧ v.Token = a.verificationToken ∧
          ((∃ err, jsonMarshalVerification env { Challenge := v.Challenge } = .error err) ∨
            ∃ bs err, jsonMarshalVerification env { Challenge := v.Challenge } = .ok bs ∧
              env.writeErr bs = some err))) ∧
    (∀ bytes eReq buf, body = .ok bytes →
      (a.decodeEvent env a.eventOpt bytes).out = .ok (eReq, buf) →
      eReq.EventHeaderV1.Type_ ≠ EventTypeURLVerification →
      500 ∉ statusWritten (a.ListenEventCallback env body).effects) := by
  refine ⟨ListenEventCallback_500_iff a env body, fun bytes => decodeEvent_error_iff a env _ bytes,
    fun eReq buf => dispatchEvent_error_iff a env _ eReq buf, ?_⟩
  intro bytes eReq buf hb hdec hty h500
  rcases (ListenEventCallback_500_iff a env body).mp h500 with
    ⟨e, h⟩ | ⟨b, hb2, (⟨e, h⟩ | ⟨e1, b1, h, herr⟩)⟩
  · rw [hb] at h
    cases h
  · rw [hb] at hb2
    cases hb2
    rw [hdec] at h
    cases h
  · rw [hb] at hb2
    cases hb2
    rw [hdec] at h
    cases h
    exact hty ((dispatchEvent_error_iff a env _ eReq buf).mp herr).1

/-- C22, as amended, at a body that cannot be read: status 500 is written. -/
theorem listenEvent_status_500_witness :
    500 ∈ statusWritten (exampleEventApp.ListenEventCallback
      (exampleEventEnv (exampleEvents examplePing) exampleNoVerification)
      (.error (.errorString "unexpected EOF"))).effects :=
  (listenEvent_status_500 exampleEventApp
    (exampleEventEnv (exampleEvents examplePing) exampleNoVerification)
    (.error (.errorString "unexpected EOF"))).1.mpr (Or.inl ⟨_, rfl⟩)

/-- C22 as stated fails: a body that is read, decoded without error and
classified as a ping, but whose verification request cannot be decoded, makes
`ListenEventCallback` write status 500 after the ping branch was selected. -/
theorem listenEvent_status_500_counterexample :
    (exampleEventApp.decodeEvent
        (exampleEventEnv (exampleEvents examplePing) exampleNoVerification)
        exampleEventApp.eventOpt [braceOpen, braceClose]).out
      = .ok (examplePing, [braceOpen, braceClose]) ∧
    examplePing.EventHeaderV1.Type_ = EventTypeURLVerification ∧
    statusWritten (exampleEventApp.ListenEventCallback
      (exampleEventEnv (exampleEvents examplePing) exampleNoVerification)
      (.ok [braceOpen, braceClose])).effects = [500] := by
  refine ⟨by rfl, by rfl, by rfl⟩

/-! ### The webhook: the envelope after decryption -/

/-- When `decrypt` returns without error, its plaintext was decoded into the
receiver: the envelope afterwards is what `json.Unmarshal` makes of the
plaintext and of the receiver as it was. -/
theorem decrypt_ok_unmarshal (env : EventEnv) (eq eq1 : eventRequest) (encryptKey : String)
    (raw : Bytes) (h : eq.decrypt env encryptKey = .returned (eq1, raw, none)) :
    jsonUnmarshalEvent env raw eq = (eq1, none) := by
  unfold eventRequest.decrypt at h
  split at h
  · cases h
  · split at h
    · cases h
    · dsimp only at h
      split at h
      · cases h
      · split at h
        · cases h
        · split at h
          · cases h
          · rename_i raw1 hs
            split at h
            · cases h
            · rename_i eq2 hj
              cases h
              exact hj

/-- The `switch` statement does not read the field `Encrypt`. -/
theorem dispatchEvent_encrypt (a : app) (env : EventEnv) (opt : _doOpt) (eReq : eventRequest)
    (buf : Bytes) (x : String) :
    a.dispatchEvent env opt { eReq with Encrypt := x } buf = a.dispatchEvent env opt eReq buf := by
  rfl

/-- An envelope with a non-empty `encrypt` field that is decrypted without
error is classified as `decrypt` left it, with the plaintext as body. -/
theorem decodeEvent_decrypted (a : app) (env : EventEnv) (opt : _doOpt) (bytes : Bytes)
    (e eq1 : eventRequest) (raw : Bytes)
    (hev : jsonUnmarshalEvent env bytes eventRequest.zero = (e, none))
    (henc : e.Encrypt ≠ "")
    (hdec : e.decrypt env a.encryptKey = .returned (eq1, raw, none)) :
    (a.decodeEvent env opt bytes).out = .ok (eq1, raw) := by
  have hne : (e.Encrypt != "") = true := by simpa using henc
  unfold app.decodeEvent
  simp only [hev, hne, if_true, hdec]

/-- C21, as amended: after a successful decryption, the envelope that
`ListenEventCallback` classifies is the plaintext decoded into the outer
envelope that was parsed before: a field that the plaintext does not carry
keeps its outer value and takes part in classification, token verification
and dispatch. When decoding the plaintext into the outer envelope gives the
same fields, `encrypt` apart, as decoding it into a new envelope (as when the
outer envelope carries the field `encrypt` alone), the callback runs exactly
as for the plaintext posted as the body. -/
theorem listenEvent_decrypted_envelope (a : app) (env : EventEnv) (bytes : Bytes)
    (e eq1 : eventRequest) (raw : Bytes)
    (hev : jsonUnmarshalEvent env bytes eventRequest.zero = (e, none))
    (henc : e.Encrypt ≠ "")
    (hdec : e.decrypt env a.encryptKey = .returned (eq1, raw, none)) :
    (a.decodeEvent env a.eventOpt bytes).out = .ok (eq1, raw) ∧
    jsonUnmarshalEvent env raw e = (eq1, none) ∧
    handlerCalls (a.ListenEventCallback env (.ok bytes)).effects
      = handlerCalls (a.dispatchEvent env a.eventOpt eq1 raw).effects ∧
    responseBody (a.ListenEventCallback env (.ok bytes)).effects
      = responseBody (a.dispatchEvent env a.eventOpt eq1 raw).effects ∧
    (∀ p, jsonUnmarshalEvent env raw eventRequest.zero = (p, none) → p.Encrypt = "" →
      eq1 = { p with Encrypt := eq1.Encrypt } →
      a.ListenEventCallback env (.ok bytes) = a.ListenEventCallback env (.ok raw)) := by
  have hd := decodeEvent_decrypted a env a.eventOpt bytes e eq1 raw hev henc hdec
  refine ⟨hd, decrypt_ok_unmarshal env e eq1 a.encryptKey raw hdec,
    ListenEventCallback_handlerCalls a env bytes eq1 raw hd,
    ListenEventCallback_responseBody a env bytes eq1 raw hd, ?_⟩
  intro p hp hpe heq
  have hd2 := decodeEvent_plain a env a.eventOpt raw p hp hpe
  rw [ListenEventCallback_decoded a env bytes eq1 raw hd,
    ListenEventCallback_decoded a env raw p raw hd2, heq, dispatchEvent_encrypt]

/-- C21, as amended, at an outer envelope with the field `encrypt` alone, whose plaintext
is a v2 event, sent to an app with a handler for its event type: the callback
runs as for the plaintext posted as the body, and starts the handler. -/
theorem listenEvent_decrypted_envelope_witness :
    (exampleEventApp.RegisterEventCallback EventTypeMessageReceived
        { name := "h2" }).ListenEventCallback
      (exampleEventEnv (exampleMerge exampleOuterText examplePlainText exampleSetOuterPlain
        exampleSetPlain) exampleNoFields) (.ok exampleOuterText)
    = (exampleEventApp.RegisterEventCallback EventTypeMessageReceived
        { name := "h2" }).ListenEventCallback
      (exampleEventEnv (exampleMerge exampleOuterText examplePlainText exampleSetOuterPlain
        exampleSetPlain) exampleNoFields) (.ok examplePlainText) :=
  (listenEvent_decrypted_envelope
    (exampleEventApp.RegisterEventCallback EventTypeMessageReceived { name := "h2" })
    (exampleEventEnv (exampleMerge exampleOuterText examplePlainText exampleSetOuterPlain
      exampleSetPlain) exampleNoFields)
    exampleOuterText (exampleSetOuterPlain eventRequest.zero)
    (exampleSetPlain (exampleSetOuterPlain eventRequest.zero)) examplePlainText
    (by rfl) (by decide) (by rfl)).2.2.2.2 (exampleSetPlain eventRequest.zero) (by rfl) (by rfl)
    (by rfl)

/-- C21 as stated fails: an outer envelope with the fields `encrypt` and
`type`, the type being `url_verification`, whose plaintext is a v2 event
without a field `type`. The envelope classified keeps the outer type, so the
ping branch runs and no handler is started, while the plaintext parsed alone
is a v2 event that starts the handler registered for its type. -/
theorem listenEvent_decrypted_envelope_counterexample :
    ((exampleEventApp.RegisterEventCallback EventTypeMessageReceived
        { name := "h2" }).decodeEvent
      (exampleEventEnv (exampleMerge exampleOuterText examplePlainText exampleSetOuterPing
        exampleSetPlain) exampleNoFields)
      (exampleEventApp.RegisterEventCallback EventTypeMessageReceived { name := "h2" }).eventOpt
      exampleOuterText).out
      = .ok (exampleSetPlain (exampleSetOuterPing eventRequest.zero), examplePlainText) ∧
    (jsonUnmarshalEvent
      (exampleEventEnv (exampleMerge exampleOuterText examplePlainText exampleSetOuterPing
        exampleSetPlain) exampleNoFields) examplePlainText eventRequest.zero).1
      = exampleSetPlain eventRequest.zero ∧
    (exampleSetPlain (exampleSetOuterPing eventRequest.zero)).EventHeaderV1.Type_
      = EventTypeURLVerification ∧
    (exampleSetPlain eventRequest.zero).EventHeaderV1.Type_ = "" ∧
    handlerCalls ((exampleEventApp.RegisterEventCallback EventTypeMessageReceived
        { name := "h2" }).ListenEventCallback
      (exampleEventEnv (exampleMerge exampleOuterText examplePlainText exampleSetOuterPing
        exampleSetPlain) exampleNoFields) (.ok exampleOuterText)).effects = [] ∧
    handlerCalls ((exampleEventApp.RegisterEventCallback EventTypeMessageReceived
        { name := "h2" }).ListenEventCallback
      (exampleEventEnv (exampleMerge exampleOuterText examplePlainText exampleSetOuterPing
        exampleSetPlain) exampleNoFields) (.ok examplePlainText)).effects
      = [.goHandler { name := "h2" } exampleHeaderV2 [braceOpen, braceClose]] := by
  refine ⟨by rfl, by rfl, by rfl, by rfl, by rfl, by rfl⟩

/-! ### Decryption: the bounds of the brace scan -/

/-- C29 fails on the code: the brace scan of `decrypt` can compute bounds
that are out of range. For a decrypted buffer that begins with a closing
brace, the letter `a` and an opening brace and holds no other brace, the first
opening brace is at index 2 and the last closing brace at index 0, the slice
expression `ciphertext[2:1]` panics, and so does `ListenEventCallback` for an
envelope with this `encrypt` field. -/
theorem decrypt_reversed_braces_panics :
    CryptBlocks (exampleEventEnv (exampleEvents examplePing) exampleNoVerification)
        ((exampleEventEnv (exampleEvents examplePing) exampleNoVerification).sha256
          (stringBytes "key-1"))
        (stringBytes "0123456789abcdef") (stringBytes "mlkjihgfedcba\x7ba\x7d")
      = stringBytes "\x7da\x7babcdefghijklm" ∧
    IndexByte (stringBytes "\x7da\x7babcdefghijklm") braceOpen = 2 ∧
    LastIndexByte (stringBytes "\x7da\x7babcdefghijklm") braceClose = 0 ∧
    sliceBytes (stringBytes "\x7da\x7babcdefghijklm") 2 (0 + 1) = none ∧
    (exampleEncrypted "0123456789abcdefmlkjihgfedcba\x7ba\x7d").decrypt
        (exampleEventEnv (exampleEvents examplePing) exampleNoVerification) "key-1"
      = .panicked sliceOutOfRange ∧
    exampleEventApp.ListenEventCallback
        (exampleEventEnv
          (exampleEvents (exampleEncrypted "0123456789abcdefmlkjihgfedcba\x7ba\x7d"))
          exampleNoVerification) (.ok [braceOpen, braceClose])
      = { effects := [.bodyClose], out := .panicked sliceOutOfRange } := by
  refine ⟨by decide, by decide, by decide, by decide, by rfl, by rfl⟩

/-! ### The timeout of the client -/

/-- The timeout after two runs in a row. -/
theorem clientTimeout_append (cli : HTTPClient) (d : Int) (l1 l2 : List Effect) :
    clientTimeout cli d (l1 ++ l2) = clientTimeout cli (clientTimeout cli d l1) l2 := by
  induction l1 generalizing d with
  | nil => rfl
  | cons e rest ih => cases e <;> simp [clientTimeout, ih]

/-- A run that never writes a timeout leaves the timeout of every client as
it was. -/
theorem clientTimeout_of_no_write (cli : HTTPClient) (d : Int) (l : List Effect)
    (h : ∀ e ∈ l, e.isSetTimeout = false) : clientTimeout cli d l = d := by
  induction l generalizing d with
  | nil => rfl
  | cons e rest ih =>
    have hrest : ∀ e1 ∈ rest, e1.isSetTimeout = false :=
      fun e1 h1 => h e1 (List.mem_cons_of_mem _ h1)
    have he := h e (List.mem_cons_self _ _)
    cases e <;> first
      | exact ih d hrest
      | (simp [Effect.isSetTimeout] at he)

/-- Logging writes no timeout. -/
theorem debugLog_no_setTimeout (opt : _doOpt) (msg : String) :
    ∀ e ∈ opt.debugLog msg, e.isSetTimeout = false := by
  intro e he
  rcases debugLog_cases opt msg with h | ⟨l, line, h⟩
  · rw [h] at he
    cases he
  · rw [h, List.mem_singleton] at he
    rw [he]
    rfl

/-- One pass of the upload loop writes no timeout. -/
theorem uploadPart_no_setTimeout {Data : Type} (env : Env Data) (opt : _doOpt)
    (method rawURL : String) (fd : _doFormData) :
    ∀ e ∈ (uploadPart env opt method rawURL fd).effects, e.isSetTimeout = false := by
  unfold uploadPart
  split
  · split
    · simp
    · split
      · simp [Effect.isSetTimeout]
      · intro e he
        simp only [List.cons_append, List.nil_append, List.mem_cons] at he
        rcases he with rfl | rfl | he
        · rfl
        · rfl
        · split at he
          · cases he
          · exact debugLog_no_setTimeout opt _ e he
  · split <;> simp

/-- The upload loop writes no timeout. -/
theorem uploadLoop_no_setTimeout {Data : Type} (env : Env Data) (opt : _doOpt)
    (method rawURL : String) (fds : List _doFormData) (name0 : String) :
    ∀ e ∈ (uploadLoop env opt method rawURL fds name0).effects, e.isSetTimeout = false := by
  induction fds generalizing name0 with
  | nil => simp [uploadLoop]
  | cons fd rest ih =>
    intro e he
    unfold uploadLoop at he
    dsimp only at he
    split at he
    · exact uploadPart_no_setTimeout env opt method rawURL fd e he
    · exact uploadPart_no_setTimeout env opt method rawURL fd e he
    · simp only [List.mem_append] at he
      rcases he with he | he
      · exact uploadPart_no_setTimeout env opt method rawURL fd e he
      · exact ih _ e he

/-- The method `newUploadReq` writes no timeout. -/
theorem newUploadReq_no_setTimeout {Data : Type} (env : Env Data) (opt : _doOpt)
    (method rawURL : String) :
    ∀ e ∈ (opt.newUploadReq env method rawURL).effects, e.isSetTimeout = false := by
  intro e he
  unfold _doOpt.newUploadReq at he
  dsimp only at he
  split at he
  · exact uploadLoop_no_setTimeout env opt method rawURL _ _ e he
  · exact uploadLoop_no_setTimeout env opt method rawURL _ _ e he
  · split at he <;>
    · simp only [List.mem_append] at he
      rcases he with he | he
      · exact uploadLoop_no_setTimeout env opt method rawURL _ _ e he
      · exact debugLog_no_setTimeout opt _ e he

/-- The method `NewRequest` writes no timeout. -/
theorem NewRequest_no_setTimeout {Data : Type} (env : Env Data) (opt : _doOpt)
    (method rawURL : String) (data : Option Data) :
    ∀ e ∈ (opt.NewRequest env method rawURL data).effects, e.isSetTimeout = false := by
  intro e he
  unfold _doOpt.NewRequest at he
  split at he
  · simp at he
  · rename_i u _
    cases hparts : opt.uploadFormData with
    | nil =>
      simp only [hparts, List.length_nil, beq_self_eq_true, if_true] at he
      cases henc : encodeJSON env data with
      | error e1 => simp [henc] at he
      | ok buf =>
        simp only [henc] at he
        cases hreq : env.newRequestErr method u <;> simp only [hreq] at he <;>
          cases data <;> exact debugLog_no_setTimeout opt _ e he
    | cons fd rest =>
      simp only [hparts, List.length_cons, Nat.add_one_ne_zero, beq_iff_eq, if_false] at he
      cases hup : (opt.newUploadReq env method u).out <;> simp only [hup] at he <;>
        exact newUploadReq_no_setTimeout env opt method u e he

/-- Once the request is built, `_doWithContext` writes 0 to the timeout of
the client it uses and sends the request through it; nothing before and
nothing after writes a timeout. -/
theorem doWithContext_effects {Data : Type} (env : Env Data) (method rawURL : String)
    (data : Option Data) (opts : List doOption) (req : Request)
    (hreq : ((_newDoOpt opts).NewRequest env method rawURL data).out = .ok req) :
    ∃ post, (_doWithContext env method rawURL data opts).effects
        = ((_newDoOpt opts).NewRequest env method rawURL data).effects
          ++ [.setTimeout ((_newDoOpt opts).httpCli.getD DefaultHTTPClient) 0,
              .clientDo ((_newDoOpt opts).httpCli.getD DefaultHTTPClient) req] ++ post ∧
      ∀ e ∈ post, e.isSetTimeout = false := by
  unfold _doWithContext
  simp only [hreq]
  have hcli : (match (_newDoOpt opts).httpCli with
      | some cli => cli
      | none => DefaultHTTPClient) = (_newDoOpt opts).httpCli.getD DefaultHTTPClient := by
    cases (_newDoOpt opts).httpCli <;> rfl
  rw [hcli]
  cases hdo : env.clientDo ((_newDoOpt opts).httpCli.getD DefaultHTTPClient) req with
  | error e =>
    simp only []
    exact ⟨[], by simp, by simp⟩
  | ok resp =>
    cases hb : resp.bodyErr with
    | some e =>
      simp only [hb]
      exact ⟨_, rfl, debugLog_no_setTimeout _ _⟩
    | none =>
      simp only [hb]
      exact ⟨_, rfl, debugLog_no_setTimeout _ _⟩

/-- C25, as amended: `_doWithContext` imposes no timeout of its own, but it does
not leave the client as the caller configured it. Once the request is built,
it writes 0 to the field `Timeout` of the client it uses (the client given
through `withDoHTTPCli`, else the shared `DefaultHTTPClient`) just before it
sends the request through that client, and writes no other timeout: whatever
the timeout `d` was before the call, it is 0 when the request is sent and
after the call, while every other client keeps its timeout; when the request
cannot be built no client is touched. -/
theorem doWithContext_clears_timeout {Data : Type} (env : Env Data) (method rawURL : String)
    (data : Option Data) (opts : List doOption) (d : Int) :
    (∀ req, ((_newDoOpt opts).NewRequest env method rawURL data).out = .ok req →
      (∃ post, (_doWithContext env method rawURL data opts).effects
          = ((_newDoOpt opts).NewRequest env method rawURL data).effects
            ++ [.setTimeout ((_newDoOpt opts).httpCli.getD DefaultHTTPClient) 0,
                .clientDo ((_newDoOpt opts).httpCli.getD DefaultHTTPClient) req] ++ post ∧
        ∀ e ∈ post, e.isSetTimeout = false) ∧
      clientTimeout ((_newDoOpt opts).httpCli.getD DefaultHTTPClient) d
        (((_newDoOpt opts).NewRequest env method rawURL data).effects
          ++ [.setTimeout ((_newDoOpt opts).httpCli.getD DefaultHTTPClient) 0]) = 0 ∧
      clientTimeout ((_newDoOpt opts).httpCli.getD DefaultHTTPClient) d
        (_doWithContext env method rawURL data opts).effects = 0 ∧
      ∀ c, c ≠ (_newDoOpt opts).httpCli.getD DefaultHTTPClient →
        clientTimeout c d (_doWithContext env method rawURL data opts).effects = d) ∧
    ((∀ req, ((_newDoOpt opts).NewRequest env method rawURL data).out ≠ .ok req) →
      ∀ c, clientTimeout c d (_doWithContext env method rawURL data opts).effects = d) := by
  have hnr := NewRequest_no_setTimeout env (_newDoOpt opts) method rawURL data
  constructor
  · intro req hreq
    obtain ⟨post, heff, hpost⟩ := doWithContext_effects env method rawURL data opts req hreq
    refine ⟨⟨post, heff, hpost⟩, ?_, ?_, ?_⟩
    · rw [clientTimeout_append, clientTimeout_of_no_write _ _ _ hnr]
      simp [clientTimeout]
    · rw [heff, clientTimeout_append, clientTimeout_append,
        clientTimeout_of_no_write _ _ _ hnr, clientTimeout_of_no_write _ _ _ hpost]
      simp [clientTimeout]
    · intro c hc
      rw [heff, clientTimeout_append, clientTimeout_append,
        clientTimeout_of_no_write _ _ _ hnr, clientTimeout_of_no_write _ _ _ hpost]
      have hc2 : ¬ (_newDoOpt opts).httpCli.getD DefaultHTTPClient = c := fun h => hc h.symm
      simp [clientTimeout, hc2]
  · intro hno c
    have heff : (_doWithContext env method rawURL data opts).effects
        = ((_newDoOpt opts).NewRequest env method rawURL data).effects := by
      unfold _doWithContext
      cases hout : ((_newDoOpt opts).NewRequest env method rawURL data).out with
      | ok req => exact absurd hout (hno req)
      | error e => simp only [hout]
      | panic v => simp only [hout]
    rw [heff]
    exact clientTimeout_of_no_write _ _ _ hnr

/-- C25, as amended, at a client given through `withDoHTTPCli` whose timeout was five
seconds: it is 0 after the call. -/
theorem doWithContext_clears_timeout_witness :
    clientTimeout exampleClient (5 * Second)
      (_doWithContext (exampleEnv exampleMarshal (exampleReply "ok")) "GET"
        "https://open.feishu.cn/x" none [withDoHTTPCli (some exampleClient)]).effects = 0 :=
  ((doWithContext_clears_timeout (exampleEnv exampleMarshal (exampleReply "ok")) "GET"
    "https://open.feishu.cn/x" none [withDoHTTPCli (some exampleClient)] (5 * Second)).1
    { method := "GET", url := "https://open.feishu.cn/x", header := ∅,
      body := .buffer "null\n" } (by rfl)).2.2.1

/-- C25 as stated fails: a client given through `withDoHTTPCli` with a
timeout of five seconds, and the shared `DefaultHTTPClient` with the same
timeout when no client is given, have timeout 0 after the call. -/
theorem doWithContext_timeout_counterexample :
    clientTimeout exampleClient (5 * Second)
      (_doWithContext (exampleEnv exampleMarshal (exampleReply "ok")) "GET"
        "https://open.feishu.cn/x" none [withDoHTTPCli (some exampleClient)]).effects = 0 ∧
    clientTimeout DefaultHTTPClient (5 * Second)
      (_doWithContext (exampleEnv exampleMarshal (exampleReply "ok")) "GET"
        "https://open.feishu.cn/x" none []).effects = 0 ∧
    (0 : Int) ≠ 5 * Second := by
  refine ⟨by rfl, by rfl, by decide⟩

/-! ### The files opened for an upload -/

/-- The open files after two runs in a row. -/
theorem openFiles_append (before : List String) (l1 l2 : List Effect) :
    openFiles before (l1 ++ l2) = openFiles (openFiles before l1) l2 := by
  induction l1 generalizing before with
  | nil => rfl
  | cons e rest ih => cases e <;> simp [openFiles, ih]

/-- Logging opens and closes no file. -/
theorem openFiles_debugLog (before : List String) (opt : _doOpt) (msg : String) :
    openFiles before (opt.debugLog msg) = before := by
  rcases debugLog_cases opt msg with h | ⟨l, line, h⟩ <;> simp [h, openFiles]

/-- A file that is opened and then closed leaves the open files as they
were. -/
theorem openFiles_open_close (before : List String) (name : String) (rest : List Effect) :
    openFiles before (.fileOpen name :: .fileClose name :: rest) = openFiles before rest := by
  simp [openFiles]

/-- One pass of the upload loop leaves the open files as they were, unless
the file of the part was opened and could not be copied to its end: then the
pass returns the error of the copy and the file stays open. -/
theorem uploadPart_openFiles {Data : Type} (env : Env Data) (opt : _doOpt)
    (method rawURL : String) (fd : _doFormData) (before : List String) :
    openFiles before (uploadPart env opt method rawURL fd).effects = before ∨
    (fd.needToReadFile = true ∧ ∃ f e, env.openFile fd.filename = .ok f ∧
      f.content = .error e ∧ (uploadPart env opt method rawURL fd).out = .error e ∧
      openFiles before (uploadPart env opt method rawURL fd).effects
        = before ++ [fd.filename]) := by
  by_cases hneed : fd.needToReadFile = true
  · cases hopen : env.openFile fd.filename with
    | error e =>
      left
      have hval : uploadPart env opt method rawURL fd = { effects := [], out := .error e } := by
        unfold uploadPart
        simp only [hneed, if_true, hopen]
      rw [hval]
      rfl
    | ok f =>
      cases hcontent : f.content with
      | error e =>
        right
        have hval : uploadPart env opt method rawURL fd
            = { effects := [.fileOpen fd.filename], out := .error e } := by
          unfold uploadPart
          simp only [hneed, if_true, hopen, hcontent]
        rw [hval]
        exact ⟨hneed, f, e, rfl, hcontent, rfl, rfl⟩
      | ok bytes =>
        left
        have hval : (uploadPart env opt method rawURL fd).effects
            = .fileOpen fd.filename :: .fileClose fd.filename ::
                (match f.closeErr with
                 | none => []
                 | some err => opt.debugLog ("--> [" ++ opt.apiDomain ++ " - " ++ opt.apiName
                     ++ "] " ++ method ++ " " ++ rawURL ++ "\nfilename: " ++ fd.filename
                     ++ ": unexpected close: " ++ err.Error)) := by
          unfold uploadPart
          simp only [hneed, if_true, hopen, hcontent]
          rfl
        rw [hval, openFiles_open_close]
        split
        · rfl
        · exact openFiles_debugLog _ _ _
  · left
    have hfalse : fd.needToReadFile = false := by simpa using hneed
    unfold uploadPart
    simp only [hfalse, Bool.false_eq_true, if_false]
    split <;> rfl

/-- When the upload loop succeeds, every file it opened is closed. -/
theorem uploadLoop_openFiles_ok {Data : Type} (env : Env Data) (opt : _doOpt)
    (method rawURL : String) (fds : List _doFormData) (name0 : String) (before : List String)
    (parts : List MIMEPart) (name : String)
    (h : (uploadLoop env opt method rawURL fds name0).out = .ok (parts, name)) :
    openFiles before (uploadLoop env opt method rawURL fds name0).effects = before := by
  induction fds generalizing name0 parts name with
  | nil => rfl
  | cons fd rest ih =>
    unfold uploadLoop at h ⊢
    dsimp only at h ⊢
    cases hp : (uploadPart env opt method rawURL fd).out with
    | error e =>
      simp only [hp] at h
      cases h
    | panic v =>
      simp only [hp] at h
      cases h
    | ok part =>
      simp only [hp] at h ⊢
      have hpart : openFiles before (uploadPart env opt method rawURL fd).effects = before := by
        rcases uploadPart_openFiles env opt method rawURL fd before with h1 | ⟨_, f, e, _, _, h1, _⟩
        · exact h1
        · rw [hp] at h1
          cases h1
      rw [openFiles_append, hpart]
      cases hr : (uploadLoop env opt method rawURL rest
          (if fd.filename != "" then fd.filename else name0)).out with
      | error e =>
        simp only [hr] at h
        cases h
      | panic v =>
        simp only [hr] at h
        cases h
      | ok r =>
        obtain ⟨ps, n⟩ := r
        exact ih _ ps n hr

/-- When `newUploadReq` returns a request, every file it opened is closed. -/
theorem newUploadReq_openFiles_ok {Data : Type} (env : Env Data) (opt : _doOpt)
    (method rawURL : String) (before : List String) (req : Request)
    (h : (opt.newUploadReq env method rawURL).out = .ok req) :
    openFiles before (opt.newUploadReq env method rawURL).effects = before := by
  unfold _doOpt.newUploadReq at h ⊢
  dsimp only at h ⊢
  cases hl : (uploadLoop env opt method rawURL opt.uploadFormData "").out with
  | error e =>
    simp only [hl] at h
    cases h
  | panic v =>
    simp only [hl] at h
    cases h
  | ok r =>
    obtain ⟨parts, name⟩ := r
    have hloop := uploadLoop_openFiles_ok env opt method rawURL opt.uploadFormData "" before
      parts name hl
    simp only [hl] at h ⊢
    cases hreq : env.newRequestErr method rawURL with
    | some e =>
      simp only [hreq] at h
      cases h
    | none =>
      simp only []
      rw [openFiles_append, hloop, openFiles_debugLog]

/-- C26 fails on the code: a file that `newUploadReq` opened stays open when
streaming it into its part fails. For one file part `a.png` read from its
path, in an environment where the file can be opened but not read to its end,
`newUploadReq` opens the file, returns the error of the copy and never closes
the file: the file is open after the call although no file was open before
it. -/
theorem newUploadReq_leaves_file_open :
    ((_newDoOpt [withDoUploadFormFile "image" "a.png" true none]).newUploadReq
        exampleBrokenFileEnv "POST" "https://open.feishu.cn/x")
      = { effects := [.fileOpen "a.png"],
          out := .error (.errorString "read a.png: input/output error") } ∧
    openFiles []
      ((_newDoOpt [withDoUploadFormFile "image" "a.png" true none]).newUploadReq
        exampleBrokenFileEnv "POST" "https://open.feishu.cn/x").effects = ["a.png"] := by
  refine ⟨by rfl, by rfl⟩

end Feishu
